import Mathlib

/-!
# nanocall: pore model and per-read driver

A shallow embedding of `src/Pore_Model.hpp` and of the training / decoding
driver of `src/nanocall/nanocall.cpp`, followed by the properties proved about
them.

The C++ sources are templates over `Float_Type`.  The pore-model definitions
below are generic over that type as well: the field operations come from a
`Field` instance and the three library ingredients (`std::log`, `pow`, `M_PI`)
from a `Float_Ops` record.  Theorems that speak about the mathematical
logarithm instantiate the template at the real numbers (`real_ops`), so
rounding is not modelled.
-/

namespace Nanocall

/-! ## Pore_Model.hpp -/

/-- The library functions and constants `Pore_Model.hpp` takes from `<cmath>`:
`std::log`, `pow` and `M_PI`. -/
structure Float_Ops (Float_Type : Type) where
  log : Float_Type → Float_Type
  pow : Float_Type → Float_Type → Float_Type
  pi : Float_Type

/-- The template instantiated at the real numbers: natural logarithm, real
power and the number pi. -/
noncomputable def real_ops : Float_Ops ℝ where
  log := Real.log
  pow := fun x y => x ^ y
  pi := Real.pi

/-- Modelled from the spec: the event record of `Event.hpp` (not among the
sources), "{mean, stdv, log_stdv (= ln stdv, precomputed), start_time,
length}". -/
structure Event (Float_Type : Type) where
  mean : Float_Type
  stdv : Float_Type
  log_stdv : Float_Type
  start_time : Float_Type
  length : Float_Type

/-- The fields of `fast5::Model_Entry` (`fast5.hpp`, not among the sources)
that `Pore_Model_State::operator =` reads. -/
structure Model_Entry (Float_Type : Type) where
  level_mean : Float_Type
  level_stdv : Float_Type
  sd_mean : Float_Type
  sd_stdv : Float_Type

/-- `log_normal_pdf` (Pore_Model.hpp:21-28). -/
def log_normal_pdf {Float_Type : Type} [Field Float_Type] (ops : Float_Ops Float_Type)
    (x mean stdv log_stdv : Float_Type) : Float_Type :=
  let log_2pi := ops.log (2 * ops.pi)
  let a := (x - mean) / stdv
  (-log_stdv - (log_2pi + a * a) / 2)

/-- `log_invgauss_pdf` (Pore_Model.hpp:30-37). -/
def log_invgauss_pdf {Float_Type : Type} [Field Float_Type] (ops : Float_Ops Float_Type)
    (x log_x mu lambda log_lambda : Float_Type) : Float_Type :=
  let log_2pi := ops.log (2 * ops.pi)
  let a := (x - mu) / mu
  (log_lambda - log_2pi - 3 * log_x - lambda * a * a / x) / 2

/-- `struct Pore_Model_Parameters` (Pore_Model.hpp:39-60). -/
structure Pore_Model_Parameters (Float_Type : Type) where
  scale : Float_Type
  shift : Float_Type
  drift : Float_Type
  var : Float_Type
  scale_sd : Float_Type
  var_sd : Float_Type

/-- `struct Pore_Model_State` (Pore_Model.hpp:62-75). -/
structure Pore_Model_State (Float_Type : Type) where
  level_mean : Float_Type
  level_stdv : Float_Type
  log_level_stdv : Float_Type
  sd_mean : Float_Type
  sd_stdv : Float_Type
  sd_lambda : Float_Type
  log_sd_stdv : Float_Type
  log_sd_lambda : Float_Type

namespace Pore_Model_State

variable {Float_Type : Type} [Field Float_Type]

/-- `update_sd_lambda` (Pore_Model.hpp:89):
`sd_lambda = pow(sd_mean, 3.0) / pow(sd_stdv, 2.0)`. -/
def update_sd_lambda (ops : Float_Ops Float_Type) (s : Pore_Model_State Float_Type) :
    Pore_Model_State Float_Type :=
  { s with sd_lambda := ops.pow s.sd_mean 3 / ops.pow s.sd_stdv 2 }

/-- `update_sd_stdv` (Pore_Model.hpp:92):
`sd_stdv = pow(pow(sd_mean, 3.0) / sd_lambda, .5)`. -/
def update_sd_stdv (ops : Float_Ops Float_Type) (s : Pore_Model_State Float_Type) :
    Pore_Model_State Float_Type :=
  { s with sd_stdv := ops.pow (ops.pow s.sd_mean 3 / s.sd_lambda) (1 / 2) }

/-- `update_logs` (Pore_Model.hpp:95-99). -/
def update_logs (ops : Float_Ops Float_Type) (s : Pore_Model_State Float_Type) :
    Pore_Model_State Float_Type :=
  { s with log_level_stdv := ops.log s.level_stdv, log_sd_lambda := ops.log s.sd_lambda }

/-- `operator = (const fast5::Model_Entry&)` (Pore_Model.hpp:77-86): the four
primary fields are copied, then `sd_lambda` and the logs are recomputed;
`log_sd_stdv` keeps the value it had. -/
def assign (ops : Float_Ops Float_Type) (s : Pore_Model_State Float_Type)
    (e : Model_Entry Float_Type) : Pore_Model_State Float_Type :=
  update_logs ops (update_sd_lambda ops
    { s with level_mean := e.level_mean, level_stdv := e.level_stdv,
             sd_mean := e.sd_mean, sd_stdv := e.sd_stdv })

/-- `Pore_Model_State::scale` (Pore_Model.hpp:101-110). -/
def scale (ops : Float_Ops Float_Type) (s : Pore_Model_State Float_Type)
    (params : Pore_Model_Parameters Float_Type) : Pore_Model_State Float_Type :=
  let s1 := { s with level_mean := s.level_mean * params.scale + params.shift }
  let s2 := { s1 with level_stdv := s1.level_stdv * params.var }
  let s3 := { s2 with sd_mean := s2.sd_mean * params.scale_sd }
  let s4 := { s3 with sd_lambda := s3.sd_lambda * params.var_sd }
  update_logs ops (update_sd_stdv ops s4)

/-- `Pore_Model_State::log_pr_emission` (Pore_Model.hpp:112-116). -/
def log_pr_emission (ops : Float_Ops Float_Type) (s : Pore_Model_State Float_Type)
    (e : Event Float_Type) : Float_Type :=
  log_normal_pdf ops e.mean s.level_mean s.level_stdv s.log_level_stdv
    + log_invgauss_pdf ops e.stdv e.log_stdv s.sd_mean s.sd_lambda s.log_sd_lambda

end Pore_Model_State

/-- `Pore_Model::n_states = 1u << (2 * Kmer_Size)` (Pore_Model.hpp:128). -/
def n_states (Kmer_Size : Nat) : Nat := 1 <<< (2 * Kmer_Size)

/-- `class Pore_Model` (Pore_Model.hpp:120-196).  The private vector `_state`
is created with `n_states` entries by the constructor and by `clear()` and is
never resized otherwise; that size is part of the type here. -/
structure Pore_Model (Float_Type : Type) (Kmer_Size : Nat) where
  _state : List (Pore_Model_State Float_Type)
  size_ok : _state.length = n_states Kmer_Size

namespace Pore_Model

variable {Float_Type : Type} {Kmer_Size : Nat}

/-- `state(i)`, that is `_state.at(i)` (Pore_Model.hpp:133-134), for an index in
range. -/
def state (pm : Pore_Model Float_Type Kmer_Size) (i : Fin (n_states Kmer_Size)) :
    Pore_Model_State Float_Type :=
  pm._state.get (i.cast pm.size_ok.symm)

/-- Assignment through the reference returned by `state(i)`. -/
def set_state (pm : Pore_Model Float_Type Kmer_Size) (i : Fin (n_states Kmer_Size))
    (s : Pore_Model_State Float_Type) : Pore_Model Float_Type Kmer_Size where
  _state := pm._state.set i s
  size_ok := by rw [List.length_set]; exact pm.size_ok

/-- The loop `for (unsigned i = ...; i < n_states; ++i) state(i).scale(params)`
of `Pore_Model::scale`, started at index `i`. -/
def scale_from [Field Float_Type] (ops : Float_Ops Float_Type)
    (params : Pore_Model_Parameters Float_Type) (i : Nat)
    (pm : Pore_Model Float_Type Kmer_Size) : Pore_Model Float_Type Kmer_Size :=
  if h : i < n_states Kmer_Size then
    scale_from ops params (i + 1)
      (pm.set_state ⟨i, h⟩ ((pm.state ⟨i, h⟩).scale ops params))
  else pm
termination_by n_states Kmer_Size - i

/-- `Pore_Model::scale` (Pore_Model.hpp:136-142). -/
def scale [Field Float_Type] (ops : Float_Ops Float_Type)
    (pm : Pore_Model Float_Type Kmer_Size)
    (params : Pore_Model_Parameters Float_Type) : Pore_Model Float_Type Kmer_Size :=
  scale_from ops params 0 pm

/-- `Pore_Model::log_pr_emission` (Pore_Model.hpp:188-192). -/
def log_pr_emission [Field Float_Type] (ops : Float_Ops Float_Type)
    (pm : Pore_Model Float_Type Kmer_Size) (i : Fin (n_states Kmer_Size))
    (e : Event Float_Type) : Float_Type :=
  let res := (pm.state i).log_pr_emission ops e
  res

end Pore_Model

/-- The derived fields of a state agree with its primary fields: both log
caches are the logs of `level_stdv` and `sd_lambda`, and `sd_stdv` is what
`update_sd_stdv` computes from `sd_mean` and `sd_lambda`. -/
def Pore_Model_State.caches_consistent {Float_Type : Type} [Field Float_Type]
    (ops : Float_Ops Float_Type) (s : Pore_Model_State Float_Type) : Prop :=
  s.log_level_stdv = ops.log s.level_stdv
    ∧ s.log_sd_lambda = ops.log s.sd_lambda
    ∧ s.sd_stdv = ops.pow (ops.pow s.sd_mean 3 / s.sd_lambda) (1 / 2)

/-! ### Closed-form densities the emission is compared with -/

/-- The normal density `N(x | m, s) = exp(-(x-m)^2 / (2 s^2)) / (s * sqrt(2 pi))`. -/
noncomputable def normal_pdf (x m s : ℝ) : ℝ :=
  Real.exp (-(x - m) ^ 2 / (2 * s ^ 2)) / (s * Real.sqrt (2 * Real.pi))

/-- The inverse-Gaussian density
`InvGauss(x | mu, lambda) = sqrt(lambda / (2 pi x^3)) * exp(-lambda (x-mu)^2 / (2 mu^2 x))`. -/
noncomputable def invgauss_pdf (x mu lambda : ℝ) : ℝ :=
  Real.sqrt (lambda / (2 * Real.pi * x ^ 3))
    * Real.exp (-lambda * (x - mu) ^ 2 / (2 * mu ^ 2 * x))

/-- The identity parameter set: scale=1, shift=0, drift=0, var=1, scale_sd=1,
var_sd=1. -/
def identity_parameters (Float_Type : Type) [Field Float_Type] :
    Pore_Model_Parameters Float_Type where
  scale := 1
  shift := 0
  drift := 0
  var := 1
  scale_sd := 1
  var_sd := 1

/-! ## nanocall.cpp: the per-model training loop

`FLOAT_TYPE` values that can be `-INFINITY` (the fits) are modelled as
`WithBot Float_Type`: `⊥` is `-INFINITY`, below every number and absorbing for
addition, as in IEEE arithmetic.  `Parameter_Trainer::train_one_round`
(Parameter_Trainer.hpp) is not among the sources; the loop takes it as a
parameter. -/

/-- What a call of `Parameter_Trainer::train_one_round` leaves in its four
output arguments `crt_pm_params`, `crt_st_params`, `crt_fit` and `done`
(nanocall.cpp:412-418, 534-540). -/
structure Round_Result (Params St_Params Float_Type : Type) where
  crt_pm_params : Params
  crt_st_params : St_Params
  crt_fit : WithBot Float_Type
  done : Bool

/-- A stand-in for `Parameter_Trainer::train_one_round` with the training
events, the models, the default transitions and the two training flags fixed:
the reply to the call number `k` of a loop (counted from 0) on the inputs
`old_pm_params`, `old_st_params` and the incoming value of `crt_fit`. -/
abbrev Trainer (Params St_Params Float_Type : Type) :=
  Nat → Params → St_Params → WithBot Float_Type → Round_Result Params St_Params Float_Type

/-- The variables of the per-model training loop (nanocall.cpp:397-403,
519-525) at the head of an iteration.  `calls` is a ghost counter: the number
of `train_one_round` calls made so far in this loop. -/
structure Train_State (Params St_Params Float_Type : Type) where
  round : Nat
  crt_pm_params : Params
  crt_st_params : St_Params
  crt_fit : WithBot Float_Type
  calls : Nat

/-- How one pass through the body of `while (true)` ends: at the closing brace
(`next`, the loop goes on) or at a `break` (`exit`). -/
inductive Loop_Step (σ : Type) where
  | next (s : σ)
  | exit (s : σ)

section Training

variable {Params St_Params Float_Type : Type} [LinearOrderedAddCommGroup Float_Type]

/-- The state before the first iteration: `round = 0`, `crt_fit = -INFINITY`,
the parameters as stored in the read summary (nanocall.cpp:397-403, 519-525). -/
def train_init (pm_params : Params) (st_params : St_Params) :
    Train_State Params St_Params Float_Type where
  round := 0
  crt_pm_params := pm_params
  crt_st_params := st_params
  crt_fit := ⊥
  calls := 0

/-- The body of the training loop (nanocall.cpp:404-467 and 526-585; the two
copies differ only in the round cap `cap`).  The variable `round` is `unsigned`;
it never exceeds `cap`, itself an `unsigned`, so `++round` does not wrap. -/
def train_round (train_one_round : Trainer Params St_Params Float_Type) (cap : Nat)
    (scaling_min_progress : Float_Type) (s : Train_State Params St_Params Float_Type) :
    Loop_Step (Train_State Params St_Params Float_Type) :=
  let old_pm_params := s.crt_pm_params
  let old_st_params := s.crt_st_params
  let old_fit := s.crt_fit
  let r := train_one_round s.calls old_pm_params old_st_params old_fit
  if r.done = true then
    -- singularity detected; stop
    Loop_Step.exit
      { round := s.round, crt_pm_params := r.crt_pm_params, crt_st_params := r.crt_st_params,
        crt_fit := r.crt_fit, calls := s.calls + 1 }
  else if r.crt_fit < old_fit then
    Loop_Step.exit
      { round := s.round, crt_pm_params := old_pm_params, crt_st_params := old_st_params,
        crt_fit := old_fit, calls := s.calls + 1 }
  else
    let round := s.round + 1
    -- stop condition
    if cap ≤ round ∨ (1 < round ∧ r.crt_fit < old_fit + (scaling_min_progress : WithBot Float_Type))
    then
      Loop_Step.exit
        { round := round, crt_pm_params := r.crt_pm_params, crt_st_params := r.crt_st_params,
          crt_fit := r.crt_fit, calls := s.calls + 1 }
    else
      Loop_Step.next
        { round := round, crt_pm_params := r.crt_pm_params, crt_st_params := r.crt_st_params,
          crt_fit := r.crt_fit, calls := s.calls + 1 }

set_option linter.unusedVariables false in
/-- The loop `while (true) { ... }` run from the state `s` to its `break`. -/
def train_loop (train_one_round : Trainer Params St_Params Float_Type) (cap : Nat)
    (scaling_min_progress : Float_Type) (s : Train_State Params St_Params Float_Type) :
    Train_State Params St_Params Float_Type :=
  match h : train_round train_one_round cap scaling_min_progress s with
  | Loop_Step.exit s2 => s2
  | Loop_Step.next s2 => train_loop train_one_round cap scaling_min_progress s2
termination_by cap - s.round
decreasing_by
  simp only [train_round] at h
  split_ifs at h with h1 h2 h3
  simp only [Loop_Step.next.injEq] at h
  subst h
  simp only [not_or, not_le] at h3
  have := h3.1
  show cap - (s.round + 1) < cap - s.round
  omega

/-- The round cap of the stop condition: `opts::scaling_max_rounds` in the
single-strand loop (nanocall.cpp:578), the `unsigned` product
`2u * opts::scaling_max_rounds` in the double-strand loop (nanocall.cpp:460). -/
def round_cap (scale_strands_together : Bool) (scaling_max_rounds : Nat) : Nat :=
  if scale_strands_together then (2 * scaling_max_rounds) % 2 ^ 32 else scaling_max_rounds

/-- Training of one candidate: the loop of nanocall.cpp:397-467 for a model
pair when the strands are scaled together, the loop of nanocall.cpp:519-585 for
a model of one strand otherwise.  The two loops are the same text up to the
round cap and the models handed to `train_one_round`. -/
def train_model (scale_strands_together : Bool)
    (train_one_round : Trainer Params St_Params Float_Type)
    (scaling_max_rounds : Nat) (scaling_min_progress : Float_Type)
    (pm_params : Params) (st_params : St_Params) : Train_State Params St_Params Float_Type :=
  train_loop train_one_round (round_cap scale_strands_together scaling_max_rounds)
    scaling_min_progress (train_init pm_params st_params)

/-- The state `t` is the head of some iteration of the loop started in `s`. -/
inductive Loop_Head (train_one_round : Trainer Params St_Params Float_Type) (cap : Nat)
    (scaling_min_progress : Float_Type) (s : Train_State Params St_Params Float_Type) :
    Train_State Params St_Params Float_Type → Prop where
  | first : Loop_Head train_one_round cap scaling_min_progress s s
  | later {t u : Train_State Params St_Params Float_Type} :
      Loop_Head train_one_round cap scaling_min_progress s t →
      train_round train_one_round cap scaling_min_progress t = Loop_Step.next u →
      Loop_Head train_one_round cap scaling_min_progress s u

/-- The loop variables after a round at the head `t` whose result is kept:
`round` incremented, parameters and fit as `train_one_round` returned them. -/
def kept_round (train_one_round : Trainer Params St_Params Float_Type)
    (t : Train_State Params St_Params Float_Type) : Train_State Params St_Params Float_Type where
  round := t.round + 1
  crt_pm_params := (train_one_round t.calls t.crt_pm_params t.crt_st_params t.crt_fit).crt_pm_params
  crt_st_params := (train_one_round t.calls t.crt_pm_params t.crt_st_params t.crt_fit).crt_st_params
  crt_fit := (train_one_round t.calls t.crt_pm_params t.crt_st_params t.crt_fit).crt_fit
  calls := t.calls + 1

/-- The improvement `new fit - old fit` is a number smaller than
`scaling_min_progress`.  With `old = -INFINITY` the difference is `+INFINITY`
or undefined and is not smaller than any number. -/
def improvement_below (new_fit old_fit : WithBot Float_Type)
    (scaling_min_progress : Float_Type) : Prop :=
  ∃ n o : Float_Type, new_fit = (n : WithBot Float_Type) ∧ old_fit = (o : WithBot Float_Type)
    ∧ n - o < scaling_min_progress

end Training

/-! ## nanocall.cpp: model selection after training -/

/-- A key of the per-read parameter maps, `std::array<std::string, 2>`: the
model names for strand 0 and strand 1 (empty when the strand has none). -/
abbrev Model_Key := String × String

/-- Read `key[st]`. -/
def Model_Key.get (key : Model_Key) (st : Fin 2) : String :=
  if st = 0 then key.1 else key.2

/-- Assign `key[st] = name`. -/
def Model_Key.set (key : Model_Key) (st : Fin 2) (name : String) : Model_Key :=
  if st = 0 then (name, key.2) else (key.1, name)

/-- The member `preferred_model` of `Fast5_Summary` (Fast5_Summary.hpp, not
among the sources): three rows, one for each strand alone and row 2 for the
two strands scaled together, each of them a `Model_Key`. -/
abbrev Preferred_Model := Fin 3 → Model_Key

section Selection

variable {Key Float_Type : Type} [LinearOrderedAddCommGroup Float_Type]

/-- The scan of `max_of` over the remaining entries: `best` is the position and
entry of the largest fit seen so far, `i` the position of the next entry. -/
def max_of_from (best : Nat × (Key × WithBot Float_Type)) (i : Nat) :
    List (Key × WithBot Float_Type) → Nat × (Key × WithBot Float_Type)
  | [] => best
  | p :: ps => if best.2.2 < p.2 then max_of_from (i, p) (i + 1) ps
               else max_of_from best (i + 1) ps

/-- Modelled from the spec: `alg::max_of(model_fit, p -> p.second)` (alg.hpp,
not among the sources), "compute the best-fit log-likelihood": the position and
the entry of the first largest fit in iteration order, as `std::max_element`
finds it; `none` is the `end()` of an empty map. -/
def max_of : List (Key × WithBot Float_Type) → Option (Nat × (Key × WithBot Float_Type))
  | [] => none
  | p :: ps => some (max_of_from (0, p) 1 ps)

/-- The `alg::all_of` test of nanocall.cpp:484-491 and 599-607: every entry `p`
of `model_fit` is the maximum itself (`&p == &*it_max`) or satisfies
`p.second + scaling_select_threshold < it_max->second`. -/
def clears_threshold (model_fit : List (Key × WithBot Float_Type))
    (it_max : Nat × (Key × WithBot Float_Type)) (threshold : Float_Type) : Bool :=
  model_fit.enum.all fun ip =>
    decide (ip.1 = it_max.1) || decide (ip.2.2 + (threshold : WithBot Float_Type) < it_max.2.2)

/-- The selection step of nanocall.cpp:477-501 and 593-615 up to the write to
`preferred_model`.  The threshold is a `float` that may be `INFINITY` (`⊤`).
Result: `none` when the code dereferences `end()` (empty `model_fit` with a
finite threshold), `some none` when nothing is selected, `some (some key)` when
the entry `key` is selected. -/
def select_model (scaling_select_threshold : WithTop Float_Type)
    (model_fit : List (Key × WithBot Float_Type)) : Option (Option Key) :=
  match scaling_select_threshold with
  | ⊤ => some none
  | (threshold : Float_Type) =>
    match max_of model_fit with
    | none => none
    | some it_max =>
      if clears_threshold model_fit it_max threshold = true then some (some it_max.2.1)
      else some none

/-- Selection in single-strand mode (nanocall.cpp:593-615): a selected name is
written to `preferred_model[st][st]`. -/
def select_single (scaling_select_threshold : WithTop Float_Type) (st : Fin 2)
    (model_fit : List (String × WithBot Float_Type)) (preferred_model : Preferred_Model) :
    Option Preferred_Model :=
  (select_model scaling_select_threshold model_fit).map fun selected =>
    match selected with
    | none => preferred_model
    | some m_name =>
      Function.update preferred_model st.castSucc ((preferred_model st.castSucc).set st m_name)

/-- Selection in double-strand mode (nanocall.cpp:477-501): the two names of a
selected pair are written to `preferred_model[2][0]` and `preferred_model[2][1]`. -/
def select_double (scaling_select_threshold : WithTop Float_Type)
    (model_fit : List (Model_Key × WithBot Float_Type)) (preferred_model : Preferred_Model) :
    Option Preferred_Model :=
  (select_model scaling_select_threshold model_fit).map fun selected =>
    match selected with
    | none => preferred_model
    | some m_name =>
      Function.update preferred_model 2 (((preferred_model 2).set 0 m_name.1).set 1 m_name.2)

/-- The highest of a list of fits (`-INFINITY` for the empty list): "L1". -/
def best_fit (fits : List (WithBot Float_Type)) : WithBot Float_Type :=
  fits.foldr max ⊥

/-- The second highest of a list of fits, that is the highest after one
occurrence of the highest has been taken out: "L2". -/
def second_best_fit (fits : List (WithBot Float_Type)) : WithBot Float_Type :=
  best_fit (fits.erase (best_fit fits))

/-- The fits held in `model_fit`, in iteration order. -/
def fits_of (model_fit : List (Key × WithBot Float_Type)) : List (WithBot Float_Type) :=
  model_fit.map Prod.snd

end Selection

/-- No model preferred for any strand: all names empty. -/
def no_preference : Preferred_Model := fun _ => ("", "")

/-! ## nanocall.cpp: decoding (single-strand scaling)

The lambda `basecall_strand` (nanocall.cpp:686-724) scales the model, runs the
Viterbi decoder of Viterbi.hpp (not among the sources) and returns the pair
(path probability, base sequence); it is a parameter here.  Log statements are
left out, the `at` look-ups made only for the log line of nanocall.cpp:847-854
among them.  Path probabilities live in a linear order, so NaN is not
modelled. -/

/-- The members of `Fast5_Summary` (Fast5_Summary.hpp, not among the sources)
that `basecall_reads` uses: `preferred_model`, the two parameter maps
(`std::map` keyed by `Model_Key`, listed in iteration order) and the number of
events of each strand, `events(st).size()`. -/
structure Fast5_Summary (Params St_Params : Type) where
  preferred_model : Preferred_Model
  pm_params_m : List (Model_Key × Params)
  st_params_m : List (Model_Key × (Fin 2 → St_Params))
  num_events : Fin 2 → Nat

/-- `std::map::at`: the value stored under `key`, `none` when `at` throws. -/
def map_at {Value : Type} : List (Model_Key × Value) → Model_Key → Option Value
  | [], _ => none
  | (k, v) :: rest, key => if k = key then some v else map_at rest key

/-- `operator<` of `std::tuple` with three components: lexicographic, each
component compared with its own `<`. -/
def tuple_lt {A B C : Type} [LT A] [LT B] [LT C] (x y : A × B × C) : Prop :=
  x.1 < y.1 ∨ (¬ y.1 < x.1 ∧ (x.2.1 < y.2.1 ∨ (¬ y.2.1 < x.2.1 ∧ x.2.2 < y.2.2)))

instance tuple_lt_decidable {A B C : Type} [LT A] [LT B] [LT C]
    [DecidableRel (fun a b : A => a < b)] [DecidableRel (fun a b : B => a < b)]
    [DecidableRel (fun a b : C => a < b)] : DecidableRel (fun x y : A × B × C => tuple_lt x y) :=
  fun x y => by unfold tuple_lt; infer_instance

/-- `std::sort(first, last)` on the elements' `<`: the ascending rearrangement
of the sequence.  For a total order it is unique, whatever algorithm
the library uses; insertion sort computes it here. -/
def std_sort {α : Type} (lt : α → α → Prop) [DecidableRel lt] (l : List α) : List α :=
  l.insertionSort (fun x y => ¬ lt y x)

section Decoding

variable {Params St_Params Float_Type : Type} [LinearOrder Float_Type]

/-- The candidate list `model_sublist` of a strand in single-strand mode
(nanocall.cpp:817-832): the preferred key of the strand if its name for this
strand is not empty, else every key of `pm_params_m` that names a model for
this strand and none for the other. -/
def model_sublist_single (read_summary : Fast5_Summary Params St_Params) (st : Fin 2) :
    List Model_Key :=
  if (read_summary.preferred_model st.castSucc).get st ≠ "" then
    [read_summary.preferred_model st.castSucc]
  else
    (read_summary.pm_params_m.map Prod.fst).filter
      (fun p => decide (p.get st ≠ "" ∧ p.get (1 - st) = ""))

/-- The loop that fills `results` (nanocall.cpp:834-841): one tuple
(path probability, model name, base sequence) per candidate; `none` when an
`at` throws. -/
def basecall_results (basecall_strand : Fin 2 → String → Params → St_Params → Float_Type × String)
    (read_summary : Fast5_Summary Params St_Params) (st : Fin 2) :
    List Model_Key → Option (List (Float_Type × String × String))
  | [] => some []
  | m_name :: rest =>
    match map_at read_summary.pm_params_m m_name, map_at read_summary.st_params_m m_name with
    | some pm_params, some st_params =>
      let r := basecall_strand st (m_name.get st) pm_params (st_params st)
      match basecall_results basecall_strand read_summary st rest with
      | some results => some ((r.1, m_name.get st, r.2) :: results)
      | none => none
    | _, _ => none

/-- What the decoding of one strand leaves behind: the read summary with
`preferred_model[st][st]` written, and the path probability, the model name and
the base sequence of `results.back()`; the base sequence is the one handed to
`write_fasta` (or kept in `read_seqs[st]` for the 2D alignment). -/
structure Strand_Call (Params St_Params Float_Type : Type) where
  read_summary : Fast5_Summary Params St_Params
  log_path_prob : Float_Type
  best_m_name : String
  base_seq : String

/-- How the loop body for one strand ends: the strand is ignored (not enough
events), the body fails (an `at` throws, or `back()` of an empty deque), or
the strand is decoded. -/
inductive Strand_Outcome (α : Type) where
  | ignored
  | failed
  | decoded (call : α)

/-- The body of `for (unsigned st ...)` in the single-strand branch of
`basecall_reads` (nanocall.cpp:812-865). -/
def basecall_single_strand
    (basecall_strand : Fin 2 → String → Params → St_Params → Float_Type × String)
    (min_read_len : Nat) (read_summary : Fast5_Summary Params St_Params) (st : Fin 2) :
    Strand_Outcome (Strand_Call Params St_Params Float_Type) :=
  -- if not enough events, ignore strand
  if read_summary.num_events st < min_read_len then Strand_Outcome.ignored
  else
    match basecall_results basecall_strand read_summary st
        (model_sublist_single read_summary st) with
    | none => Strand_Outcome.failed
    | some results =>
      match (std_sort tuple_lt results).getLast? with
      | none => Strand_Outcome.failed
      | some back =>
        Strand_Outcome.decoded
          { read_summary :=
              { read_summary with
                preferred_model :=
                  Function.update read_summary.preferred_model st.castSucc
                    ((read_summary.preferred_model st.castSucc).set st back.2.1) }
            log_path_prob := back.1
            best_m_name := back.2.1
            base_seq := back.2.2 }

end Decoding

/-! ## nanocall.cpp: decoding (double-strand scaling) -/

/-- One step of the lexicographic `operator<` of `std::tuple`: the first
components decide unless neither is below the other, then the tails decide. -/
def lex_lt {A R : Type} [LT A] (lt_rest : R → R → Prop) (x y : A × R) : Prop :=
  x.1 < y.1 ∨ (¬ y.1 < x.1 ∧ lt_rest x.2 y.2)

/-- The element type of `results` in the double-strand branch
(nanocall.cpp:759-760): sum of the two path probabilities, the path probability
of strand 0 and of strand 1, the two model names, the two base sequences. -/
abbrev Pair_Result (Float_Type : Type) :=
  Float_Type × Float_Type × Float_Type × String × String × String × String

/-- `operator<` of `std::tuple` with the seven components of `Pair_Result`. -/
def tuple7_lt {Float_Type : Type} [LT Float_Type] (x y : Pair_Result Float_Type) : Prop :=
  lex_lt (lex_lt (lex_lt (lex_lt (lex_lt (lex_lt
    (fun a b : String => a < b)))))) x y

instance tuple7_lt_decidable {Float_Type : Type} [LT Float_Type]
    [DecidableRel (fun a b : Float_Type => a < b)] :
    DecidableRel (fun x y : Pair_Result Float_Type => tuple7_lt x y) :=
  fun x y => by unfold tuple7_lt lex_lt; infer_instance

/-- `operator<` of `std::array<std::string, 2>`, the order in which a
`std::map` keyed by `Model_Key` is kept. -/
def key_lt (a b : Model_Key) : Prop :=
  a.1 < b.1 ∨ (¬ b.1 < a.1 ∧ a.2 < b.2)

instance key_lt_decidable : DecidableRel key_lt :=
  fun a b => by unfold key_lt; infer_instance

/-- The assignment `m[key] = value` of a `std::map`: the value under an existing key is
replaced, a new key is put at its place in key order. -/
def map_set {Value : Type} : List (Model_Key × Value) → Model_Key → Value →
    List (Model_Key × Value)
  | [], key, value => [(key, value)]
  | (k, v) :: rest, key, value =>
    if k = key then (key, value) :: rest
    else if key_lt key k then (key, value) :: (k, v) :: rest
    else (k, v) :: map_set rest key value

section DecodingDouble

variable {Params St_Params Float_Type : Type} [LinearOrder Float_Type] [Add Float_Type]

/-- The candidate list `model_sublist` of a read whose strands are scaled
together (nanocall.cpp:745-757): the preferred pair if its name for strand 0 is
not empty, else every key of `pm_params_m` with a model name for both strands. -/
def model_sublist_double (read_summary : Fast5_Summary Params St_Params) : List Model_Key :=
  if (read_summary.preferred_model 2).get 0 ≠ "" then [read_summary.preferred_model 2]
  else
    (read_summary.pm_params_m.map Prod.fst).filter
      (fun p => decide (¬ (p.get 0 = "" ∨ p.get 1 = "")))

/-- The tuple put into `results` for the pair `m_name` (nanocall.cpp:762-773). -/
def pair_result (basecall_strand : Fin 2 → String → Params → St_Params → Float_Type × String)
    (m_name : Model_Key) (pm_params : Params) (st_params : Fin 2 → St_Params) :
    Pair_Result Float_Type :=
  let part_results : Fin 2 → Float_Type × String :=
    fun st => basecall_strand st (m_name.get st) pm_params (st_params st)
  ((part_results 0).1 + (part_results 1).1, (part_results 0).1, (part_results 1).1,
    m_name.get 0, m_name.get 1, (part_results 0).2, (part_results 1).2)

/-- The loop that fills `results` in the double-strand branch
(nanocall.cpp:761-774); `none` when an `at` throws. -/
def basecall_results_double
    (basecall_strand : Fin 2 → String → Params → St_Params → Float_Type × String)
    (read_summary : Fast5_Summary Params St_Params) :
    List Model_Key → Option (List (Pair_Result Float_Type))
  | [] => some []
  | m_name :: rest =>
    match map_at read_summary.pm_params_m m_name, map_at read_summary.st_params_m m_name with
    | some pm_params, some st_params =>
      match basecall_results_double basecall_strand read_summary rest with
      | some results => some (pair_result basecall_strand m_name pm_params st_params :: results)
      | none => none
    | _, _ => none

/-- One pass of the loop of nanocall.cpp:786-808 over the strands, without the
output: `preferred_model[st][st]` takes the best name of the strand, and the
best parameters are stored under the key `preferred_model[st]`. -/
def store_best [Inhabited St_Params] (read_summary : Fast5_Summary Params St_Params)
    (st : Fin 2) (best_m_name : Model_Key) (best_pm_params : Params)
    (best_st_params : Fin 2 → St_Params) : Fast5_Summary Params St_Params :=
  let preferred_model :=
    Function.update read_summary.preferred_model st.castSucc
      ((read_summary.preferred_model st.castSucc).set st (best_m_name.get st))
  let key := preferred_model st.castSucc
  { read_summary with
    preferred_model := preferred_model
    pm_params_m := map_set read_summary.pm_params_m key best_pm_params
    st_params_m :=
      map_set read_summary.st_params_m key
        (Function.update ((map_at read_summary.st_params_m key).getD (fun _ => default))
          st (best_st_params st)) }

/-- What the decoding of a read with strands scaled together leaves behind:
the updated read summary, the two path probabilities, the pair of model names
and the two base sequences of `results.back()`; the sequences are the ones
handed to `write_fasta` (or kept in `read_seqs` for the 2D alignment). -/
structure Read_Call (Params St_Params Float_Type : Type) where
  read_summary : Fast5_Summary Params St_Params
  best_log_path_prob : Fin 2 → Float_Type
  best_m_name : Model_Key
  base_seq : Fin 2 → String

/-- The double-strand branch of `basecall_reads` (nanocall.cpp:743-809). -/
def basecall_double_strand [Inhabited St_Params]
    (basecall_strand : Fin 2 → String → Params → St_Params → Float_Type × String)
    (read_summary : Fast5_Summary Params St_Params) :
    Strand_Outcome (Read_Call Params St_Params Float_Type) :=
  match basecall_results_double basecall_strand read_summary
      (model_sublist_double read_summary) with
  | none => Strand_Outcome.failed
  | some results =>
    -- sort results by first component (log path probability)
    match (std_sort tuple7_lt results).getLast? with
    | none => Strand_Outcome.failed
    | some back =>
      let best_m_name : Model_Key := (back.2.2.2.1, back.2.2.2.2.1)
      match map_at read_summary.pm_params_m best_m_name,
          map_at read_summary.st_params_m best_m_name with
      | some best_pm_params, some best_st_params =>
        Strand_Outcome.decoded
          { read_summary :=
              store_best (store_best read_summary 0 best_m_name best_pm_params best_st_params)
                1 best_m_name best_pm_params best_st_params
            best_log_path_prob := fun st => if st = 0 then back.2.1 else back.2.2.1
            best_m_name := best_m_name
            base_seq := fun st => if st = 0 then back.2.2.2.2.2.1 else back.2.2.2.2.2.2 }
      | _, _ => Strand_Outcome.failed

end DecodingDouble

/-- What `std::sort` asks of its comparison, a strict weak ordering: `lt` is
asymmetric and "not above" is transitive. -/
def Strict_Weak {α : Type} (lt : α → α → Prop) : Prop :=
  (∀ x y, lt x y → ¬ lt y x) ∧ (∀ x y z, ¬ lt y x → ¬ lt z y → ¬ lt z x)

/-! ## nanocall.cpp: write_fasta

A `std::string` is modelled by a `String` whose characters stand for its bytes;
the output stream by the list of the lines written to it, each ended by
`endl`. -/

/-- `seq.substr(pos, n)` for `pos <= seq.size()`: at most `n` characters from
position `pos` on. -/
def substr (seq : String) (pos n : Nat) : String :=
  String.mk ((seq.data.drop pos).take n)

/-- The loop of `write_fasta` (nanocall.cpp:633-635) from the position `pos`
on: the lines it writes, or `none` when `fuel` iterations do not bring it to
its end.  The counter `pos` is `unsigned`, so `pos += fasta_line_width` wraps
at `2 ^ 32`, while `seq.size()` is a `size_t`. -/
def write_fasta_loop (fasta_line_width : Nat) (seq : String) : Nat → Nat → Option (List String)
  | 0, pos => if pos < seq.length then none else some []
  | fuel + 1, pos =>
    if pos < seq.length then
      (write_fasta_loop fasta_line_width seq fuel ((pos + fasta_line_width) % 2 ^ 32)).map
        (fun lines => substr seq pos fasta_line_width :: lines)
    else some []

/-- `write_fasta` (nanocall.cpp:630-636): the header line, then the lines of the
loop; `none` when `fuel` iterations do not end the loop. -/
def write_fasta (fuel : Nat) (fasta_line_width : Nat) (name seq : String) :
    Option (List String) :=
  (write_fasta_loop fasta_line_width seq fuel 0).map (fun lines => (">" ++ name) :: lines)

/-- The number of lines a sequence of `n` characters takes at `w` characters a
line: `ceil(n / w)`. -/
def lines_needed (n w : Nat) : Nat := (n + w - 1) / w

/-! ## nanocall.cpp: training segments -/

/-- `constexpr size_t num_strands = 2` (nanocall.cpp:34). -/
def num_strands : Nat := 2

/-- The training event sequences of one strand (nanocall.cpp:362-377): none for
a strand with fewer than `min_read_len` events, else the first and the last
`num_train_events / num_strands` events, where `num_train_events` is the
smaller of `scaling_num_events` and the number of events.  The minimum is at
most `scaling_num_events`, an `unsigned`, so its conversion to `unsigned`
loses nothing. -/
def train_event_seqs {Event_Type : Type} (min_read_len scaling_num_events : Nat)
    (events : List Event_Type) : List (List Event_Type) :=
  -- if not enough events, ignore strand
  if events.length < min_read_len then []
  else
    -- create 2 event sequences on which to train
    let num_train_events := min scaling_num_events events.length
    [events.take (num_train_events / num_strands),
     events.drop (events.length - num_train_events / num_strands)]

/-! ## Pore_Model.hpp: the divisions of `log_pr_emission`

A second evaluation of the emission that keeps track of its divisors: the
result is `none` as soon as a division by zero is met.  The constant divisor
`2.0` is not tracked. -/

/-- A division `x / y` of the source: `none` when the divisor is zero. -/
def checked_div {Float_Type : Type} [Field Float_Type] [DecidableEq Float_Type]
    (x y : Float_Type) : Option Float_Type :=
  if y = 0 then none else some (x / y)

/-- `log_normal_pdf` (Pore_Model.hpp:21-28) with its division `(x - mean) / stdv`
checked. -/
def log_normal_pdf_checked {Float_Type : Type} [Field Float_Type] [DecidableEq Float_Type]
    (ops : Float_Ops Float_Type) (x mean stdv log_stdv : Float_Type) : Option Float_Type :=
  let log_2pi := ops.log (2 * ops.pi)
  (checked_div (x - mean) stdv).map fun a => (-log_stdv - (log_2pi + a * a) / 2)

/-- `log_invgauss_pdf` (Pore_Model.hpp:30-37) with its divisions `(x - mu) / mu`
and `lambda * a * a / x` checked. -/
def log_invgauss_pdf_checked {Float_Type : Type} [Field Float_Type] [DecidableEq Float_Type]
    (ops : Float_Ops Float_Type) (x log_x mu lambda log_lambda : Float_Type) :
    Option Float_Type :=
  let log_2pi := ops.log (2 * ops.pi)
  (checked_div (x - mu) mu).bind fun a =>
    (checked_div (lambda * a * a) x).map fun q =>
      (log_lambda - log_2pi - 3 * log_x - q) / 2

/-- `Pore_Model_State::log_pr_emission` (Pore_Model.hpp:112-116) with its
divisions checked. -/
def Pore_Model_State.log_pr_emission_checked {Float_Type : Type} [Field Float_Type]
    [DecidableEq Float_Type] (ops : Float_Ops Float_Type) (s : Pore_Model_State Float_Type)
    (e : Event Float_Type) : Option Float_Type :=
  (log_normal_pdf_checked ops e.mean s.level_mean s.level_stdv s.log_level_stdv).bind fun a =>
    (log_invgauss_pdf_checked ops e.stdv e.log_stdv s.sd_mean s.sd_lambda s.log_sd_lambda).map
      fun b => a + b

/-- `Pore_Model::log_pr_emission` (Pore_Model.hpp:188-192) with its divisions
checked. -/
def Pore_Model.log_pr_emission_checked {Float_Type : Type} [Field Float_Type]
    [DecidableEq Float_Type] {Kmer_Size : Nat} (ops : Float_Ops Float_Type)
    (pm : Pore_Model Float_Type Kmer_Size) (i : Fin (n_states Kmer_Size))
    (e : Event Float_Type) : Option Float_Type :=
  (pm.state i).log_pr_emission_checked ops e

/-- A state as the constructor `Pore_Model()` leaves it: every field zero. -/
def zero_state (Float_Type : Type) [Field Float_Type] : Pore_Model_State Float_Type where
  level_mean := 0
  level_stdv := 0
  log_level_stdv := 0
  sd_mean := 0
  sd_stdv := 0
  sd_lambda := 0
  log_sd_stdv := 0
  log_sd_lambda := 0

/-! ## nanocall.cpp: main and real_main -/

/-- `EXIT_SUCCESS` of `<cstdlib>`. -/
def EXIT_SUCCESS : Nat := 0

/-- `EXIT_FAILURE` of `<cstdlib>`. -/
def EXIT_FAILURE : Nat := 1

/-- The switches and the two `float` options of `namespace opts`
(nanocall.cpp:51-166) that `main` and `real_main` look at. -/
structure Opts (Float_Type : Type) where
  train : Bool
  no_train : Bool
  only_train : Bool
  no_train_scaling : Bool
  no_train_transitions : Bool
  single_strand_scaling : Bool
  double_strand_scaling : Bool
  two_d_hmm : Bool
  scaling_select_threshold : WithTop Float_Type
  scaling_min_progress : Float_Type

/-- How `main` stops before `real_main`: `return` with an exit code, or a
failed `ASSERT`. -/
inductive Main_Stop where
  | exit (code : Nat)
  | assert_failed
  deriving DecidableEq

/-- What a run of the program did: its exit code, and whether `train_reads`
and `basecall_reads` were called. -/
structure Run where
  exit_code : Nat
  trained : Bool
  basecalled : Bool
  deriving DecidableEq

section Main

variable {Float_Type : Type} [LinearOrderedAddCommGroup Float_Type]

/-- "set training option" (nanocall.cpp:954-963). -/
def set_training_option (o : Opts Float_Type) : Except Main_Stop (Opts Float_Type) :=
  if o.train = true ∧ o.no_train = true then
    Except.error (Main_Stop.exit EXIT_FAILURE)
  else
    let o1 :=
      if o.train = false ∧ o.no_train = false then
        -- by default, enable training
        { o with train := true }
      else o
    if o1.train ≠ o1.no_train then Except.ok o1 else Except.error Main_Stop.assert_failed

/-- "set single/double strand scaling option" (nanocall.cpp:967-979). -/
def set_scaling_option (o : Opts Float_Type) : Except Main_Stop (Opts Float_Type) :=
  if o.train = true ∧ o.no_train_scaling = false then
    if o.single_strand_scaling = true ∧ o.double_strand_scaling = true then
      Except.error (Main_Stop.exit EXIT_FAILURE)
    else if o.single_strand_scaling = false ∧ o.double_strand_scaling = false then
      -- by default, do double strand scaling
      Except.ok { o with double_strand_scaling := true }
    else Except.ok o
  else Except.ok o

/-- "check other options" (nanocall.cpp:983-992). -/
def check_other_options (o : Opts Float_Type) : Except Main_Stop (Opts Float_Type) :=
  if o.scaling_select_threshold < 0 then Except.error (Main_Stop.exit EXIT_FAILURE)
  else if o.scaling_min_progress < 0 then Except.error (Main_Stop.exit EXIT_FAILURE)
  else Except.ok o

/-- The option handling of `main` (nanocall.cpp:954-992), from the parsed
command line to the options in effect when `real_main` is called. -/
def main_options (o : Opts Float_Type) : Except Main_Stop (Opts Float_Type) :=
  match set_training_option o with
  | Except.error stop => Except.error stop
  | Except.ok o1 =>
    match set_scaling_option o1 with
    | Except.error stop => Except.error stop
    | Except.ok o2 => check_other_options o2

/-- `real_main` (nanocall.cpp:898-929) as far as the two phases go: `init_ok`
tells whether `init_models`, `init_transitions`, `init_files` and `init_reads`
all return (they `exit(EXIT_FAILURE)` otherwise); then `train_reads` is called
if `opts::train`, `basecall_reads` if not `opts::only_train`. -/
def real_main (o : Opts Float_Type) (init_ok : Bool) : Run :=
  if init_ok = true then
    { exit_code := EXIT_SUCCESS, trained := o.train, basecalled := !o.only_train }
  else
    { exit_code := EXIT_FAILURE, trained := false, basecalled := false }

/-- `main` (nanocall.cpp:931-1017): `none` stands for a failed `ASSERT`. -/
def main (o : Opts Float_Type) (init_ok : Bool) : Option Run :=
  match main_options o with
  | Except.error (Main_Stop.exit code) =>
    some { exit_code := code, trained := false, basecalled := false }
  | Except.error Main_Stop.assert_failed => none
  | Except.ok o2 => some (real_main o2 init_ok)

/-- The value of `opts::double_strand_scaling` that `init_reads`
(nanocall.cpp:303-312) hands to every `Fast5_Summary`. -/
def init_reads_double_strand_scaling (o : Opts Float_Type) : Bool :=
  o.double_strand_scaling

end Main

/-! ## nanocall.cpp: init_models -/

/-- The lambda `parse_model_name` of `init_models` (nanocall.cpp:170-179);
`none` stands for the call of `exit(EXIT_FAILURE)`.  The characters `s[0]` and
`s[1]` are read only once `s.size() >= 3` is known, `or` being lazy. -/
def parse_model_name (s : String) : Option (Nat × String) :=
  let s0 := s.data.getD 0 (Char.ofNat 0)
  let s1 := s.data.getD 1 (Char.ofNat 0)
  if s.length < 3 ∨ (s0 ≠ '0' ∧ s0 ≠ '1' ∧ s0 ≠ '2') ∨ s1 ≠ ':' then none
  else
    let st := s0.toNat - ('0').toNat
    some (st, String.mk (s.data.drop 2))

/-- The dictionary of pore models, `Pore_Model_Dict_Type`: a `std::map` from the
model name to the model, listed in iteration order.  The strand tag that
`pm.strand()` accesses is kept next to the model, whose type is a parameter. -/
abbrev Pore_Model_Dict (Model : Type) := List (String × (Nat × Model))

/-- The assignment `m[key] = value` of a `std::map` keyed by strings: the value
under an existing key is replaced, a new key is put at its place in key
order. -/
def dict_set {Value : Type} : List (String × Value) → String → Value → List (String × Value)
  | [], key, value => [(key, value)]
  | (k, v) :: rest, key, value =>
    if k = key then (key, value) :: rest
    else if key < k then (key, value) :: (k, v) :: rest
    else (k, v) :: dict_set rest key value

/-- The two loops of `init_models` that fill `model_list` (nanocall.cpp:183-186
and 191-194): every name is parsed and its file is appended to the list of its
strand; `none` when `parse_model_name` exits.  A strand without an entry in
the `std::map` has the empty list. -/
def add_model_names : (Nat → List String) → List String → Option (Nat → List String)
  | model_list, [] => some model_list
  | model_list, s :: rest =>
    match parse_model_name s with
    | none => none
    | some p =>
      add_model_names (Function.update model_list p.1 (model_list p.1 ++ [p.2])) rest

/-- The inner loop of nanocall.cpp:206-214 for the strand `st`: every file of
the list is read into a model (`read_model`, that is `zstr::ifstream(e) >> pm`,
`none` when the read does not return), tagged with `st` and stored under its
file name. -/
def load_models {Model : Type} (read_model : String → Option Model) (st : Nat) :
    Pore_Model_Dict Model → List String → Option (Pore_Model_Dict Model)
  | models, [] => some models
  | models, e :: rest =>
    match read_model e with
    | none => none
    | some pm => load_models read_model st (dict_set models e (st, pm)) rest

/-- The first part of `init_models` (nanocall.cpp:181-195), which fills
`model_list`: `model_fn` holds the values of `-m`, `model_fofn` the value of
`--model-fofn` and `fofn_lines` the lines of that file; `none` when
`parse_model_name` exits. -/
def init_model_list (model_fn : List String) (model_fofn : String) (fofn_lines : List String) :
    Option (Nat → List String) :=
  let model_list : Nat → List String := fun _ => []
  match (if model_fn ≠ [] then add_model_names model_list model_fn else some model_list) with
  | none => none
  | some model_list =>
    if model_fofn ≠ "" then add_model_names model_list fofn_lines else some model_list

/-- `std::map::at` on the dictionary: the value stored under `key`, `none` when
`at` throws. -/
def dict_at {Value : Type} : List (String × Value) → String → Option Value
  | [], _ => none
  | (k, v) :: rest, key => if k = key then some v else dict_at rest key

/-- `init_models` (nanocall.cpp:168-231): after `model_list` is filled, the
check that models are given for both strands or for neither, then the custom
models are loaded strand by strand, or the built-in models are used; `builtin`
lists name, strand and model of the built-in models (Builtin_Model.hpp, not
among the sources).  The result is `models` after the call, `none` when
`init_models` does not return. -/
def init_models {Model : Type} (read_model : String → Option Model)
    (builtin : List (String × Nat × Model)) (model_fn : List String) (model_fofn : String)
    (fofn_lines : List String) (models : Pore_Model_Dict Model) :
    Option (Pore_Model_Dict Model) :=
  match init_model_list model_fn model_fofn fofn_lines with
  | none => none
  | some model_list =>
    if (model_list 2).isEmpty && ((model_list 0).isEmpty != (model_list 1).isEmpty) then none
    else if !((model_list 0).isEmpty && (model_list 1).isEmpty && (model_list 2).isEmpty) then
      (load_models read_model 0 models (model_list 0)).bind fun models0 =>
        (load_models read_model 1 models0 (model_list 1)).bind fun models1 =>
          load_models read_model 2 models1 (model_list 2)
    else
      -- use built-in models
      some (builtin.foldl (fun dict b => dict_set dict b.1 (b.2.1, b.2.2)) models)

/-- The candidate models `model_list[st]` of a strand in `train_reads`
(nanocall.cpp:338-358): none for a strand with fewer than `min_read_len`
events, the preferred model if there is one, else every model of the
dictionary tagged with the strand or with `num_strands`.  The `ASSERT` of line
357 tests the array `model_list`, which is never empty, and so always
passes. -/
def train_model_list {Model Params St_Params : Type} (models : Pore_Model_Dict Model)
    (min_read_len : Nat) (read_summary : Fast5_Summary Params St_Params) (st : Fin 2) :
    List String :=
  -- if not enough events, ignore strand
  if read_summary.num_events st < min_read_len then []
  else if (read_summary.preferred_model st.castSucc).get st ≠ "" then
    -- if we have a preferred model, use that
    [(read_summary.preferred_model st.castSucc).get st]
  else
    -- no preferred model, try all that apply to this strand
    (models.filter (fun p => decide (p.2.1 = st.val ∨ p.2.1 = num_strands))).map Prod.fst

/-! ## nanocall.cpp: what `basecall_reads` writes for one read

The stream `oss` is modelled by the list of the lines written to it.  The 2D
block (nanocall.cpp:867-883) hands `read_seqs[0]` and `read_seqs[1]` to the
seqan aligner (not among the sources) and writes the score, the two sequences
and the alignment; the lines it writes are a parameter, `two_d_output`.  The
guard `num_ed_events == 0` of nanocall.cpp:665 is taken to have been passed. -/

/-- The name of the FASTA record of strand `st` (nanocall.cpp:799-801 and
856-858): `read_id:base_file_name:st`. -/
def record_name (read_id base_file_name : String) (st : Fin 2) : String :=
  read_id ++ ":" ++ base_file_name ++ ":" ++ (if st = 0 then "0" else "1")

/-- `can_do_2d` (nanocall.cpp:728-730): the shorter strand has at least
`min_read_len` events. -/
def can_do_2d (min_read_len : Nat) (num_events : Fin 2 → Nat) : Bool :=
  decide (min_read_len ≤ min (num_events 0) (num_events 1))

/-- `do_2d` (nanocall.cpp:731). -/
def do_2d (two_d_hmm : Bool) (min_read_len : Nat) (num_events : Fin 2 → Nat) : Bool :=
  can_do_2d min_read_len num_events && two_d_hmm

/-- The two places a decoded sequence can go to: the lines of `oss` and the
array `read_seqs`. -/
structure Read_Output where
  oss : List String
  read_seqs : Fin 2 → String

/-- What is done with the decoded sequence of strand `st` (nanocall.cpp:802-807
and 859-864): `write_fasta` to `oss` if not `do_2d`, else the sequence is moved
to `read_seqs[st]`; `none` when `write_fasta` does not end within `fuel`
iterations. -/
def emit_base_seq (fuel fasta_line_width : Nat) (with_2d : Bool) (name : String) (st : Fin 2)
    (base_seq : String) (out : Read_Output) : Option Read_Output :=
  if !with_2d then
    (write_fasta fuel fasta_line_width name base_seq).map
      (fun lines => { out with oss := out.oss ++ lines })
  else
    some { out with read_seqs := Function.update out.read_seqs st base_seq }

section ReadOutput

variable {Params St_Params Float_Type : Type} [LinearOrder Float_Type] [Add Float_Type]

/-- One pass of the loop over the strands in the single-strand branch
(nanocall.cpp:812-865), output included: an ignored strand leaves everything as
it is, a decoded one updates the read summary and emits its sequence. -/
def basecall_single_output
    (basecall_strand : Fin 2 → String → Params → St_Params → Float_Type × String)
    (fuel min_read_len fasta_line_width : Nat) (with_2d : Bool)
    (read_id base_file_name : String) (st : Fin 2)
    (state : Fast5_Summary Params St_Params × Read_Output) :
    Option (Fast5_Summary Params St_Params × Read_Output) :=
  match basecall_single_strand basecall_strand min_read_len state.1 st with
  | Strand_Outcome.ignored => some state
  | Strand_Outcome.failed => none
  | Strand_Outcome.decoded call =>
    (emit_base_seq fuel fasta_line_width with_2d (record_name read_id base_file_name st) st
      call.base_seq state.2).map (fun out => (call.read_summary, out))

/-- The lines `process_item` of `basecall_reads` writes to `oss` for one read
(nanocall.cpp:728-883); `none` when the body does not run to its end (an `at`
throws, `back()` of an empty deque, or `write_fasta` does not end within `fuel`
iterations). -/
def basecall_read [Inhabited St_Params]
    (basecall_strand : Fin 2 → String → Params → St_Params → Float_Type × String)
    (two_d_output : String → String → List String)
    (fuel min_read_len fasta_line_width : Nat) (two_d_hmm : Bool)
    (read_id base_file_name : String) (scale_strands_together : Bool)
    (read_summary : Fast5_Summary Params St_Params) : Option (List String) :=
  let with_2d := do_2d two_d_hmm min_read_len read_summary.num_events
  let start : Read_Output := { oss := [], read_seqs := fun _ => "" }
  let decoded : Option Read_Output :=
    if scale_strands_together = true then
      match basecall_double_strand basecall_strand read_summary with
      | Strand_Outcome.decoded call =>
        (emit_base_seq fuel fasta_line_width with_2d (record_name read_id base_file_name 0) 0
          (call.base_seq 0) start).bind
          (fun out => emit_base_seq fuel fasta_line_width with_2d
            (record_name read_id base_file_name 1) 1 (call.base_seq 1) out)
      | _ => none
    else
      ((basecall_single_output basecall_strand fuel min_read_len fasta_line_width with_2d
          read_id base_file_name 0 (read_summary, start)).bind
        (basecall_single_output basecall_strand fuel min_read_len fasta_line_width with_2d
          read_id base_file_name 1)).map Prod.snd
  decoded.map fun out =>
    if with_2d = true then out.oss ++ two_d_output (out.read_seqs 0) (out.read_seqs 1)
    else out.oss

end ReadOutput

/-! ## nanocall.cpp: init_transitions -/

/-- The options `init_transitions` reads (nanocall.cpp:129-149): `--pr-skip`,
`--pr-stay` and the name of a custom transitions file (`-s`, empty when not
given). -/
structure Transition_Opts (Float_Type : Type) where
  pr_skip : Float_Type
  pr_stay : Float_Type
  trans_fn : String

/-- `init_transitions` (nanocall.cpp:233-245).  `State_Transitions.hpp` is not
among the sources: reading a transitions file (`operator >>`) and
`compute_transitions_fast` with its two arguments in the order of the call are
parameters, the result is the value left in `transitions`. -/
def init_transitions {Float_Type Transitions : Type}
    (load_transitions : String → Transitions)
    (compute_transitions_fast : Float_Type → Float_Type → Transitions)
    (o : Transition_Opts Float_Type) : Transitions :=
  if o.trans_fn ≠ "" then load_transitions o.trans_fn
  else compute_transitions_fast o.pr_skip o.pr_stay

/-- The call the specification describes: `compute_transitions_fast(p_stay,
p_skip)` with `p_stay` the `--pr-stay` value and `p_skip` the `--pr-skip`
value. -/
def init_transitions_as_specified {Float_Type Transitions : Type}
    (compute_transitions_fast : Float_Type → Float_Type → Transitions)
    (o : Transition_Opts Float_Type) : Transitions :=
  compute_transitions_fast o.pr_stay o.pr_skip

/-! ## Pore_Model.hpp: loading a state and the consistency of its caches -/

/-- The body of the loop of `operator >>` for one state (Pore_Model.hpp:177-182):
the four numbers read from the stream are stored, then `sd_lambda` and the logs
are recomputed.  The k-mer field read before them is only compared with the
index of the state by an `assert`. -/
def Pore_Model_State.parse {Float_Type : Type} [Field Float_Type] (ops : Float_Ops Float_Type)
    (s : Pore_Model_State Float_Type) (level_mean level_stdv sd_mean sd_stdv : Float_Type) :
    Pore_Model_State Float_Type :=
  Pore_Model_State.update_logs ops (Pore_Model_State.update_sd_lambda ops
    { s with level_mean := level_mean, level_stdv := level_stdv,
             sd_mean := sd_mean, sd_stdv := sd_stdv })

/-- State consistency over the real numbers: `log_level_stdv = ln(level_stdv)`,
`log_sd_lambda = ln(sd_lambda)` and `sd_lambda * sd_stdv^2 = sd_mean^3`. -/
def Pore_Model_State.consistent (s : Pore_Model_State ℝ) : Prop :=
  s.log_level_stdv = Real.log s.level_stdv
    ∧ s.log_sd_lambda = Real.log s.sd_lambda
    ∧ s.sd_lambda * s.sd_stdv ^ 2 = s.sd_mean ^ 3

/-! ### Sample data -/

/-- A state with unit deviations and consistent caches: level 0 ± 1, sd 1 ± 1,
`sd_lambda = 1`, both logs 0. -/
def unit_state (Float_Type : Type) [Field Float_Type] : Pore_Model_State Float_Type where
  level_mean := 0
  level_stdv := 1
  log_level_stdv := 0
  sd_mean := 1
  sd_stdv := 1
  sd_lambda := 1
  log_sd_stdv := 0
  log_sd_lambda := 0

/-- The pore model over 1-mers (4 states) all of whose states are `s`. -/
def constant_model {Float_Type : Type} (s : Pore_Model_State Float_Type) :
    Pore_Model Float_Type 1 where
  _state := List.replicate 4 s
  size_ok := rfl

/-- The pore model over 1-mers (4 states) all of whose states are `unit_state`. -/
def unit_model (Float_Type : Type) [Field Float_Type] : Pore_Model Float_Type 1 :=
  constant_model (unit_state Float_Type)

/-- A model entry with a negative `sd_stdv`: level 0 ± 1, sd 1 ± (-1). -/
def negative_sd_entry (Float_Type : Type) [Field Float_Type] : Model_Entry Float_Type where
  level_mean := 0
  level_stdv := 1
  sd_mean := 1
  sd_stdv := -1

/-- An event with mean 2, stdv 1, and the cached `log_stdv = 0`. -/
def unit_event (Float_Type : Type) [Field Float_Type] : Event Float_Type where
  mean := 2
  stdv := 1
  log_stdv := 0
  start_time := 0
  length := 1

/-- A trainer that replies to call number `k` with the `k`-th entry of a
script, whatever its inputs, and with `last` once the script is used up. -/
def scripted_trainer {Params St_Params Float_Type : Type}
    (script : List (Round_Result Params St_Params Float_Type))
    (last : Round_Result Params St_Params Float_Type) : Trainer Params St_Params Float_Type :=
  fun k _ _ _ => script.getD k last

/-- A reply with parameters `p` (pore model and transitions alike), fit `fit`
and the given `done` flag. -/
def reply (p : Nat) (fit : ℤ) (done : Bool) : Round_Result Nat Nat ℤ where
  crt_pm_params := p
  crt_st_params := p
  crt_fit := (fit : WithBot ℤ)
  done := done

/-- A read with 100 events per strand, no preferred model, and scaling
parameters 1 and 2 stored for the strand-0 models "a" and "b". -/
def sample_read : Fast5_Summary ℤ Nat where
  preferred_model := no_preference
  pm_params_m := [(("a", ""), 1), (("b", ""), 2)]
  st_params_m := [(("a", ""), fun _ => 0), (("b", ""), fun _ => 0)]
  num_events := fun _ => 100

/-- A decoder stand-in: the path probability is the scaling parameter, the base
sequence is the model name. -/
def sample_basecall : Fin 2 → String → ℤ → Nat → ℤ × String :=
  fun _ m_name pm_params _ => (pm_params, m_name)

/-- A decoder stand-in under which every model reaches the path probability 5;
the base sequence is the model name. -/
def tie_basecall : Fin 2 → String → ℤ → Nat → ℤ × String :=
  fun _ m_name _ _ => (5, m_name)

/-- The pore model over 1-mers whose four states have the level means 0, 1, 2
and 3 and are `unit_state` otherwise. -/
def ramp_model (Float_Type : Type) [Field Float_Type] : Pore_Model Float_Type 1 where
  _state := [{ unit_state Float_Type with level_mean := 0 },
             { unit_state Float_Type with level_mean := 1 },
             { unit_state Float_Type with level_mean := 2 },
             { unit_state Float_Type with level_mean := 3 }]
  size_ok := rfl

/-- The identity parameters with the drift set to 1. -/
def drift_parameters (Float_Type : Type) [Field Float_Type] :
    Pore_Model_Parameters Float_Type :=
  { identity_parameters Float_Type with drift := 1 }

/-- The identity parameters with the scale set to 2. -/
def double_scale_parameters (Float_Type : Type) [Field Float_Type] :
    Pore_Model_Parameters Float_Type :=
  { identity_parameters Float_Type with scale := 2 }

/-- The identity parameters with the scale set to 0 and the shift to 5. -/
def collapse_parameters (Float_Type : Type) [Field Float_Type] :
    Pore_Model_Parameters Float_Type :=
  { identity_parameters Float_Type with scale := 0, shift := 5 }

/-- An event with mean 2 and stdv 0 (a constant signal); the cached `log_stdv`
is set to 0. -/
def flat_event (Float_Type : Type) [Field Float_Type] : Event Float_Type where
  mean := 2
  stdv := 0
  log_stdv := 0
  start_time := 0
  length := 1

/-- The command line without any switch, with the default thresholds 20 and 1. -/
def default_opts : Opts ℤ where
  train := false
  no_train := false
  only_train := false
  no_train_scaling := false
  no_train_transitions := false
  single_strand_scaling := false
  double_strand_scaling := false
  two_d_hmm := false
  scaling_select_threshold := ((20 : ℤ) : WithTop ℤ)
  scaling_min_progress := 1

/-- The command line `--no-train-scaling --single-strand-scaling
--double-strand-scaling`. -/
def both_scalings_opts : Opts ℤ :=
  { default_opts with
    no_train_scaling := true, single_strand_scaling := true, double_strand_scaling := true }

/-- The command line `--no-train`. -/
def no_train_opts : Opts ℤ :=
  { default_opts with no_train := true }

/-- The command line `--only-train --no-train`. -/
def only_train_no_train_opts : Opts ℤ :=
  { default_opts with only_train := true, no_train := true }

/-- A read with 100 events per strand, no preferred model, and scaling
parameters stored for the strand-0 model "a" and the strand-1 model "c". -/
def two_strand_read : Fast5_Summary ℤ Nat where
  preferred_model := no_preference
  pm_params_m := [(("", "c"), 3), (("a", ""), 1)]
  st_params_m := [(("", "c"), fun _ => 0), (("a", ""), fun _ => 0)]
  num_events := fun _ => 100

/-- A decoder stand-in: the path probability is the scaling parameter, the base
sequence is "ACGTAC" for strand 0 and "GTACGT" for strand 1. -/
def fixed_basecall : Fin 2 → String → ℤ → Nat → ℤ × String :=
  fun st _ pm_params _ => (pm_params, if st = 0 then "ACGTAC" else "GTACGT")

/-- An aligner stand-in: a score line and the two sequences. -/
def sample_view : String → String → List String :=
  fun first second => ["Score: 0", first, second]

/-- The transition options when none is given on the command line: `--pr-skip`
0.3, `--pr-stay` 0.1, no transitions file (nanocall.cpp:129-149). -/
def default_transition_opts : Transition_Opts ℚ where
  pr_skip := 3 / 10
  pr_stay := 1 / 10
  trans_fn := ""

/-- A stand-in for `compute_transitions_fast` that records its two arguments in
order. -/
def recorded_call : ℚ → ℚ → ℚ × ℚ := fun first second => (first, second)

/-- A model entry with level 0 ± 1 and sd 2 ± 1. -/
def plain_entry (Float_Type : Type) [Field Float_Type] : Model_Entry Float_Type where
  level_mean := 0
  level_stdv := 1
  sd_mean := 2
  sd_stdv := 1

/-- Scaling parameters with every multiplier 2 and shift 1. -/
def doubling_parameters (Float_Type : Type) [Field Float_Type] :
    Pore_Model_Parameters Float_Type where
  scale := 2
  shift := 1
  drift := 0
  var := 2
  scale_sd := 2
  var_sd := 2

/-- A read with 100 events per strand, no preferred model, and scaling
parameters 1 and 2 stored for the model pairs ("a", "c") and ("b", "c"). -/
def pair_read : Fast5_Summary ℤ Nat where
  preferred_model := no_preference
  pm_params_m := [(("a", "c"), 1), (("b", "c"), 2)]
  st_params_m := [(("a", "c"), fun _ => 0), (("b", "c"), fun _ => 0)]
  num_events := fun _ => 100

/-! ## Theorems -/

/-! ### Pore model -/

/-- Logarithm of the normal density, for a positive standard deviation. -/
lemma log_normal_pdf_eq (x m s : ℝ) (hs : 0 < s) :
    Real.log (normal_pdf x m s)
      = -Real.log s - (Real.log (2 * Real.pi) + ((x - m) / s) * ((x - m) / s)) / 2 := by
  have h2pi : (0 : ℝ) < 2 * Real.pi := by positivity
  have hsq : 0 < Real.sqrt (2 * Real.pi) := Real.sqrt_pos.mpr h2pi
  unfold normal_pdf
  rw [Real.log_div (Real.exp_pos _).ne' (mul_pos hs hsq).ne', Real.log_exp,
    Real.log_mul hs.ne' hsq.ne', Real.log_sqrt h2pi.le]
  field_simp
  ring

/-- Logarithm of the inverse-Gaussian density, for positive `x` and `lambda`
and non-zero `mu`. -/
lemma log_invgauss_pdf_eq (x mu lambda : ℝ) (hx : 0 < x) (hmu : mu ≠ 0) (hl : 0 < lambda) :
    Real.log (invgauss_pdf x mu lambda)
      = (Real.log lambda - Real.log (2 * Real.pi) - 3 * Real.log x
          - lambda * ((x - mu) / mu) * ((x - mu) / mu) / x) / 2 := by
  have h2pi : (0 : ℝ) < 2 * Real.pi := by positivity
  have hx3 : 0 < x ^ 3 := by positivity
  have hden : 0 < 2 * Real.pi * x ^ 3 := by positivity
  have hq : 0 < lambda / (2 * Real.pi * x ^ 3) := div_pos hl hden
  unfold invgauss_pdf
  rw [Real.log_mul (Real.sqrt_pos.mpr hq).ne' (Real.exp_pos _).ne', Real.log_exp,
    Real.log_sqrt hq.le, Real.log_div hl.ne' hden.ne', Real.log_mul h2pi.ne' hx3.ne',
    Real.log_pow]
  field_simp
  ring

/-- C1: for a state with `level_stdv > 0`, `sd_mean ≠ 0`, `sd_lambda > 0` and
consistent log caches, and an event with `stdv > 0` and `log_stdv = ln stdv`,
`Pore_Model_State::log_pr_emission` is the logarithm of the normal density of
the event mean plus the logarithm of the inverse-Gaussian density of the event
stdv, and `Pore_Model::log_pr_emission(i, e)` returns that same value for
state `i`. -/
theorem log_pr_emission_closed_form {Kmer_Size : Nat} (pm : Pore_Model ℝ Kmer_Size)
    (i : Fin (n_states Kmer_Size)) (e : Event ℝ)
    (h_level_stdv : 0 < (pm.state i).level_stdv)
    (h_sd_mean : (pm.state i).sd_mean ≠ 0)
    (h_sd_lambda : 0 < (pm.state i).sd_lambda)
    (h_log_level_stdv : (pm.state i).log_level_stdv = Real.log (pm.state i).level_stdv)
    (h_log_sd_lambda : (pm.state i).log_sd_lambda = Real.log (pm.state i).sd_lambda)
    (h_stdv : 0 < e.stdv) (h_log_stdv : e.log_stdv = Real.log e.stdv) :
    (pm.state i).log_pr_emission real_ops e
        = Real.log (normal_pdf e.mean (pm.state i).level_mean (pm.state i).level_stdv)
          + Real.log (invgauss_pdf e.stdv (pm.state i).sd_mean (pm.state i).sd_lambda)
    ∧ pm.log_pr_emission real_ops i e
        = Real.log (normal_pdf e.mean (pm.state i).level_mean (pm.state i).level_stdv)
          + Real.log (invgauss_pdf e.stdv (pm.state i).sd_mean (pm.state i).sd_lambda) := by
  have key : (pm.state i).log_pr_emission real_ops e
      = Real.log (normal_pdf e.mean (pm.state i).level_mean (pm.state i).level_stdv)
        + Real.log (invgauss_pdf e.stdv (pm.state i).sd_mean (pm.state i).sd_lambda) := by
    rw [log_normal_pdf_eq _ _ _ h_level_stdv,
      log_invgauss_pdf_eq _ _ _ h_stdv h_sd_mean h_sd_lambda]
    simp only [Pore_Model_State.log_pr_emission, log_normal_pdf, log_invgauss_pdf, real_ops,
      h_log_level_stdv, h_log_sd_lambda, h_log_stdv]
  exact ⟨key, key⟩

/-- Every state of `constant_model s` is `s`. -/
lemma constant_model_state {Float_Type : Type} (s : Pore_Model_State Float_Type)
    (i : Fin (n_states 1)) : (constant_model s).state i = s := by
  unfold Pore_Model.state constant_model
  exact List.eq_of_mem_replicate (List.get_mem _ _ _)

/-- Every state of `unit_model` is `unit_state`. -/
lemma unit_model_state (Float_Type : Type) [Field Float_Type] (i : Fin (n_states 1)) :
    (unit_model Float_Type).state i = unit_state Float_Type :=
  constant_model_state _ i

/-- C1 at the 4-state unit model and the unit event. -/
theorem log_pr_emission_closed_form_witness :
    ((unit_model ℝ).state ⟨0, by decide⟩).log_pr_emission real_ops (unit_event ℝ)
        = Real.log (normal_pdf (unit_event ℝ).mean ((unit_model ℝ).state ⟨0, by decide⟩).level_mean
            ((unit_model ℝ).state ⟨0, by decide⟩).level_stdv)
          + Real.log (invgauss_pdf (unit_event ℝ).stdv ((unit_model ℝ).state ⟨0, by decide⟩).sd_mean
            ((unit_model ℝ).state ⟨0, by decide⟩).sd_lambda)
    ∧ (unit_model ℝ).log_pr_emission real_ops ⟨0, by decide⟩ (unit_event ℝ)
        = Real.log (normal_pdf (unit_event ℝ).mean ((unit_model ℝ).state ⟨0, by decide⟩).level_mean
            ((unit_model ℝ).state ⟨0, by decide⟩).level_stdv)
          + Real.log (invgauss_pdf (unit_event ℝ).stdv ((unit_model ℝ).state ⟨0, by decide⟩).sd_mean
            ((unit_model ℝ).state ⟨0, by decide⟩).sd_lambda) :=
  log_pr_emission_closed_form (unit_model ℝ) ⟨0, by decide⟩ (unit_event ℝ)
    (by simp [unit_model_state, unit_state])
    (by simp [unit_model_state, unit_state])
    (by simp [unit_model_state, unit_state])
    (by simp [unit_model_state, unit_state])
    (by simp [unit_model_state, unit_state])
    (by simp [unit_event])
    (by simp [unit_event])

/-- Reading a state back after an assignment through `state(i)`. -/
lemma Pore_Model.state_set_state {Float_Type : Type} {Kmer_Size : Nat}
    (pm : Pore_Model Float_Type Kmer_Size) (i j : Fin (n_states Kmer_Size))
    (s : Pore_Model_State Float_Type) :
    (pm.set_state i s).state j = if i = j then s else pm.state j := by
  unfold Pore_Model.state Pore_Model.set_state
  simp only [List.get_eq_getElem, Fin.coe_cast, List.getElem_set]
  by_cases h : i = j
  · subst h; simp
  · have h2 : (i : Nat) ≠ (j : Nat) := fun hc => h (Fin.ext hc)
    simp [h, h2]

/-- The scaling loop started at index `i` rescales exactly the states with
index at least `i`. -/
lemma Pore_Model.scale_from_state {Float_Type : Type} [Field Float_Type] {Kmer_Size : Nat}
    (ops : Float_Ops Float_Type) (params : Pore_Model_Parameters Float_Type) :
    ∀ (d i : Nat) (pm : Pore_Model Float_Type Kmer_Size), n_states Kmer_Size - i = d →
      ∀ j : Fin (n_states Kmer_Size),
        (Pore_Model.scale_from ops params i pm).state j
          = if i ≤ (j : Nat) then (pm.state j).scale ops params else pm.state j := by
  intro d
  induction d with
  | zero =>
    intro i pm hd j
    have hi : ¬ i < n_states Kmer_Size := by omega
    have hj : ¬ i ≤ (j : Nat) := by have := j.isLt; omega
    rw [Pore_Model.scale_from]
    simp [hi, hj]
  | succ d ih =>
    intro i pm hd j
    have hi : i < n_states Kmer_Size := by omega
    rw [Pore_Model.scale_from]
    simp only [hi, dite_true]
    rw [ih (i + 1) _ (by omega) j, Pore_Model.state_set_state]
    by_cases hij : i = (j : Nat)
    · have hfin : (⟨i, hi⟩ : Fin (n_states Kmer_Size)) = j := Fin.ext hij
      have h1 : ¬ i + 1 ≤ (j : Nat) := by omega
      have h2 : i ≤ (j : Nat) := by omega
      subst hfin
      simp
    · have hfin : ¬ (⟨i, hi⟩ : Fin (n_states Kmer_Size)) = j := fun hc => hij (by rw [← hc])
      simp only [hfin, if_false]
      by_cases hle : i + 1 ≤ (j : Nat)
      · have h2 : i ≤ (j : Nat) := by omega
        simp [hle, h2]
      · have h2 : ¬ i ≤ (j : Nat) := by omega
        simp [hle, h2]

/-- `Pore_Model::scale` rescales every state with `Pore_Model_State::scale`. -/
lemma Pore_Model.scale_state {Float_Type : Type} [Field Float_Type] {Kmer_Size : Nat}
    (ops : Float_Ops Float_Type) (pm : Pore_Model Float_Type Kmer_Size)
    (params : Pore_Model_Parameters Float_Type) (j : Fin (n_states Kmer_Size)) :
    (pm.scale ops params).state j = (pm.state j).scale ops params := by
  unfold Pore_Model.scale
  rw [Pore_Model.scale_from_state ops params _ 0 pm rfl j]
  simp

/-- Two pore models with the same states are equal. -/
lemma Pore_Model.ext_state {Float_Type : Type} {Kmer_Size : Nat}
    (pm pm2 : Pore_Model Float_Type Kmer_Size)
    (h : ∀ j : Fin (n_states Kmer_Size), pm.state j = pm2.state j) : pm = pm2 := by
  obtain ⟨l, hl⟩ := pm
  obtain ⟨l2, hl2⟩ := pm2
  have hlist : l = l2 := by
    apply List.ext_get (by rw [hl, hl2])
    intro n h1 h2
    have := h ⟨n, by rw [← hl]; exact h1⟩
    simpa [Pore_Model.state] using this
  subst hlist
  rfl

/-- C2: `Pore_Model_State::scale(p)` yields `level_mean * p.scale + p.shift`,
`level_stdv * p.var`, `sd_mean * p.scale_sd`, `sd_lambda * p.var_sd`; the whole
result is the same for every value of `p.drift`; and `Pore_Model::scale(p)`
applies this transform to each of the `n_states` states. -/
theorem scale_transform {Float_Type : Type} [Field Float_Type] {Kmer_Size : Nat}
    (ops : Float_Ops Float_Type) (pm : Pore_Model Float_Type Kmer_Size)
    (s : Pore_Model_State Float_Type) (p : Pore_Model_Parameters Float_Type) :
    (s.scale ops p).level_mean = s.level_mean * p.scale + p.shift
    ∧ (s.scale ops p).level_stdv = s.level_stdv * p.var
    ∧ (s.scale ops p).sd_mean = s.sd_mean * p.scale_sd
    ∧ (s.scale ops p).sd_lambda = s.sd_lambda * p.var_sd
    ∧ (∀ d : Float_Type, s.scale ops { p with drift := d } = s.scale ops p)
    ∧ (∀ d : Float_Type, pm.scale ops { p with drift := d } = pm.scale ops p)
    ∧ (pm.scale ops p)._state.length = n_states Kmer_Size
    ∧ ∀ i : Fin (n_states Kmer_Size), (pm.scale ops p).state i = (pm.state i).scale ops p := by
  refine ⟨rfl, rfl, rfl, rfl, fun d => rfl, fun d => ?_, (pm.scale ops p).size_ok,
    fun i => Pore_Model.scale_state ops pm p i⟩
  apply Pore_Model.ext_state
  intro j
  rw [Pore_Model.scale_state, Pore_Model.scale_state]
  rfl

/-- Identity scaling of one state keeps the primary fields and recomputes the
derived ones. -/
lemma Pore_Model_State.scale_identity {Float_Type : Type} [Field Float_Type]
    (ops : Float_Ops Float_Type) (s : Pore_Model_State Float_Type) :
    s.scale ops (identity_parameters Float_Type)
      = { s with log_level_stdv := ops.log s.level_stdv,
                 log_sd_lambda := ops.log s.sd_lambda,
                 sd_stdv := ops.pow (ops.pow s.sd_mean 3 / s.sd_lambda) (1 / 2) } := by
  simp [Pore_Model_State.scale, Pore_Model_State.update_logs, Pore_Model_State.update_sd_stdv,
    identity_parameters]

/-- C3 as stated fails: a state assigned from the model entry
(level 0 ± 1, sd 1 ± (-1)) has `sd_lambda = 1` and `sd_stdv = -1`; identity
scaling recomputes `sd_stdv = pow(1 / 1, .5) = 1`, so the 4-state model made of
that state is changed by `Pore_Model::scale` with the identity parameters. -/
theorem identity_scale_changes_unnormalised_state :
    ((unit_state ℝ).assign real_ops (negative_sd_entry ℝ)).sd_stdv = -1
    ∧ (((unit_state ℝ).assign real_ops (negative_sd_entry ℝ)).scale real_ops
        (identity_parameters ℝ)).sd_stdv = 1
    ∧ (constant_model ((unit_state ℝ).assign real_ops (negative_sd_entry ℝ))).scale real_ops
        (identity_parameters ℝ)
      ≠ constant_model ((unit_state ℝ).assign real_ops (negative_sd_entry ℝ)) := by
  have h1 : ((unit_state ℝ).assign real_ops (negative_sd_entry ℝ)).sd_stdv = -1 := rfl
  have h2 : (((unit_state ℝ).assign real_ops (negative_sd_entry ℝ)).scale real_ops
      (identity_parameters ℝ)).sd_stdv = 1 := by
    rw [Pore_Model_State.scale_identity]
    simp [Pore_Model_State.assign, Pore_Model_State.update_logs,
      Pore_Model_State.update_sd_lambda, negative_sd_entry, unit_state, real_ops]
  refine ⟨h1, h2, fun hc => ?_⟩
  have h3 := congrArg (fun pm => (pm.state ⟨0, by decide⟩).sd_stdv) hc
  simp only [Pore_Model.scale_state, constant_model_state] at h3
  rw [h1, h2] at h3
  norm_num at h3

/-- C3, amended: when every state of the model has derived fields consistent
with its primary ones (log caches equal to the logs, `sd_stdv` equal to
`pow(pow(sd_mean, 3) / sd_lambda, .5)`), `Pore_Model::scale` with the identity
parameters leaves every field of every state unchanged. -/
theorem identity_scale_unchanged {Float_Type : Type} [Field Float_Type] {Kmer_Size : Nat}
    (ops : Float_Ops Float_Type) (pm : Pore_Model Float_Type Kmer_Size)
    (h : ∀ i : Fin (n_states Kmer_Size), (pm.state i).caches_consistent ops) :
    pm.scale ops (identity_parameters Float_Type) = pm
    ∧ ∀ i : Fin (n_states Kmer_Size),
        (pm.scale ops (identity_parameters Float_Type)).state i = pm.state i := by
  have key : ∀ i : Fin (n_states Kmer_Size),
      (pm.scale ops (identity_parameters Float_Type)).state i = pm.state i := by
    intro i
    obtain ⟨h1, h2, h3⟩ := h i
    rw [Pore_Model.scale_state, Pore_Model_State.scale_identity, ← h1, ← h2, ← h3]
  exact ⟨Pore_Model.ext_state _ _ key, key⟩

/-- C3 (amended) at the 4-state unit model over the reals. -/
theorem identity_scale_unchanged_witness :
    (∀ i : Fin (n_states 1), ((unit_model ℝ).state i).caches_consistent real_ops)
    ∧ (unit_model ℝ).scale real_ops (identity_parameters ℝ) = unit_model ℝ :=
  have h : ∀ i : Fin (n_states 1), ((unit_model ℝ).state i).caches_consistent real_ops := by
    intro i
    simp [unit_model_state, unit_state, Pore_Model_State.caches_consistent, real_ops]
  ⟨h, (identity_scale_unchanged real_ops (unit_model ℝ) h).1⟩

/-! ### The training loop -/

section TrainingLemmas

variable {Params St_Params Float_Type : Type} [LinearOrderedAddCommGroup Float_Type]

/-- A pass that ends at a `break` ends the loop. -/
lemma train_loop_exit (tr : Trainer Params St_Params Float_Type) (cap : Nat)
    (mp : Float_Type) (s f : Train_State Params St_Params Float_Type)
    (h : train_round tr cap mp s = Loop_Step.exit f) : train_loop tr cap mp s = f := by
  rw [train_loop]
  split
  · rename_i s2 h2
    rw [h] at h2
    exact (Loop_Step.exit.inj h2).symm
  · rename_i s2 h2
    rw [h] at h2
    cases h2

/-- A pass that reaches the closing brace hands over to the next pass. -/
lemma train_loop_next (tr : Trainer Params St_Params Float_Type) (cap : Nat)
    (mp : Float_Type) (s u : Train_State Params St_Params Float_Type)
    (h : train_round tr cap mp s = Loop_Step.next u) :
    train_loop tr cap mp s = train_loop tr cap mp u := by
  rw [train_loop]
  split
  · rename_i s2 h2
    rw [h] at h2
    cases h2
  · rename_i s2 h2
    rw [h] at h2
    rw [Loop_Step.next.inj h2]

/-- The loop run from its start and from any of its later heads ends in the
same state. -/
lemma train_loop_of_head (tr : Trainer Params St_Params Float_Type) (cap : Nat)
    (mp : Float_Type) (s t : Train_State Params St_Params Float_Type)
    (h : Loop_Head tr cap mp s t) : train_loop tr cap mp s = train_loop tr cap mp t := by
  induction h with
  | first => rfl
  | later _ hstep ih => rw [ih, train_loop_next tr cap mp _ _ hstep]

/-- What a pass that goes on looks like. -/
lemma train_round_next_iff (tr : Trainer Params St_Params Float_Type) (cap : Nat)
    (mp : Float_Type) (s u : Train_State Params St_Params Float_Type)
    (h : train_round tr cap mp s = Loop_Step.next u) :
    u.round = s.round + 1 ∧ u.calls = s.calls + 1 ∧ s.round + 1 < cap
      ∧ u.crt_fit = (tr s.calls s.crt_pm_params s.crt_st_params s.crt_fit).crt_fit := by
  simp only [train_round] at h
  split_ifs at h with h1 h2 h3
  simp only [Loop_Step.next.injEq] at h
  subst h
  simp only [not_or, not_le] at h3
  exact ⟨rfl, rfl, h3.1, rfl⟩

/-- Every pass that ends at a `break` has made exactly one more call. -/
lemma train_round_exit_calls (tr : Trainer Params St_Params Float_Type) (cap : Nat)
    (mp : Float_Type) (s f : Train_State Params St_Params Float_Type)
    (h : train_round tr cap mp s = Loop_Step.exit f) : f.calls = s.calls + 1 := by
  simp only [train_round] at h
  split_ifs at h with h1 h2 h3 <;>
    (simp only [Loop_Step.exit.injEq] at h; subst h; rfl)

/-- At every head of the loop started by `train_init`, the number of calls
made equals `round`, `round` is below the cap unless it is 0, and in round 0
the fit is still `-INFINITY`. -/
lemma loop_head_invariant (tr : Trainer Params St_Params Float_Type) (cap : Nat)
    (mp : Float_Type) (pm : Params) (st : St_Params)
    (t : Train_State Params St_Params Float_Type)
    (h : Loop_Head tr cap mp (train_init pm st) t) :
    t.calls = t.round ∧ (t.round = 0 ∨ t.round < cap) ∧ (t.round = 0 → t.crt_fit = ⊥) := by
  induction h with
  | first => exact ⟨rfl, Or.inl rfl, fun _ => rfl⟩
  | later _ hstep ih =>
    obtain ⟨h1, h2, h3, _⟩ := train_round_next_iff tr cap mp _ _ hstep
    refine ⟨by rw [h1, h2, ih.1], Or.inr (by omega), fun h0 => by omega⟩

/-- The loop ends: it reaches a head whose pass ends at a `break`, and returns
the state of that `break`. -/
lemma train_loop_reaches_exit (tr : Trainer Params St_Params Float_Type) (cap : Nat)
    (mp : Float_Type) (s0 : Train_State Params St_Params Float_Type) :
    ∀ (d : Nat) (s : Train_State Params St_Params Float_Type), cap - s.round = d →
      Loop_Head tr cap mp s0 s →
      ∃ t f, Loop_Head tr cap mp s0 t ∧ train_round tr cap mp t = Loop_Step.exit f
        ∧ train_loop tr cap mp s = f := by
  intro d
  induction d using Nat.strong_induction_on with
  | _ d ih =>
    intro s hd hs
    cases hstep : train_round tr cap mp s with
    | exit f => exact ⟨s, f, hs, hstep, train_loop_exit tr cap mp s f hstep⟩
    | next u =>
      obtain ⟨h1, _, h3, _⟩ := train_round_next_iff tr cap mp _ _ hstep
      obtain ⟨t, f, ht, hf, hl⟩ :=
        ih (cap - u.round) (by omega) u rfl (Loop_Head.later hs hstep)
      exact ⟨t, f, ht, hf, by rw [train_loop_next tr cap mp s u hstep, hl]⟩

/-- The number of `train_one_round` calls of a loop started by `train_init` is
at least 1 and at most `max 1 cap`. -/
lemma train_loop_calls (tr : Trainer Params St_Params Float_Type) (cap : Nat)
    (mp : Float_Type) (pm : Params) (st : St_Params) :
    1 ≤ (train_loop tr cap mp (train_init pm st)).calls
      ∧ (train_loop tr cap mp (train_init pm st)).calls ≤ max 1 cap := by
  obtain ⟨t, f, ht, hf, hl⟩ :=
    train_loop_reaches_exit tr cap mp (train_init pm st) _ (train_init pm st) rfl Loop_Head.first
  obtain ⟨h1, h2, _⟩ := loop_head_invariant tr cap mp pm st t ht
  have h3 := train_round_exit_calls tr cap mp t f hf
  rw [hl, h3, h1]
  constructor
  · omega
  · rcases h2 with h2 | h2
    · rw [h2]; exact le_max_left _ _
    · exact le_trans h2 (le_max_right _ _)

/-- C7: in both scaling modes, when a round at some head `t` of a model's
training loop returns without `done` and with a fit strictly below the fit
before that round, the loop exits with `pm_params`, `st_params` and fit equal
to their values at `t`, and that round was the last `train_one_round` call. -/
theorem regression_rolls_back (scale_strands_together : Bool)
    (tr : Trainer Params St_Params Float_Type) (scaling_max_rounds : Nat)
    (scaling_min_progress : Float_Type) (pm : Params) (st : St_Params)
    (t : Train_State Params St_Params Float_Type)
    (h_head : Loop_Head tr (round_cap scale_strands_together scaling_max_rounds)
      scaling_min_progress (train_init pm st) t)
    (h_not_done : (tr t.calls t.crt_pm_params t.crt_st_params t.crt_fit).done = false)
    (h_worse : (tr t.calls t.crt_pm_params t.crt_st_params t.crt_fit).crt_fit < t.crt_fit) :
    train_model scale_strands_together tr scaling_max_rounds scaling_min_progress pm st
      = { round := t.round, crt_pm_params := t.crt_pm_params,
          crt_st_params := t.crt_st_params, crt_fit := t.crt_fit, calls := t.calls + 1 } := by
  unfold train_model
  rw [train_loop_of_head _ _ _ _ _ h_head]
  apply train_loop_exit
  simp [train_round, h_not_done, h_worse]

/-- C7 at a two-round script in single-strand mode: the first round reaches
fit 5 with parameters 1, the second returns fit 3; the loop exits with the
parameters and the fit of the first round after two calls. -/
theorem regression_rolls_back_witness :
    train_model false (scripted_trainer [reply 1 5 false, reply 2 3 false] (reply 0 0 true))
        10 (1 : ℤ) 0 0
      = { round := 1, crt_pm_params := 1, crt_st_params := 1, crt_fit := ((5 : ℤ) : WithBot ℤ),
          calls := 2 } :=
  regression_rolls_back false
    (scripted_trainer [reply 1 5 false, reply 2 3 false] (reply 0 0 true)) 10 (1 : ℤ) 0 0
    { round := 1, crt_pm_params := 1, crt_st_params := 1, crt_fit := ((5 : ℤ) : WithBot ℤ),
      calls := 1 }
    (Loop_Head.later Loop_Head.first rfl)
    (by decide) (by decide)

/-- C8 as stated fails: the first round of this single-strand loop reports
`done` and returns the parameters 7; the loop stores 7, not the parameters 0
that were current before that round. -/
theorem singularity_keeps_returned_params :
    Loop_Head (scripted_trainer [reply 7 0 true] (reply 0 0 true)) (round_cap false 10) (1 : ℤ)
      (train_init 0 0) (train_init 0 0)
    ∧ (scripted_trainer [reply 7 0 true] (reply 0 0 true) 0 0 0 ⊥).done = true
    ∧ (train_model false (scripted_trainer [reply 7 0 true] (reply 0 0 true))
        10 (1 : ℤ) 0 0).crt_pm_params = 7
    ∧ ¬ ((train_model false (scripted_trainer [reply 7 0 true] (reply 0 0 true))
          10 (1 : ℤ) 0 0).crt_pm_params = 0
        ∧ (train_model false (scripted_trainer [reply 7 0 true] (reply 0 0 true))
          10 (1 : ℤ) 0 0).crt_st_params = 0) := by
  have h : train_model false (scripted_trainer [reply 7 0 true] (reply 0 0 true)) 10 (1 : ℤ) 0 0
      = { round := 0, crt_pm_params := 7, crt_st_params := 7, crt_fit := ((0 : ℤ) : WithBot ℤ),
          calls := 1 } :=
    train_loop_exit _ _ _ _ _ rfl
  rw [h]
  exact ⟨Loop_Head.first, rfl, rfl, by decide⟩

/-- C8, amended: in both scaling modes, when a round at some head `t` of a
model's training loop reports `done`, the loop ends with that round, and the
parameters and the fit stored after the loop are the ones `train_one_round`
left in `crt_pm_params`, `crt_st_params` and `crt_fit` in that round. -/
theorem singularity_stops_loop (scale_strands_together : Bool)
    (tr : Trainer Params St_Params Float_Type) (scaling_max_rounds : Nat)
    (scaling_min_progress : Float_Type) (pm : Params) (st : St_Params)
    (t : Train_State Params St_Params Float_Type)
    (h_head : Loop_Head tr (round_cap scale_strands_together scaling_max_rounds)
      scaling_min_progress (train_init pm st) t)
    (h_done : (tr t.calls t.crt_pm_params t.crt_st_params t.crt_fit).done = true) :
    train_model scale_strands_together tr scaling_max_rounds scaling_min_progress pm st
      = { round := t.round,
          crt_pm_params := (tr t.calls t.crt_pm_params t.crt_st_params t.crt_fit).crt_pm_params,
          crt_st_params := (tr t.calls t.crt_pm_params t.crt_st_params t.crt_fit).crt_st_params,
          crt_fit := (tr t.calls t.crt_pm_params t.crt_st_params t.crt_fit).crt_fit,
          calls := t.calls + 1 } := by
  unfold train_model
  rw [train_loop_of_head _ _ _ _ _ h_head]
  apply train_loop_exit
  simp [train_round, h_done]

/-- C8 (amended) at a script whose second round reports `done` with the
parameters 9: the double-strand loop ends after two calls and stores 9. -/
theorem singularity_stops_loop_witness :
    train_model true (scripted_trainer [reply 1 5 false, reply 9 6 true] (reply 0 0 true))
        10 (1 : ℤ) 0 0
      = { round := 1, crt_pm_params := 9, crt_st_params := 9, crt_fit := ((6 : ℤ) : WithBot ℤ),
          calls := 2 } :=
  singularity_stops_loop true
    (scripted_trainer [reply 1 5 false, reply 9 6 true] (reply 0 0 true)) 10 (1 : ℤ) 0 0
    { round := 1, crt_pm_params := 1, crt_st_params := 1, crt_fit := ((5 : ℤ) : WithBot ℤ),
      calls := 1 }
    (Loop_Head.later Loop_Head.first rfl)
    (by decide)

/-- C9 as stated fails for `scaling_max_rounds = 0`: the loop body runs once
before the stop condition is looked at, so one round is run in either mode. -/
theorem zero_max_rounds_runs_one_round :
    (train_model false (scripted_trainer [reply 1 5 false] (reply 0 0 true))
        0 (1 : ℤ) 0 0).calls = 1
    ∧ ¬ (train_model false (scripted_trainer [reply 1 5 false] (reply 0 0 true))
        0 (1 : ℤ) 0 0).calls ≤ 0
    ∧ ¬ (train_model true (scripted_trainer [reply 1 5 false] (reply 0 0 true))
        0 (1 : ℤ) 0 0).calls ≤ 2 * 0 := by
  have h1 : train_model false (scripted_trainer [reply 1 5 false] (reply 0 0 true)) 0 (1 : ℤ) 0 0
      = { round := 1, crt_pm_params := 1, crt_st_params := 1, crt_fit := ((5 : ℤ) : WithBot ℤ),
          calls := 1 } :=
    train_loop_exit _ _ _ _ _ rfl
  have h2 : train_model true (scripted_trainer [reply 1 5 false] (reply 0 0 true)) 0 (1 : ℤ) 0 0
      = { round := 1, crt_pm_params := 1, crt_st_params := 1, crt_fit := ((5 : ℤ) : WithBot ℤ),
          calls := 1 } :=
    train_loop_exit _ _ _ _ _ rfl
  rw [h1, h2]
  decide

/-- C9, amended: for every trainer and every `scaling_max_rounds`, the training
loop of a model ends (`train_model` is a total function) after at least one
round, at most `max(1, scaling_max_rounds)` rounds in single-strand mode and
at most `max(1, 2 * scaling_max_rounds)` rounds in double-strand mode. -/
theorem training_rounds_bounded (tr : Trainer Params St_Params Float_Type)
    (scaling_max_rounds : Nat) (scaling_min_progress : Float_Type)
    (pm : Params) (st : St_Params) :
    1 ≤ (train_model false tr scaling_max_rounds scaling_min_progress pm st).calls
    ∧ (train_model false tr scaling_max_rounds scaling_min_progress pm st).calls
        ≤ max 1 scaling_max_rounds
    ∧ 1 ≤ (train_model true tr scaling_max_rounds scaling_min_progress pm st).calls
    ∧ (train_model true tr scaling_max_rounds scaling_min_progress pm st).calls
        ≤ max 1 (2 * scaling_max_rounds) := by
  have hs := train_loop_calls tr (round_cap false scaling_max_rounds) scaling_min_progress pm st
  have hd := train_loop_calls tr (round_cap true scaling_max_rounds) scaling_min_progress pm st
  have hcs : round_cap false scaling_max_rounds = scaling_max_rounds := by simp [round_cap]
  have hcd : round_cap true scaling_max_rounds ≤ 2 * scaling_max_rounds := by
    simp only [round_cap, if_true]
    exact Nat.mod_le _ _
  rw [hcs] at hs
  refine ⟨hs.1, hs.2, hd.1, le_trans hd.2 ?_⟩
  exact max_le_max le_rfl hcd

/-- C10: in both scaling modes, after a round at some head `t` of a model's
training loop that is neither a singularity nor a regression: if the
improvement is smaller than `scaling_min_progress` the loop stops and keeps the
new parameters and fit; otherwise it stops (keeping them) when the incremented
`round` has reached the cap and goes on to the next round when it has not. -/
theorem min_progress_stop (scale_strands_together : Bool)
    (tr : Trainer Params St_Params Float_Type) (scaling_max_rounds : Nat)
    (scaling_min_progress : Float_Type) (pm : Params) (st : St_Params)
    (t : Train_State Params St_Params Float_Type)
    (h_head : Loop_Head tr (round_cap scale_strands_together scaling_max_rounds)
      scaling_min_progress (train_init pm st) t)
    (h_not_done : (tr t.calls t.crt_pm_params t.crt_st_params t.crt_fit).done = false)
    (h_not_worse : ¬ (tr t.calls t.crt_pm_params t.crt_st_params t.crt_fit).crt_fit < t.crt_fit) :
    (improvement_below (tr t.calls t.crt_pm_params t.crt_st_params t.crt_fit).crt_fit t.crt_fit
        scaling_min_progress →
      train_round tr (round_cap scale_strands_together scaling_max_rounds)
          scaling_min_progress t = Loop_Step.exit (kept_round tr t)
      ∧ train_model scale_strands_together tr scaling_max_rounds scaling_min_progress pm st
          = kept_round tr t)
    ∧ (¬ improvement_below (tr t.calls t.crt_pm_params t.crt_st_params t.crt_fit).crt_fit
          t.crt_fit scaling_min_progress →
      (t.round + 1 < round_cap scale_strands_together scaling_max_rounds →
        train_round tr (round_cap scale_strands_together scaling_max_rounds)
          scaling_min_progress t = Loop_Step.next (kept_round tr t))
      ∧ (round_cap scale_strands_together scaling_max_rounds ≤ t.round + 1 →
        train_round tr (round_cap scale_strands_together scaling_max_rounds)
            scaling_min_progress t = Loop_Step.exit (kept_round tr t)
        ∧ train_model scale_strands_together tr scaling_max_rounds scaling_min_progress pm st
            = kept_round tr t)) := by
  obtain ⟨_, _, h_bot⟩ := loop_head_invariant tr _ scaling_min_progress pm st t h_head
  have h_model : ∀ f, train_round tr (round_cap scale_strands_together scaling_max_rounds)
      scaling_min_progress t = Loop_Step.exit f →
      train_model scale_strands_together tr scaling_max_rounds scaling_min_progress pm st = f := by
    intro f hf
    unfold train_model
    rw [train_loop_of_head _ _ _ _ _ h_head]
    exact train_loop_exit _ _ _ _ _ hf
  have h_small_iff : improvement_below
      (tr t.calls t.crt_pm_params t.crt_st_params t.crt_fit).crt_fit t.crt_fit scaling_min_progress
      ↔ (1 < t.round + 1 ∧ (tr t.calls t.crt_pm_params t.crt_st_params t.crt_fit).crt_fit
          < t.crt_fit + (scaling_min_progress : WithBot Float_Type)) := by
    generalize (tr t.calls t.crt_pm_params t.crt_st_params t.crt_fit).crt_fit = new_fit
      at h_not_worse ⊢
    constructor
    · rintro ⟨n, o, hn, ho, hlt⟩
      have hr : t.round ≠ 0 := fun h0 => by
        have := h_bot h0
        rw [ho] at this
        exact WithBot.coe_ne_bot this
      refine ⟨by omega, ?_⟩
      rw [hn, ho, ← WithBot.coe_add, WithBot.coe_lt_coe]
      exact sub_lt_iff_lt_add'.mp hlt
    · rintro ⟨_, hlt⟩
      cases h_old : t.crt_fit with
      | bot =>
        rw [h_old, WithBot.bot_add] at hlt
        exact absurd hlt (not_lt_bot)
      | coe o =>
        rw [h_old] at hlt h_not_worse
        cases h_new : new_fit with
        | bot =>
          rw [h_new] at h_not_worse
          exact absurd (WithBot.bot_lt_coe o) h_not_worse
        | coe n =>
          rw [h_new, ← WithBot.coe_add, WithBot.coe_lt_coe] at hlt
          exact ⟨n, o, rfl, rfl, sub_lt_iff_lt_add'.mpr hlt⟩
  refine ⟨fun h_small => ?_, fun h_large => ⟨fun h_cap => ?_, fun h_cap => ?_⟩⟩
  · have h_exit : train_round tr (round_cap scale_strands_together scaling_max_rounds)
        scaling_min_progress t = Loop_Step.exit (kept_round tr t) := by
      have := h_small_iff.mp h_small
      simp [train_round, h_not_done, h_not_worse, this, kept_round]
    exact ⟨h_exit, h_model _ h_exit⟩
  · have h1 := mt h_small_iff.mpr h_large
    have h2 : ¬ round_cap scale_strands_together scaling_max_rounds ≤ t.round + 1 := by omega
    simp only [train_round, h_not_done, h_not_worse, h1, h2, kept_round]
    simp
  · have h_exit : train_round tr (round_cap scale_strands_together scaling_max_rounds)
        scaling_min_progress t = Loop_Step.exit (kept_round tr t) := by
      simp [train_round, h_not_done, h_not_worse, h_cap, kept_round]
    exact ⟨h_exit, h_model _ h_exit⟩

/-- C10 at a script whose second round improves the fit from 5 to 5 only, with
`scaling_min_progress = 1`: the single-strand loop stops after that round and
keeps its parameters. -/
theorem min_progress_stop_witness :
    train_model false (scripted_trainer [reply 1 5 false, reply 2 5 false] (reply 0 0 true))
        10 (1 : ℤ) 0 0
      = { round := 2, crt_pm_params := 2, crt_st_params := 2, crt_fit := ((5 : ℤ) : WithBot ℤ),
          calls := 2 } :=
  ((min_progress_stop false
    (scripted_trainer [reply 1 5 false, reply 2 5 false] (reply 0 0 true)) 10 (1 : ℤ) 0 0
    { round := 1, crt_pm_params := 1, crt_st_params := 1, crt_fit := ((5 : ℤ) : WithBot ℤ),
      calls := 1 }
    (Loop_Head.later Loop_Head.first rfl)
    (by decide) (by decide)).1 ⟨5, 5, rfl, rfl, by decide⟩).2

/-- Heads of the loop chain up: a head of the loop continued from a head is a
head of the loop itself. -/
lemma loop_head_trans (tr : Trainer Params St_Params Float_Type) (cap : Nat)
    (mp : Float_Type) (s t u : Train_State Params St_Params Float_Type)
    (h1 : Loop_Head tr cap mp s t) (h2 : Loop_Head tr cap mp t u) :
    Loop_Head tr cap mp s u := by
  induction h2 with
  | first => exact h1
  | later _ hstep ih => exact Loop_Head.later ih hstep

/-- A pass that goes on does not lower the fit. -/
lemma train_round_next_fit (tr : Trainer Params St_Params Float_Type) (cap : Nat)
    (mp : Float_Type) (s u : Train_State Params St_Params Float_Type)
    (h : train_round tr cap mp s = Loop_Step.next u) : s.crt_fit ≤ u.crt_fit := by
  simp only [train_round] at h
  split_ifs at h with h1 h2 h3
  simp only [Loop_Step.next.injEq] at h
  subst h
  exact not_lt.mp h2

/-- A pass that ends at a `break` without `done` does not lower the fit. -/
lemma train_round_exit_fit (tr : Trainer Params St_Params Float_Type) (cap : Nat)
    (mp : Float_Type) (s f : Train_State Params St_Params Float_Type)
    (h : train_round tr cap mp s = Loop_Step.exit f)
    (h_not_done : (tr s.calls s.crt_pm_params s.crt_st_params s.crt_fit).done = false) :
    s.crt_fit ≤ f.crt_fit := by
  simp only [train_round] at h
  split_ifs at h with h1 h2 h3
  · rw [h_not_done] at h1; cases h1
  · simp only [Loop_Step.exit.injEq] at h; subst h; exact le_rfl
  · simp only [Loop_Step.exit.injEq] at h; subst h; exact not_lt.mp h2

/-- The fits at successive heads of the loop do not decrease. -/
lemma loop_head_fit_mono (tr : Trainer Params St_Params Float_Type) (cap : Nat)
    (mp : Float_Type) (t u : Train_State Params St_Params Float_Type)
    (h : Loop_Head tr cap mp t u) : t.crt_fit ≤ u.crt_fit := by
  induction h with
  | first => exact le_rfl
  | later _ hstep ih => exact le_trans ih (train_round_next_fit tr cap mp _ _ hstep)

/-- C11 as stated fails when the last round reports `done`: after a first round
with fit 5, the second round of this single-strand loop reports `done` with fit
3; nothing is rolled back, and the loop exits with the fit 3, below the fit
stored after the first round. -/
theorem done_round_may_lower_fit :
    Loop_Head (scripted_trainer [reply 1 5 false, reply 9 3 true] (reply 0 0 true))
      (round_cap false 10) (1 : ℤ) (train_init 0 0)
      { round := 1, crt_pm_params := 1, crt_st_params := 1, crt_fit := ((5 : ℤ) : WithBot ℤ),
        calls := 1 }
    ∧ (train_model false (scripted_trainer [reply 1 5 false, reply 9 3 true] (reply 0 0 true))
        10 (1 : ℤ) 0 0).crt_fit = ((3 : ℤ) : WithBot ℤ)
    ∧ (train_model false (scripted_trainer [reply 1 5 false, reply 9 3 true] (reply 0 0 true))
        10 (1 : ℤ) 0 0).crt_pm_params = 9
    ∧ ¬ ((5 : ℤ) : WithBot ℤ)
        ≤ (train_model false (scripted_trainer [reply 1 5 false, reply 9 3 true] (reply 0 0 true))
            10 (1 : ℤ) 0 0).crt_fit := by
  have hhead : Loop_Head (scripted_trainer [reply 1 5 false, reply 9 3 true] (reply 0 0 true))
      (round_cap false 10) (1 : ℤ) (train_init 0 0)
      { round := 1, crt_pm_params := 1, crt_st_params := 1, crt_fit := ((5 : ℤ) : WithBot ℤ),
        calls := 1 } := Loop_Head.later Loop_Head.first rfl
  have h : train_model false (scripted_trainer [reply 1 5 false, reply 9 3 true] (reply 0 0 true))
      10 (1 : ℤ) 0 0
      = { round := 1, crt_pm_params := 9, crt_st_params := 9, crt_fit := ((3 : ℤ) : WithBot ℤ),
          calls := 2 } := by
    unfold train_model
    rw [train_loop_of_head _ _ _ _ _ hhead]
    exact train_loop_exit _ _ _ _ _ rfl
  rw [h]
  exact ⟨hhead, rfl, rfl, by decide⟩

/-- C11, amended: in both scaling modes, for every trainer, the fits stored at
successive heads of a model's training loop are non-decreasing (every round
whose result is kept stores a fit at least the one before it), and when no
round of the loop reports `done`, the fit stored when the loop exits is at
least the fit at every head of that loop. -/
theorem fit_nondecreasing (scale_strands_together : Bool)
    (tr : Trainer Params St_Params Float_Type) (scaling_max_rounds : Nat)
    (scaling_min_progress : Float_Type) (pm : Params) (st : St_Params)
    (t : Train_State Params St_Params Float_Type)
    (h_head : Loop_Head tr (round_cap scale_strands_together scaling_max_rounds)
      scaling_min_progress (train_init pm st) t) :
    (∀ u, Loop_Head tr (round_cap scale_strands_together scaling_max_rounds)
        scaling_min_progress t u → t.crt_fit ≤ u.crt_fit)
    ∧ ((∀ u, Loop_Head tr (round_cap scale_strands_together scaling_max_rounds)
          scaling_min_progress (train_init pm st) u →
          (tr u.calls u.crt_pm_params u.crt_st_params u.crt_fit).done = false) →
        t.crt_fit ≤ (train_model scale_strands_together tr scaling_max_rounds
          scaling_min_progress pm st).crt_fit) := by
  refine ⟨fun u hu => loop_head_fit_mono tr _ _ t u hu, fun h_no_done => ?_⟩
  obtain ⟨last, f, hlast, hf, hl⟩ :=
    train_loop_reaches_exit tr (round_cap scale_strands_together scaling_max_rounds)
      scaling_min_progress t _ t rfl Loop_Head.first
  have hfinal : train_model scale_strands_together tr scaling_max_rounds
      scaling_min_progress pm st = f := by
    unfold train_model
    rw [train_loop_of_head _ _ _ _ _ h_head, hl]
  rw [hfinal]
  exact le_trans (loop_head_fit_mono tr _ _ t last hlast)
    (train_round_exit_fit tr _ _ last f hf
      (h_no_done last (loop_head_trans tr _ _ _ _ _ h_head hlast)))

/-- C11 (amended) at a script of three rounds with fits 5, 7, 7 and no `done`:
the fit 7 at the exit of the single-strand loop is at least the fit 5 stored
after the first round. -/
theorem fit_nondecreasing_witness :
    ((5 : ℤ) : WithBot ℤ)
      ≤ (train_model false
          (scripted_trainer [reply 1 5 false, reply 2 7 false] (reply 3 7 false))
          10 (1 : ℤ) 0 0).crt_fit :=
  (fit_nondecreasing false
    (scripted_trainer [reply 1 5 false, reply 2 7 false] (reply 3 7 false)) 10 (1 : ℤ) 0 0
    { round := 1, crt_pm_params := 1, crt_st_params := 1, crt_fit := ((5 : ℤ) : WithBot ℤ),
      calls := 1 }
    (Loop_Head.later Loop_Head.first rfl)).2
    (fun u _ => by
      simp only [scripted_trainer]
      rcases hk : u.calls with _ | _ | _ | k <;> simp [reply, List.getD])

end TrainingLemmas

/-! ### Model selection -/

section SelectionLemmas

variable {Key Float_Type : Type} [LinearOrderedAddCommGroup Float_Type]

/-- Every fit is at most the best fit. -/
lemma le_best_fit (fits : List (WithBot Float_Type)) (x : WithBot Float_Type)
    (hx : x ∈ fits) : x ≤ best_fit fits := by
  induction fits with
  | nil => cases hx
  | cons a l ih =>
    simp only [best_fit, List.foldr_cons]
    rcases List.mem_cons.mp hx with h | h
    · rw [h]; exact le_max_left _ _
    · exact le_trans (ih h) (le_max_right _ _)

/-- The best fit of a non-empty list is one of its fits. -/
lemma best_fit_mem (fits : List (WithBot Float_Type)) (h : fits ≠ []) :
    best_fit fits ∈ fits := by
  induction fits with
  | nil => exact absurd rfl h
  | cons a l ih =>
    simp only [best_fit, List.foldr_cons]
    rcases max_choice a (List.foldr max ⊥ l) with hm | hm
    · rw [hm]; exact List.mem_cons_self _ _
    · rw [hm]
      by_cases hl : l = []
      · subst hl
        simp only [List.foldr_nil] at hm ⊢
        have : a = ⊥ := le_bot_iff.mp (hm ▸ le_max_left a ⊥)
        rw [this]; exact List.mem_cons_self _ _
      · exact List.mem_cons_of_mem _ (ih hl)

/-- The scan returns the incoming best or a later entry, and its fit is at
least the incoming best fit and every scanned fit. -/
lemma max_of_from_spec (ps : List (Key × WithBot Float_Type)) :
    ∀ (best : Nat × (Key × WithBot Float_Type)) (i : Nat),
      (max_of_from best i ps = best
        ∨ (i ≤ (max_of_from best i ps).1
            ∧ ps[(max_of_from best i ps).1 - i]? = some (max_of_from best i ps).2))
      ∧ best.2.2 ≤ (max_of_from best i ps).2.2
      ∧ ∀ q ∈ ps, q.2 ≤ (max_of_from best i ps).2.2 := by
  induction ps with
  | nil => intro best i; exact ⟨Or.inl rfl, le_rfl, fun q hq => by cases hq⟩
  | cons p ps ih =>
    intro best i
    simp only [max_of_from]
    split_ifs with hlt
    · obtain ⟨h1, h2, h3⟩ := ih (i, p) (i + 1)
      refine ⟨Or.inr ?_, le_trans hlt.le h2, ?_⟩
      · rcases h1 with h1 | ⟨h1, h1b⟩
        · rw [h1]; simp
        · refine ⟨by omega, ?_⟩
          have : (max_of_from (i, p) (i + 1) ps).1 - i
              = ((max_of_from (i, p) (i + 1) ps).1 - (i + 1)) + 1 := by omega
          rw [this, List.getElem?_cons_succ]; exact h1b
      · intro q hq
        rcases List.mem_cons.mp hq with h | h
        · rw [h]; exact h2
        · exact h3 q h
    · obtain ⟨h1, h2, h3⟩ := ih best (i + 1)
      refine ⟨?_, h2, ?_⟩
      · rcases h1 with h1 | ⟨h1, h1b⟩
        · exact Or.inl h1
        · refine Or.inr ⟨by omega, ?_⟩
          have : (max_of_from best (i + 1) ps).1 - i
              = ((max_of_from best (i + 1) ps).1 - (i + 1)) + 1 := by omega
          rw [this, List.getElem?_cons_succ]; exact h1b
      · intro q hq
        rcases List.mem_cons.mp hq with h | h
        · rw [h]; exact le_trans (not_lt.mp hlt) h2
        · exact h3 q h

/-- `max_of` points at an entry of the map whose fit is the best fit. -/
lemma max_of_spec (model_fit : List (Key × WithBot Float_Type))
    (it_max : Nat × (Key × WithBot Float_Type)) (h : max_of model_fit = some it_max) :
    model_fit[it_max.1]? = some it_max.2 ∧ it_max.2.2 = best_fit (fits_of model_fit) := by
  cases model_fit with
  | nil => cases h
  | cons p ps =>
    simp only [max_of, Option.some.injEq] at h
    obtain ⟨h1, h2, h3⟩ := max_of_from_spec ps (0, p) 1
    rw [h] at h1 h2 h3
    have hget : (p :: ps)[it_max.1]? = some it_max.2 := by
      rcases h1 with h1 | ⟨h1, h1b⟩
      · rw [h1]; simp
      · have : it_max.1 = (it_max.1 - 1) + 1 := by omega
        rw [this, List.getElem?_cons_succ]; exact h1b
    refine ⟨hget, le_antisymm ?_ ?_⟩
    · apply le_best_fit
      exact List.mem_map.mpr ⟨it_max.2, List.getElem?_mem hget, rfl⟩
    · have hmem := best_fit_mem (fits_of (p :: ps)) (by simp [fits_of])
      obtain ⟨q, hq, hqe⟩ := List.mem_map.mp hmem
      rw [← hqe]
      rcases List.mem_cons.mp hq with hq | hq
      · rw [hq]; exact h2
      · exact h3 q hq

/-- `max_of` finds something in every non-empty map. -/
lemma max_of_isSome (model_fit : List (Key × WithBot Float_Type)) (h : model_fit ≠ []) :
    ∃ it_max, max_of model_fit = some it_max := by
  cases model_fit with
  | nil => exact absurd rfl h
  | cons p ps => exact ⟨_, rfl⟩

/-- The `all_of` test spelled out over positions. -/
lemma clears_threshold_iff (model_fit : List (Key × WithBot Float_Type))
    (it_max : Nat × (Key × WithBot Float_Type)) (threshold : Float_Type) :
    clears_threshold model_fit it_max threshold = true
      ↔ ∀ (j : Nat) (q : Key × WithBot Float_Type), model_fit[j]? = some q →
          j = it_max.1 ∨ q.2 + (threshold : WithBot Float_Type) < it_max.2.2 := by
  simp only [clears_threshold, List.all_eq_true, Bool.or_eq_true, decide_eq_true_eq, Prod.forall,
    List.mk_mem_enum_iff_getElem?]

/-- An entry at another position than an occurrence of `b` survives the
removal of one `b`. -/
lemma mem_erase_of_index_ne {α : Type} [DecidableEq α] (l : List α) :
    ∀ (i j : Nat) (b x : α), l[i]? = some b → l[j]? = some x → i ≠ j → x ∈ l.erase b := by
  induction l with
  | nil => intro i j b x hi; simp at hi
  | cons a l ih =>
    intro i j b x hi hj hne
    by_cases hab : a = b
    · subst hab
      rw [List.erase_cons_head]
      cases j with
      | zero =>
        cases i with
        | zero => exact absurd rfl hne
        | succ i =>
          simp only [List.getElem?_cons_zero, Option.some.injEq] at hj
          rw [List.getElem?_cons_succ] at hi
          rw [← hj]; exact List.getElem?_mem hi
      | succ j =>
        rw [List.getElem?_cons_succ] at hj
        exact List.getElem?_mem hj
    · rw [List.erase_cons_tail (by simpa using hab)]
      cases i with
      | zero =>
        simp only [List.getElem?_cons_zero, Option.some.injEq] at hi
        exact absurd hi hab
      | succ i =>
        rw [List.getElem?_cons_succ] at hi
        cases j with
        | zero =>
          simp only [List.getElem?_cons_zero, Option.some.injEq] at hj
          rw [hj]; exact List.mem_cons_self _ _
        | succ j =>
          rw [List.getElem?_cons_succ] at hj
          exact List.mem_cons_of_mem _ (ih i j b x hi hj (by omega))

/-- What is left after the removal of one `b` sits at a position other than
any given occurrence of `b`. -/
lemma index_ne_of_mem_erase {α : Type} [DecidableEq α] (l : List α) :
    ∀ (i : Nat) (b x : α), l[i]? = some b → x ∈ l.erase b →
      ∃ j, j ≠ i ∧ l[j]? = some x := by
  induction l with
  | nil => intro i b x hi; simp at hi
  | cons a l ih =>
    intro i b x hi hx
    by_cases hab : a = b
    · subst hab
      rw [List.erase_cons_head] at hx
      obtain ⟨j, hj⟩ := List.getElem?_of_mem hx
      by_cases hji : j + 1 = i
      · refine ⟨0, by omega, ?_⟩
        subst hji
        rw [List.getElem?_cons_succ] at hi
        rw [hj] at hi
        simp only [List.getElem?_cons_zero]
        exact hi.symm
      · exact ⟨j + 1, hji, by rw [List.getElem?_cons_succ]; exact hj⟩
    · rw [List.erase_cons_tail (by simpa using hab)] at hx
      cases i with
      | zero =>
        simp only [List.getElem?_cons_zero, Option.some.injEq] at hi
        exact absurd hi hab
      | succ i =>
        rw [List.getElem?_cons_succ] at hi
        rcases List.mem_cons.mp hx with h | h
        · exact ⟨0, by omega, by rw [h]; simp⟩
        · obtain ⟨j, hj, hjx⟩ := ih i b x hi h
          exact ⟨j + 1, by omega, by rw [List.getElem?_cons_succ]; exact hjx⟩

/-- When the second-best fit plus the threshold is below the best fit, the
selection step picks an entry that holds the best fit. -/
lemma select_model_of_gap (threshold : Float_Type)
    (model_fit : List (Key × WithBot Float_Type))
    (h_gap : second_best_fit (fits_of model_fit) + (threshold : WithBot Float_Type)
      < best_fit (fits_of model_fit)) :
    ∃ key, (key, best_fit (fits_of model_fit)) ∈ model_fit
      ∧ select_model (threshold : WithTop Float_Type) model_fit = some (some key) := by
  have hne : model_fit ≠ [] := by
    intro h
    rw [h] at h_gap
    simp [fits_of, second_best_fit, best_fit] at h_gap
  obtain ⟨it_max, hmax⟩ := max_of_isSome model_fit hne
  obtain ⟨hget, hbest⟩ := max_of_spec model_fit it_max hmax
  have hclear : clears_threshold model_fit it_max threshold = true := by
    rw [clears_threshold_iff]
    intro j q hq
    by_cases hj : j = it_max.1
    · exact Or.inl hj
    · right
      have h1 : (fits_of model_fit)[it_max.1]? = some (best_fit (fits_of model_fit)) := by
        rw [fits_of, List.getElem?_map, hget, Option.map_some', hbest, fits_of]
      have h2 : (fits_of model_fit)[j]? = some q.2 := by
        rw [fits_of, List.getElem?_map, hq]; rfl
      have h3 := mem_erase_of_index_ne _ _ _ _ _ h1 h2 (Ne.symm hj)
      have h4 : q.2 ≤ second_best_fit (fits_of model_fit) := le_best_fit _ _ h3
      rw [hbest]
      exact lt_of_le_of_lt (add_le_add_right h4 _) h_gap
  refine ⟨it_max.2.1, ?_, ?_⟩
  · rw [← hbest]
    exact List.getElem?_mem hget
  · show (match max_of model_fit with
      | none => none
      | some it_max =>
        if clears_threshold model_fit it_max threshold = true then some (some it_max.2.1)
        else some none) = some (some it_max.2.1)
    rw [hmax]
    simp [hclear]

/-- With a non-negative threshold and at least two entries, a best fit that
exceeds the second-best by less than the threshold, or equals it, selects
nothing. -/
lemma select_model_of_no_gap (scaling_select_threshold : WithTop Float_Type)
    (model_fit : List (Key × WithBot Float_Type))
    (h_thr : 0 ≤ scaling_select_threshold) (h_two : 2 ≤ model_fit.length)
    (h_close : ∀ threshold : Float_Type, scaling_select_threshold = (threshold : WithTop Float_Type) →
      best_fit (fits_of model_fit)
          < second_best_fit (fits_of model_fit) + (threshold : WithBot Float_Type)
        ∨ best_fit (fits_of model_fit) = second_best_fit (fits_of model_fit)) :
    select_model scaling_select_threshold model_fit = some none := by
  cases h_t : scaling_select_threshold with
  | top => rfl
  | coe threshold =>
    have hne : model_fit ≠ [] := by
      intro h; rw [h] at h_two; simp at h_two
    obtain ⟨it_max, hmax⟩ := max_of_isSome model_fit hne
    obtain ⟨hget, hbest⟩ := max_of_spec model_fit it_max hmax
    have h0 : (0 : Float_Type) ≤ threshold := by
      rw [h_t] at h_thr
      exact_mod_cast h_thr
    have hclear : ¬ clears_threshold model_fit it_max threshold = true := by
      rw [clears_threshold_iff]
      intro hall
      have h1 : (fits_of model_fit)[it_max.1]? = some (best_fit (fits_of model_fit)) := by
        rw [fits_of, List.getElem?_map, hget, Option.map_some', hbest, fits_of]
      have hlen : ((fits_of model_fit).erase (best_fit (fits_of model_fit))) ≠ [] := by
        intro h
        have := congrArg List.length h
        rw [List.length_erase_of_mem (List.getElem?_mem h1)] at this
        simp only [fits_of, List.length_map, List.length_nil] at this
        omega
      have hsec := best_fit_mem _ hlen
      obtain ⟨j, hj, hjx⟩ := index_ne_of_mem_erase _ _ _ _ h1 hsec
      rw [fits_of, List.getElem?_map] at hjx
      cases hq : model_fit[j]? with
      | none => rw [hq] at hjx; cases hjx
      | some q =>
        rw [hq] at hjx
        simp only [Option.map_some', Option.some.injEq] at hjx
        rcases hall j q hq with hji | hlt
        · exact hj hji
        · rw [hjx, hbest] at hlt
          change second_best_fit (fits_of model_fit) + (threshold : WithBot Float_Type)
            < best_fit (fits_of model_fit) at hlt
          rcases h_close threshold h_t with hc | hc
          · exact lt_asymm hlt hc
          · rw [hc] at hlt
            have hge : second_best_fit (fits_of model_fit)
                ≤ second_best_fit (fits_of model_fit) + (threshold : WithBot Float_Type) := by
              have : ((0 : Float_Type) : WithBot Float_Type) ≤ (threshold : WithBot Float_Type) :=
                WithBot.coe_le_coe.mpr h0
              calc second_best_fit (fits_of model_fit)
                  = second_best_fit (fits_of model_fit) + ((0 : Float_Type) : WithBot Float_Type) := by
                    rw [WithBot.coe_zero, add_zero]
                _ ≤ _ := add_le_add_left this _
            exact absurd hlt (not_lt.mpr hge)
    show (match max_of model_fit with
      | none => none
      | some it_max =>
        if clears_threshold model_fit it_max threshold = true then some (some it_max.2.1)
        else some none) = some none
    rw [hmax]
    simp [hclear]

/-- C5 as stated fails when the gap equals the threshold: with fits 20 and 0
and `scaling_select_threshold = 20`, `L1 - L2 >= threshold` holds, yet the test
`0 + 20 < 20` fails and `preferred_model` is left as it was, in single-strand
and in double-strand mode. -/
theorem gap_equal_to_threshold_selects_nothing :
    best_fit (fits_of [("a", ((20 : ℤ) : WithBot ℤ)), ("b", ((0 : ℤ) : WithBot ℤ))])
        = ((20 : ℤ) : WithBot ℤ)
    ∧ second_best_fit (fits_of [("a", ((20 : ℤ) : WithBot ℤ)), ("b", ((0 : ℤ) : WithBot ℤ))])
        = ((0 : ℤ) : WithBot ℤ)
    ∧ (20 : ℤ) - 0 ≥ 20
    ∧ select_single ((20 : ℤ) : WithTop ℤ) 0
        [("a", ((20 : ℤ) : WithBot ℤ)), ("b", ((0 : ℤ) : WithBot ℤ))] no_preference
        = some no_preference
    ∧ select_double ((20 : ℤ) : WithTop ℤ)
        [(("a", "c"), ((20 : ℤ) : WithBot ℤ)), (("b", "c"), ((0 : ℤ) : WithBot ℤ))] no_preference
        = some no_preference := by
  refine ⟨by decide, by decide, by decide, rfl, rfl⟩

/-- C5, amended: with a finite `scaling_select_threshold`, when the highest fit
`L1` and the second highest fit `L2` of the trained candidates satisfy
`L2 + threshold < L1` (that is `L1 - L2 > threshold`), the selection step
succeeds and sets `preferred_model` to a candidate whose fit is `L1`: to
`preferred_model[st][st]` in single-strand mode, to `preferred_model[2]` in
double-strand mode. -/
theorem selection_sets_preferred (threshold : Float_Type) (st : Fin 2)
    (preferred_model : Preferred_Model)
    (single_fit : List (String × WithBot Float_Type))
    (double_fit : List (Model_Key × WithBot Float_Type)) :
    (second_best_fit (fits_of single_fit) + (threshold : WithBot Float_Type)
        < best_fit (fits_of single_fit) →
      ∃ m_name result, (m_name, best_fit (fits_of single_fit)) ∈ single_fit
        ∧ select_single (threshold : WithTop Float_Type) st single_fit preferred_model
            = some result
        ∧ (result st.castSucc).get st = m_name)
    ∧ (second_best_fit (fits_of double_fit) + (threshold : WithBot Float_Type)
        < best_fit (fits_of double_fit) →
      ∃ m_name result, (m_name, best_fit (fits_of double_fit)) ∈ double_fit
        ∧ select_double (threshold : WithTop Float_Type) double_fit preferred_model
            = some result
        ∧ result 2 = m_name) := by
  constructor
  · intro h_gap
    obtain ⟨key, hmem, hsel⟩ := select_model_of_gap threshold single_fit h_gap
    refine ⟨key, _, hmem, by rw [select_single, hsel]; rfl, ?_⟩
    simp only [Function.update_same, Model_Key.get, Model_Key.set]
    split_ifs <;> rfl
  · intro h_gap
    obtain ⟨key, hmem, hsel⟩ := select_model_of_gap threshold double_fit h_gap
    refine ⟨key, _, hmem, by rw [select_double, hsel]; rfl, ?_⟩
    simp [Function.update_same, Model_Key.set]

/-- C5 (amended) in single-strand mode at fits 21 and 0 with threshold 20. -/
theorem selection_sets_preferred_witness :
    ∃ m_name result,
      (m_name, best_fit (fits_of [("a", ((21 : ℤ) : WithBot ℤ)), ("b", ((0 : ℤ) : WithBot ℤ))]))
        ∈ [("a", ((21 : ℤ) : WithBot ℤ)), ("b", ((0 : ℤ) : WithBot ℤ))]
      ∧ select_single ((20 : ℤ) : WithTop ℤ) 0
          [("a", ((21 : ℤ) : WithBot ℤ)), ("b", ((0 : ℤ) : WithBot ℤ))] no_preference
          = some result
      ∧ (result (0 : Fin 2).castSucc).get 0 = m_name :=
  (selection_sets_preferred (20 : ℤ) 0 no_preference
    [("a", ((21 : ℤ) : WithBot ℤ)), ("b", ((0 : ℤ) : WithBot ℤ))] []).1 (by decide)

/-- C6: for every `scaling_select_threshold >= 0` (`INFINITY` included) and at
least two trained candidates, when the best fit exceeds the second-best by less
than the threshold, or the two are equal, the selection step leaves
`preferred_model` as it was, in single-strand and in double-strand mode. -/
theorem close_fits_select_nothing (scaling_select_threshold : WithTop Float_Type)
    (h_thr : 0 ≤ scaling_select_threshold) (st : Fin 2) (preferred_model : Preferred_Model)
    (single_fit : List (String × WithBot Float_Type))
    (double_fit : List (Model_Key × WithBot Float_Type)) :
    (2 ≤ single_fit.length →
      (∀ threshold : Float_Type, scaling_select_threshold = (threshold : WithTop Float_Type) →
        best_fit (fits_of single_fit)
            < second_best_fit (fits_of single_fit) + (threshold : WithBot Float_Type)
          ∨ best_fit (fits_of single_fit) = second_best_fit (fits_of single_fit)) →
      select_single scaling_select_threshold st single_fit preferred_model
        = some preferred_model)
    ∧ (2 ≤ double_fit.length →
      (∀ threshold : Float_Type, scaling_select_threshold = (threshold : WithTop Float_Type) →
        best_fit (fits_of double_fit)
            < second_best_fit (fits_of double_fit) + (threshold : WithBot Float_Type)
          ∨ best_fit (fits_of double_fit) = second_best_fit (fits_of double_fit)) →
      select_double scaling_select_threshold double_fit preferred_model
        = some preferred_model) := by
  constructor
  · intro h_two h_close
    rw [select_single, select_model_of_no_gap _ _ h_thr h_two h_close]
    rfl
  · intro h_two h_close
    rw [select_double, select_model_of_no_gap _ _ h_thr h_two h_close]
    rfl

/-- C6 at two candidates with the same fit 5 and threshold 20, in single-strand
mode. -/
theorem close_fits_select_nothing_witness :
    select_single ((20 : ℤ) : WithTop ℤ) 1
        [("a", ((5 : ℤ) : WithBot ℤ)), ("b", ((5 : ℤ) : WithBot ℤ))] no_preference
      = some no_preference :=
  (close_fits_select_nothing ((20 : ℤ) : WithTop ℤ) (by decide) 1 no_preference
    [("a", ((5 : ℤ) : WithBot ℤ)), ("b", ((5 : ℤ) : WithBot ℤ))] []).1 (by decide)
    (fun threshold h => by
      have ht : threshold = 20 := by exact_mod_cast h.symm
      subst ht
      decide)

end SelectionLemmas

/-! ### Decoding -/

section DecodingLemmas

variable {Params St_Params Float_Type : Type}

/-- The tuple order is the lexicographic order of the three components. -/
lemma tuple_lt_iff_lex {A B C : Type} [LinearOrder A] [LinearOrder B] [LinearOrder C]
    (x y : A × B × C) :
    tuple_lt x y ↔ toLex (x.1, toLex (x.2.1, x.2.2)) < toLex (y.1, toLex (y.2.1, y.2.2)) := by
  rw [Prod.Lex.lt_iff, Prod.Lex.lt_iff]
  unfold tuple_lt
  constructor
  · rintro (h | ⟨h1, h | ⟨h2, h3⟩⟩)
    · exact Or.inl h
    · rcases lt_or_eq_of_le (not_lt.mp h1) with h4 | h4
      · exact Or.inl h4
      · exact Or.inr ⟨h4, Or.inl h⟩
    · rcases lt_or_eq_of_le (not_lt.mp h1) with h4 | h4
      · exact Or.inl h4
      · rcases lt_or_eq_of_le (not_lt.mp h2) with h5 | h5
        · exact Or.inr ⟨h4, Or.inl h5⟩
        · exact Or.inr ⟨h4, Or.inr ⟨h5, h3⟩⟩
  · rintro (h | ⟨h1, h | ⟨h2, h3⟩⟩)
    · exact Or.inl h
    · exact Or.inr ⟨by simp only [] at h1; rw [h1]; exact lt_irrefl _, Or.inl h⟩
    · refine Or.inr ⟨by simp only [] at h1; rw [h1]; exact lt_irrefl _, Or.inr ⟨?_, h3⟩⟩
      simp only [] at h2; rw [h2]; exact lt_irrefl _

/-- "Not greater" for tuples, as a relation. -/
lemma tuple_le_iff_lex {A B C : Type} [LinearOrder A] [LinearOrder B] [LinearOrder C]
    (x y : A × B × C) :
    ¬ tuple_lt y x ↔ toLex (x.1, toLex (x.2.1, x.2.2)) ≤ toLex (y.1, toLex (y.2.1, y.2.2)) := by
  rw [tuple_lt_iff_lex, not_lt]

/-- Of two tuples, one is not above the other. -/
lemma tuple_le_total {A B C : Type} [LinearOrder A] [LinearOrder B] [LinearOrder C] :
    IsTotal (A × B × C) (fun x y => ¬ tuple_lt y x) :=
  ⟨fun x y => by
    rw [tuple_le_iff_lex, tuple_le_iff_lex]
    exact le_total _ _⟩

/-- "Not above" is transitive on tuples. -/
lemma tuple_le_trans {A B C : Type} [LinearOrder A] [LinearOrder B] [LinearOrder C] :
    IsTrans (A × B × C) (fun x y => ¬ tuple_lt y x) :=
  ⟨fun x y z => by
    rw [tuple_le_iff_lex, tuple_le_iff_lex, tuple_le_iff_lex]
    exact le_trans⟩

/-- The last element of an ascending list is not below any element. -/
lemma sorted_le_getLast {α : Type} (r : α → α → Prop) (hrefl : ∀ x, r x x) (l : List α)
    (hs : l.Sorted r) (hne : l ≠ []) : ∀ x ∈ l, r x (l.getLast hne) := by
  intro x hx
  have hsplit := List.dropLast_append_getLast hne
  rw [← hsplit] at hs hx
  rcases List.mem_append.mp hx with h | h
  · exact (List.pairwise_append.mp hs).2.2 x h _ (List.mem_singleton_self _)
  · rw [List.mem_singleton.mp h]; exact hrefl _

/-- `results.back()` after `std::sort`: an element of `results` whose first
component is the largest. -/
lemma std_sort_back {B C : Type} [LinearOrder Float_Type] [LinearOrder B] [LinearOrder C]
    [DecidableRel (fun x y : Float_Type × B × C => tuple_lt x y)]
    (results : List (Float_Type × B × C)) (hne : results ≠ []) :
    ∃ back, (std_sort tuple_lt results).getLast? = some back ∧ back ∈ results
      ∧ ∀ x ∈ results, x.1 ≤ back.1 := by
  have hperm := List.perm_insertionSort (fun x y : Float_Type × B × C => ¬ tuple_lt y x) results
  haveI : IsTotal (Float_Type × B × C) (fun x y => ¬ tuple_lt y x) := tuple_le_total
  haveI : IsTrans (Float_Type × B × C) (fun x y => ¬ tuple_lt y x) := tuple_le_trans
  have hsorted := List.sorted_insertionSort (fun x y : Float_Type × B × C => ¬ tuple_lt y x)
    results
  have hne2 : std_sort tuple_lt results ≠ [] := by
    intro h
    unfold std_sort at h
    rw [h] at hperm
    exact hne (List.Perm.eq_nil hperm.symm)
  refine ⟨(std_sort tuple_lt results).getLast hne2, List.getLast?_eq_getLast _ hne2,
    hperm.mem_iff.mp (List.getLast_mem hne2), ?_⟩
  intro x hx
  have hrefl : ∀ y : Float_Type × B × C, ¬ tuple_lt y y := fun y => by
    rw [tuple_le_iff_lex]
  have h := sorted_le_getLast _ hrefl _ hsorted hne2 x (hperm.mem_iff.mpr hx)
  by_contra hlt
  exact h (Or.inl (not_le.mp hlt))

/-- When every candidate has its parameters stored, `results` holds one tuple
per candidate, and every tuple comes from a candidate. -/
lemma basecall_results_spec
    (basecall_strand : Fin 2 → String → Params → St_Params → Float_Type × String)
    (read_summary : Fast5_Summary Params St_Params) (st : Fin 2) (sublist : List Model_Key)
    (h_params : ∀ m_name ∈ sublist, ∃ pm_params st_params,
      map_at read_summary.pm_params_m m_name = some pm_params
      ∧ map_at read_summary.st_params_m m_name = some st_params) :
    ∃ results, basecall_results basecall_strand read_summary st sublist = some results
      ∧ results.length = sublist.length
      ∧ (∀ x ∈ results, ∃ m_name pm_params st_params, m_name ∈ sublist
          ∧ map_at read_summary.pm_params_m m_name = some pm_params
          ∧ map_at read_summary.st_params_m m_name = some st_params
          ∧ x = ((basecall_strand st (m_name.get st) pm_params (st_params st)).1,
                  m_name.get st,
                  (basecall_strand st (m_name.get st) pm_params (st_params st)).2))
      ∧ (∀ m_name ∈ sublist, ∀ pm_params st_params,
          map_at read_summary.pm_params_m m_name = some pm_params →
          map_at read_summary.st_params_m m_name = some st_params →
          ((basecall_strand st (m_name.get st) pm_params (st_params st)).1,
            m_name.get st,
            (basecall_strand st (m_name.get st) pm_params (st_params st)).2) ∈ results) := by
  induction sublist with
  | nil =>
    refine ⟨[], rfl, rfl, ?_, ?_⟩
    · intro x hx; cases hx
    · intro m hm; cases hm
  | cons m rest ih =>
    obtain ⟨pm, stp, hpm, hstp⟩ := h_params m (List.mem_cons_self _ _)
    obtain ⟨results, hres, hlen, hfrom, hto⟩ :=
      ih (fun m2 hm2 => h_params m2 (List.mem_cons_of_mem _ hm2))
    refine ⟨((basecall_strand st (m.get st) pm (stp st)).1, m.get st,
        (basecall_strand st (m.get st) pm (stp st)).2) :: results,
      by simp only [basecall_results, hpm, hstp, hres], by simp [hlen], ?_, ?_⟩
    · intro x hx
      rcases List.mem_cons.mp hx with h | h
      · exact ⟨m, pm, stp, List.mem_cons_self _ _, hpm, hstp, h⟩
      · obtain ⟨m2, pm2, stp2, hm2, h2⟩ := hfrom x h
        exact ⟨m2, pm2, stp2, List.mem_cons_of_mem _ hm2, h2⟩
    · intro m2 hm2 pm2 stp2 hpm2 hstp2
      rcases List.mem_cons.mp hm2 with h | h
      · subst h
        rw [hpm] at hpm2
        rw [hstp] at hstp2
        cases hpm2
        cases hstp2
        exact List.mem_cons_self _ _
      · exact List.mem_cons_of_mem _ (hto m2 h pm2 stp2 hpm2 hstp2)

/-- C4: in single-strand decoding, a strand with enough events, a non-empty
candidate list and stored parameters for every candidate is decoded; the
model name written to `preferred_model[st][st]` and the emitted base sequence
both come from one candidate, and the Viterbi path probability of that
candidate is at least that of every candidate tried for the strand. -/
theorem single_strand_picks_best_path [LinearOrder Float_Type]
    (basecall_strand : Fin 2 → String → Params → St_Params → Float_Type × String)
    (min_read_len : Nat) (read_summary : Fast5_Summary Params St_Params) (st : Fin 2)
    (h_events : min_read_len ≤ read_summary.num_events st)
    (h_nonempty : model_sublist_single read_summary st ≠ [])
    (h_params : ∀ m_name ∈ model_sublist_single read_summary st, ∃ pm_params st_params,
      map_at read_summary.pm_params_m m_name = some pm_params
      ∧ map_at read_summary.st_params_m m_name = some st_params) :
    ∃ call best pm_params st_params,
      basecall_single_strand basecall_strand min_read_len read_summary st
        = Strand_Outcome.decoded call
      ∧ best ∈ model_sublist_single read_summary st
      ∧ map_at read_summary.pm_params_m best = some pm_params
      ∧ map_at read_summary.st_params_m best = some st_params
      ∧ (call.read_summary.preferred_model st.castSucc).get st = best.get st
      ∧ call.best_m_name = best.get st
      ∧ call.base_seq = (basecall_strand st (best.get st) pm_params (st_params st)).2
      ∧ call.log_path_prob = (basecall_strand st (best.get st) pm_params (st_params st)).1
      ∧ ∀ m_name ∈ model_sublist_single read_summary st, ∀ pm_params2 st_params2,
          map_at read_summary.pm_params_m m_name = some pm_params2 →
          map_at read_summary.st_params_m m_name = some st_params2 →
          (basecall_strand st (m_name.get st) pm_params2 (st_params2 st)).1
            ≤ (basecall_strand st (best.get st) pm_params (st_params st)).1 := by
  obtain ⟨results, hres, hlen, hfrom, hto⟩ :=
    basecall_results_spec basecall_strand read_summary st _ h_params
  have hne : results ≠ [] := by
    intro h
    rw [h] at hlen
    exact h_nonempty (List.length_eq_zero.mp hlen.symm)
  obtain ⟨back, hback, hmem, hmax⟩ := std_sort_back results hne
  obtain ⟨best, pm, stp, hbest, hpm, hstp, hx⟩ := hfrom back hmem
  refine ⟨{ read_summary :=
              { read_summary with
                preferred_model :=
                  Function.update read_summary.preferred_model st.castSucc
                    ((read_summary.preferred_model st.castSucc).set st back.2.1) }
            log_path_prob := back.1
            best_m_name := back.2.1
            base_seq := back.2.2 }, best, pm, stp, ?_, hbest, hpm, hstp, ?_, ?_, ?_, ?_, ?_⟩
  · simp only [basecall_single_strand, not_lt.mpr h_events, if_false, hres, hback]
  · simp only [Function.update_same, hx]
    simp only [Model_Key.get, Model_Key.set]
    split_ifs <;> rfl
  · simp only [hx]
  · simp only [hx]
  · simp only [hx]
  · intro m hm pm2 stp2 hpm2 hstp2
    have := hmax _ (hto m hm pm2 stp2 hpm2 hstp2)
    rw [hx] at this
    exact this

/-- C4 at a read with two candidates for strand 0. -/
theorem single_strand_picks_best_path_witness :
    ∃ call best, basecall_single_strand sample_basecall 10 sample_read 0
        = Strand_Outcome.decoded call
      ∧ best ∈ model_sublist_single sample_read 0
      ∧ call.best_m_name = best.get 0 := by
  have hsub : model_sublist_single sample_read 0 = [("a", ""), ("b", "")] := by decide
  obtain ⟨call, best, pm, stp, h1, h2, _, _, _, h3, _⟩ :=
    single_strand_picks_best_path sample_basecall 10 sample_read 0 (by decide)
      (by rw [hsub]; exact List.cons_ne_nil _ _)
      (fun m hm => by
        rw [hsub] at hm
        rcases List.mem_cons.mp hm with h | h
        · exact ⟨1, fun _ => 0, by rw [h]; rfl, by rw [h]; rfl⟩
        · rw [List.mem_singleton.mp h]
          exact ⟨2, fun _ => 0, rfl, rfl⟩)
  exact ⟨call, best, h1, h2, h3⟩

end DecodingLemmas

/-! ### Tie-breaking in decoding -/

section TieBreak

variable {Params St_Params Float_Type : Type}

/-- The order of a linearly ordered type is a strict weak ordering. -/
lemma strict_weak_lt {A : Type} [LinearOrder A] : Strict_Weak (fun a b : A => a < b) :=
  ⟨fun _ _ h => lt_asymm h, fun _ _ _ h1 h2 => not_lt.mpr (le_trans (not_lt.mp h1) (not_lt.mp h2))⟩

/-- A lexicographic step keeps a strict weak ordering. -/
lemma strict_weak_lex {A R : Type} [LinearOrder A] (lt_rest : R → R → Prop)
    (h : Strict_Weak lt_rest) : Strict_Weak (lex_lt lt_rest : A × R → A × R → Prop) := by
  obtain ⟨hasym, htrans⟩ := h
  constructor
  · rintro x y (h1 | ⟨h1, h2⟩) (h3 | ⟨h3, h4⟩)
    · exact lt_asymm h1 h3
    · exact h3 h1
    · exact h1 h3
    · exact hasym _ _ h2 h4
  · intro x y z hyx hzy hzx
    unfold lex_lt at hyx hzy hzx
    rw [not_or, not_and] at hyx hzy
    obtain ⟨hyx1, hyx2⟩ := hyx
    obtain ⟨hzy1, hzy2⟩ := hzy
    have hxy : x.1 ≤ y.1 := not_lt.mp hyx1
    have hyz : y.1 ≤ z.1 := not_lt.mp hzy1
    rcases hzx with h | ⟨h1, h2⟩
    · exact absurd (le_trans hxy hyz) (not_le.mpr h)
    · have hzx1 : z.1 ≤ x.1 := not_lt.mp h1
      have e1 : x.1 = y.1 := le_antisymm hxy (le_trans hyz hzx1)
      have e2 : y.1 = z.1 := le_antisymm hyz (le_trans hzx1 hxy)
      have n1 : ¬ lt_rest y.2 x.2 := hyx2 (by rw [e1]; exact lt_irrefl _)
      have n2 : ¬ lt_rest z.2 y.2 := hzy2 (by rw [e2]; exact lt_irrefl _)
      exact htrans _ _ _ n1 n2 h2

/-- The order of the seven-component tuples is a strict weak ordering. -/
lemma strict_weak_tuple7 [LinearOrder Float_Type] :
    Strict_Weak (fun x y : Pair_Result Float_Type => tuple7_lt x y) := by
  unfold tuple7_lt
  exact strict_weak_lex _ (strict_weak_lex _ (strict_weak_lex _ (strict_weak_lex _
    (strict_weak_lex _ (strict_weak_lex _ strict_weak_lt)))))

/-- The order of the three-component tuples is a strict weak ordering. -/
lemma strict_weak_tuple3 {A B C : Type} [LinearOrder A] [LinearOrder B] [LinearOrder C] :
    Strict_Weak (fun x y : A × B × C => tuple_lt x y) := by
  have h : Strict_Weak (lex_lt (lex_lt (fun a b : C => a < b)) : A × B × C → A × B × C → Prop) :=
    strict_weak_lex _ (strict_weak_lex _ strict_weak_lt)
  exact h

/-- `back()` after `std::sort` with a strict weak ordering: an element of the
sequence that is below no element of it. -/
lemma std_sort_back_max {α : Type} (lt : α → α → Prop) [DecidableRel lt]
    (h : Strict_Weak lt) (l : List α) (hne : l ≠ []) :
    ∃ back, (std_sort lt l).getLast? = some back ∧ back ∈ l ∧ ∀ x ∈ l, ¬ lt back x := by
  obtain ⟨hasym, htrans⟩ := h
  have hperm := List.perm_insertionSort (fun x y : α => ¬ lt y x) l
  haveI : IsTotal α (fun x y => ¬ lt y x) :=
    ⟨fun x y => by
      by_cases hxy : lt y x
      · exact Or.inr (hasym _ _ hxy)
      · exact Or.inl hxy⟩
  haveI : IsTrans α (fun x y => ¬ lt y x) := ⟨fun x y z h1 h2 => htrans x y z h1 h2⟩
  have hsorted := List.sorted_insertionSort (fun x y : α => ¬ lt y x) l
  have hne2 : std_sort lt l ≠ [] := by
    intro h0
    unfold std_sort at h0
    rw [h0] at hperm
    exact hne (List.Perm.eq_nil hperm.symm)
  refine ⟨(std_sort lt l).getLast hne2, List.getLast?_eq_getLast _ hne2,
    hperm.mem_iff.mp (List.getLast_mem hne2), ?_⟩
  intro x hx
  have hrefl : ∀ y : α, ¬ lt y y := fun y hy => hasym _ _ hy hy
  exact sorted_le_getLast _ hrefl _ hsorted hne2 x (hperm.mem_iff.mpr hx)

/-- The single-strand branch decodes a strand with enough events, a non-empty
candidate list and stored parameters for every candidate, and what it returns
is the tuple of a candidate that is below no candidate's tuple. -/
lemma basecall_single_strand_spec [LinearOrder Float_Type]
    (basecall_strand : Fin 2 → String → Params → St_Params → Float_Type × String)
    (min_read_len : Nat) (read_summary : Fast5_Summary Params St_Params) (st : Fin 2)
    (h_events : min_read_len ≤ read_summary.num_events st)
    (h_nonempty : model_sublist_single read_summary st ≠ [])
    (h_params : ∀ m_name ∈ model_sublist_single read_summary st, ∃ pm_params st_params,
      map_at read_summary.pm_params_m m_name = some pm_params
      ∧ map_at read_summary.st_params_m m_name = some st_params) :
    ∃ call best pm_params st_params,
      basecall_single_strand basecall_strand min_read_len read_summary st
        = Strand_Outcome.decoded call
      ∧ best ∈ model_sublist_single read_summary st
      ∧ map_at read_summary.pm_params_m best = some pm_params
      ∧ map_at read_summary.st_params_m best = some st_params
      ∧ call.best_m_name = best.get st
      ∧ call.log_path_prob = (basecall_strand st (best.get st) pm_params (st_params st)).1
      ∧ call.base_seq = (basecall_strand st (best.get st) pm_params (st_params st)).2
      ∧ ∀ m_name ∈ model_sublist_single read_summary st, ∀ pm_params2 st_params2,
          map_at read_summary.pm_params_m m_name = some pm_params2 →
          map_at read_summary.st_params_m m_name = some st_params2 →
          ¬ tuple_lt
            ((basecall_strand st (best.get st) pm_params (st_params st)).1, best.get st,
              (basecall_strand st (best.get st) pm_params (st_params st)).2)
            ((basecall_strand st (m_name.get st) pm_params2 (st_params2 st)).1, m_name.get st,
              (basecall_strand st (m_name.get st) pm_params2 (st_params2 st)).2) := by
  obtain ⟨results, hres, hlen, hfrom, hto⟩ :=
    basecall_results_spec basecall_strand read_summary st _ h_params
  have hne : results ≠ [] := by
    intro h
    rw [h] at hlen
    exact h_nonempty (List.length_eq_zero.mp hlen.symm)
  obtain ⟨back, hback, hmem, hmax⟩ := std_sort_back_max tuple_lt strict_weak_tuple3 results hne
  obtain ⟨best, pm, stp, hbest, hpm, hstp, hx⟩ := hfrom back hmem
  refine ⟨{ read_summary :=
              { read_summary with
                preferred_model :=
                  Function.update read_summary.preferred_model st.castSucc
                    ((read_summary.preferred_model st.castSucc).set st back.2.1) }
            log_path_prob := back.1
            best_m_name := back.2.1
            base_seq := back.2.2 }, best, pm, stp, ?_, hbest, hpm, hstp, ?_, ?_, ?_, ?_⟩
  · simp only [basecall_single_strand, not_lt.mpr h_events, if_false, hres, hback]
  · simp only [hx]
  · simp only [hx]
  · simp only [hx]
  · intro m hm pm2 stp2 hpm2 hstp2
    have := hmax _ (hto m hm pm2 stp2 hpm2 hstp2)
    rw [hx] at this
    exact this

/-- When every candidate pair has its parameters stored, `results` holds one
tuple per candidate pair, and every tuple comes from a candidate pair. -/
lemma basecall_results_double_spec [LinearOrder Float_Type] [Add Float_Type]
    (basecall_strand : Fin 2 → String → Params → St_Params → Float_Type × String)
    (read_summary : Fast5_Summary Params St_Params) (sublist : List Model_Key)
    (h_params : ∀ m_name ∈ sublist, ∃ pm_params st_params,
      map_at read_summary.pm_params_m m_name = some pm_params
      ∧ map_at read_summary.st_params_m m_name = some st_params) :
    ∃ results, basecall_results_double basecall_strand read_summary sublist = some results
      ∧ results.length = sublist.length
      ∧ (∀ x ∈ results, ∃ m_name pm_params st_params, m_name ∈ sublist
          ∧ map_at read_summary.pm_params_m m_name = some pm_params
          ∧ map_at read_summary.st_params_m m_name = some st_params
          ∧ x = pair_result basecall_strand m_name pm_params st_params)
      ∧ (∀ m_name ∈ sublist, ∀ pm_params st_params,
          map_at read_summary.pm_params_m m_name = some pm_params →
          map_at read_summary.st_params_m m_name = some st_params →
          pair_result basecall_strand m_name pm_params st_params ∈ results) := by
  induction sublist with
  | nil =>
    refine ⟨[], rfl, rfl, ?_, ?_⟩
    · intro x hx; cases hx
    · intro m hm; cases hm
  | cons m rest ih =>
    obtain ⟨pm, stp, hpm, hstp⟩ := h_params m (List.mem_cons_self _ _)
    obtain ⟨results, hres, hlen, hfrom, hto⟩ :=
      ih (fun m2 hm2 => h_params m2 (List.mem_cons_of_mem _ hm2))
    refine ⟨pair_result basecall_strand m pm stp :: results,
      by simp only [basecall_results_double, hpm, hstp, hres], by simp [hlen], ?_, ?_⟩
    · intro x hx
      rcases List.mem_cons.mp hx with h | h
      · exact ⟨m, pm, stp, List.mem_cons_self _ _, hpm, hstp, h⟩
      · obtain ⟨m2, pm2, stp2, hm2, h2⟩ := hfrom x h
        exact ⟨m2, pm2, stp2, List.mem_cons_of_mem _ hm2, h2⟩
    · intro m2 hm2 pm2 stp2 hpm2 hstp2
      rcases List.mem_cons.mp hm2 with h | h
      · subst h
        rw [hpm] at hpm2
        rw [hstp] at hstp2
        cases hpm2
        cases hstp2
        exact List.mem_cons_self _ _
      · exact List.mem_cons_of_mem _ (hto m2 h pm2 stp2 hpm2 hstp2)

/-- A key is the pair of its two names. -/
lemma model_key_eta (key : Model_Key) : (key.get 0, key.get 1) = key := by
  simp [Model_Key.get]

/-- The double-strand branch decodes a read with a non-empty list of candidate
pairs and stored parameters for every pair, and what it returns is the tuple
of a candidate pair that is below no candidate pair's tuple. -/
lemma basecall_double_strand_spec [LinearOrder Float_Type] [Add Float_Type]
    [Inhabited St_Params]
    (basecall_strand : Fin 2 → String → Params → St_Params → Float_Type × String)
    (read_summary : Fast5_Summary Params St_Params)
    (h_nonempty : model_sublist_double read_summary ≠ [])
    (h_params : ∀ m_name ∈ model_sublist_double read_summary, ∃ pm_params st_params,
      map_at read_summary.pm_params_m m_name = some pm_params
      ∧ map_at read_summary.st_params_m m_name = some st_params) :
    ∃ call best pm_params st_params,
      basecall_double_strand basecall_strand read_summary = Strand_Outcome.decoded call
      ∧ best ∈ model_sublist_double read_summary
      ∧ map_at read_summary.pm_params_m best = some pm_params
      ∧ map_at read_summary.st_params_m best = some st_params
      ∧ call.best_m_name = best
      ∧ (∀ st, call.best_log_path_prob st
          = (basecall_strand st (best.get st) pm_params (st_params st)).1)
      ∧ (∀ st, call.base_seq st
          = (basecall_strand st (best.get st) pm_params (st_params st)).2)
      ∧ (∀ st : Fin 2, (call.read_summary.preferred_model st.castSucc).get st = best.get st)
      ∧ ∀ m_name ∈ model_sublist_double read_summary, ∀ pm_params2 st_params2,
          map_at read_summary.pm_params_m m_name = some pm_params2 →
          map_at read_summary.st_params_m m_name = some st_params2 →
          ¬ tuple7_lt (pair_result basecall_strand best pm_params st_params)
              (pair_result basecall_strand m_name pm_params2 st_params2) := by
  obtain ⟨results, hres, hlen, hfrom, hto⟩ :=
    basecall_results_double_spec basecall_strand read_summary _ h_params
  have hne : results ≠ [] := by
    intro h
    rw [h] at hlen
    exact h_nonempty (List.length_eq_zero.mp hlen.symm)
  obtain ⟨back, hback, hmem, hmax⟩ :=
    std_sort_back_max (fun x y : Pair_Result Float_Type => tuple7_lt x y)
      strict_weak_tuple7 results hne
  obtain ⟨best, pm, stp, hbest, hpm, hstp, hx⟩ := hfrom back hmem
  have hkey : ((back.2.2.2.1, back.2.2.2.2.1) : Model_Key) = best := by
    rw [hx]; exact model_key_eta best
  refine ⟨{ read_summary :=
              store_best (store_best read_summary 0 best pm stp) 1 best pm stp
            best_log_path_prob := fun st => if st = 0 then back.2.1 else back.2.2.1
            best_m_name := best
            base_seq := fun st => if st = 0 then back.2.2.2.2.2.1 else back.2.2.2.2.2.2 },
    best, pm, stp, ?_, hbest, hpm, hstp, rfl, ?_, ?_, ?_, ?_⟩
  · have hback2 : (std_sort tuple7_lt results).getLast? = some back := hback
    simp only [basecall_double_strand, hres, hback2, hkey, hpm, hstp]
  · intro st
    fin_cases st <;> simp [hx, pair_result]
  · intro st
    fin_cases st <;> simp [hx, pair_result]
  · intro st
    fin_cases st <;> simp [store_best, Model_Key.get, Model_Key.set, Function.update]
  · intro m hm pm2 stp2 hpm2 hstp2
    have := hmax _ (hto m hm pm2 stp2 hpm2 hstp2)
    rw [hx] at this
    exact this

/-- An element that is not lexicographically below another has a first
component that is not below the other's. -/
lemma lex_lt_first_le {A R : Type} [LinearOrder A] (lt_rest : R → R → Prop) (b m : A × R)
    (h : ¬ lex_lt lt_rest b m) : m.1 ≤ b.1 :=
  not_lt.mp fun hlt => h (Or.inl hlt)

/-- When the first components tie, the tails decide. -/
lemma lex_lt_tie {A R : Type} [LinearOrder A] (lt_rest : R → R → Prop) (b m : A × R)
    (h : ¬ lex_lt lt_rest b m) (he : m.1 = b.1) : ¬ lt_rest b.2 m.2 :=
  fun hr => h (Or.inr ⟨by rw [he]; exact lt_irrefl _, hr⟩)

/-- The candidates of `sample_read` for strand 0. -/
lemma sample_read_sublist : model_sublist_single sample_read 0 = [("a", ""), ("b", "")] := by
  decide

/-- Every candidate of `sample_read` for strand 0 has its parameters stored. -/
lemma sample_read_params :
    ∀ m_name ∈ model_sublist_single sample_read 0, ∃ pm_params st_params,
      map_at sample_read.pm_params_m m_name = some pm_params
      ∧ map_at sample_read.st_params_m m_name = some st_params := by
  intro m hm
  rw [sample_read_sublist] at hm
  rcases List.mem_cons.mp hm with h | h
  · exact ⟨1, fun _ => 0, by rw [h]; rfl, by rw [h]; rfl⟩
  · rw [List.mem_singleton.mp h]
    exact ⟨2, fun _ => 0, rfl, rfl⟩

/-- C12 as stated fails in single-strand mode: the models "a" and "b" tie on
the path probability 5, and the winner is "b", the name that comes last in
lexicographic order, not "a". -/
theorem tie_goes_to_last_name :
    (tie_basecall 0 "a" 1 0).1 = (tie_basecall 0 "b" 2 0).1
    ∧ "a" < "b"
    ∧ ∃ call, basecall_single_strand tie_basecall 10 sample_read 0 = Strand_Outcome.decoded call
        ∧ call.best_m_name = "b" ∧ call.best_m_name ≠ "a" := by
  have hab : "a" < "b" := by rw [String.lt_iff_toList_lt]; decide
  refine ⟨rfl, hab, ?_⟩
  obtain ⟨call, best, pm, stp, h1, h2, _, _, h3, _, _, h4⟩ :=
    basecall_single_strand_spec tie_basecall 10 sample_read 0 (by decide)
      (by rw [sample_read_sublist]; exact List.cons_ne_nil _ _) sample_read_params
  have hb : best = ("b", "") := by
    rw [sample_read_sublist] at h2
    rcases List.mem_cons.mp h2 with h | h
    · exfalso
      have hmem : (("b", "") : Model_Key) ∈ model_sublist_single sample_read 0 := by
        rw [sample_read_sublist]; simp
      apply h4 ("b", "") hmem 2 (fun _ => 0) rfl rfl
      rw [h]
      exact Or.inr ⟨lt_irrefl (5 : ℤ), Or.inl hab⟩
    · exact List.mem_singleton.mp h
  have hname : call.best_m_name = "b" := by rw [h3, hb]; rfl
  exact ⟨call, h1, hname, by rw [hname]; decide⟩

/-- C12, amended: at decoding, whatever the order in which the candidates are
enumerated and whatever the decoded sequences, ties on the maximal score are
broken by the tuple order of `results`.  In single-strand mode the winner is a
candidate of maximal path probability, and every candidate that ties with it
has a model name lexicographically at most the winner's.  In double-strand
mode the winner is a candidate pair, and every pair that ties with it on the
sum has a strand-0 path probability at most the winner's; on a further tie, a
strand-1 path probability at most the winner's; then a strand-0 model name,
then a strand-1 model name lexicographically at most the winner's. -/
theorem decode_tie_break [LinearOrder Float_Type] [Add Float_Type] [Inhabited St_Params]
    (basecall_strand : Fin 2 → String → Params → St_Params → Float_Type × String)
    (min_read_len : Nat) (read_summary : Fast5_Summary Params St_Params) (st : Fin 2) :
    (min_read_len ≤ read_summary.num_events st →
      model_sublist_single read_summary st ≠ [] →
      (∀ m_name ∈ model_sublist_single read_summary st, ∃ pm_params st_params,
        map_at read_summary.pm_params_m m_name = some pm_params
        ∧ map_at read_summary.st_params_m m_name = some st_params) →
      ∃ call best pm_params st_params,
        basecall_single_strand basecall_strand min_read_len read_summary st
          = Strand_Outcome.decoded call
        ∧ best ∈ model_sublist_single read_summary st
        ∧ map_at read_summary.pm_params_m best = some pm_params
        ∧ map_at read_summary.st_params_m best = some st_params
        ∧ call.best_m_name = best.get st
        ∧ call.log_path_prob = (basecall_strand st (best.get st) pm_params (st_params st)).1
        ∧ ∀ m_name ∈ model_sublist_single read_summary st, ∀ pm_params2 st_params2,
            map_at read_summary.pm_params_m m_name = some pm_params2 →
            map_at read_summary.st_params_m m_name = some st_params2 →
            (basecall_strand st (m_name.get st) pm_params2 (st_params2 st)).1
              ≤ call.log_path_prob
            ∧ ((basecall_strand st (m_name.get st) pm_params2 (st_params2 st)).1
                = call.log_path_prob → m_name.get st ≤ call.best_m_name))
    ∧ (model_sublist_double read_summary ≠ [] →
      (∀ m_name ∈ model_sublist_double read_summary, ∃ pm_params st_params,
        map_at read_summary.pm_params_m m_name = some pm_params
        ∧ map_at read_summary.st_params_m m_name = some st_params) →
      ∃ call best pm_params st_params,
        basecall_double_strand basecall_strand read_summary = Strand_Outcome.decoded call
        ∧ best ∈ model_sublist_double read_summary
        ∧ map_at read_summary.pm_params_m best = some pm_params
        ∧ map_at read_summary.st_params_m best = some st_params
        ∧ call.best_m_name = best
        ∧ (∀ s, call.best_log_path_prob s
            = (basecall_strand s (best.get s) pm_params (st_params s)).1)
        ∧ ∀ m_name ∈ model_sublist_double read_summary, ∀ pm_params2 st_params2,
            map_at read_summary.pm_params_m m_name = some pm_params2 →
            map_at read_summary.st_params_m m_name = some st_params2 →
            (basecall_strand 0 (m_name.get 0) pm_params2 (st_params2 0)).1
                + (basecall_strand 1 (m_name.get 1) pm_params2 (st_params2 1)).1
              = call.best_log_path_prob 0 + call.best_log_path_prob 1 →
            (basecall_strand 0 (m_name.get 0) pm_params2 (st_params2 0)).1
                ≤ call.best_log_path_prob 0
            ∧ ((basecall_strand 0 (m_name.get 0) pm_params2 (st_params2 0)).1
                  = call.best_log_path_prob 0 →
                (basecall_strand 1 (m_name.get 1) pm_params2 (st_params2 1)).1
                    ≤ call.best_log_path_prob 1
                ∧ ((basecall_strand 1 (m_name.get 1) pm_params2 (st_params2 1)).1
                      = call.best_log_path_prob 1 →
                    m_name.get 0 ≤ call.best_m_name.get 0
                    ∧ (m_name.get 0 = call.best_m_name.get 0 →
                        m_name.get 1 ≤ call.best_m_name.get 1)))) := by
  constructor
  · intro h_events h_nonempty h_params
    obtain ⟨call, best, pm, stp, h1, h2, h3, h4, h5, h6, _, h8⟩ :=
      basecall_single_strand_spec basecall_strand min_read_len read_summary st
        h_events h_nonempty h_params
    refine ⟨call, best, pm, stp, h1, h2, h3, h4, h5, h6, ?_⟩
    intro m hm pm2 stp2 hpm2 hstp2
    have hnot := h8 m hm pm2 stp2 hpm2 hstp2
    have hnot2 : ¬ lex_lt (lex_lt (fun a b : String => a < b))
        ((basecall_strand st (best.get st) pm (stp st)).1, best.get st,
          (basecall_strand st (best.get st) pm (stp st)).2)
        ((basecall_strand st (m.get st) pm2 (stp2 st)).1, m.get st,
          (basecall_strand st (m.get st) pm2 (stp2 st)).2) := hnot
    rw [h6, h5]
    have f1 := lex_lt_first_le _ _ _ hnot2
    refine ⟨f1, fun he => ?_⟩
    have t1 := lex_lt_tie _ _ _ hnot2 he
    have f2 := lex_lt_first_le _ _ _ t1
    exact f2
  · intro h_nonempty h_params
    obtain ⟨call, best, pm, stp, h1, h2, h3, h4, h5, h6, _, _, h9⟩ :=
      basecall_double_strand_spec basecall_strand read_summary h_nonempty h_params
    refine ⟨call, best, pm, stp, h1, h2, h3, h4, h5, h6, ?_⟩
    intro m hm pm2 stp2 hpm2 hstp2 hsum
    have hnot := h9 m hm pm2 stp2 hpm2 hstp2
    unfold tuple7_lt at hnot
    rw [h6 0, h6 1] at hsum ⊢
    rw [h5]
    have t1 := lex_lt_tie _ _ _ hnot hsum
    have f1 := lex_lt_first_le _ _ _ t1
    refine ⟨f1, fun he0 => ?_⟩
    have t2 := lex_lt_tie _ _ _ t1 he0
    have f2 := lex_lt_first_le _ _ _ t2
    refine ⟨f2, fun he1 => ?_⟩
    have t3 := lex_lt_tie _ _ _ t2 he1
    have f3 := lex_lt_first_le _ _ _ t3
    refine ⟨f3, fun he2 => ?_⟩
    have t4 := lex_lt_tie _ _ _ t3 he2
    have f4 := lex_lt_first_le _ _ _ t4
    exact f4

/-- C12 (amended) in single-strand mode at a read with the tied candidates "a"
and "b". -/
theorem decode_tie_break_witness :
    ∃ call, basecall_single_strand tie_basecall 10 sample_read 0 = Strand_Outcome.decoded call
      ∧ "a" ≤ call.best_m_name ∧ "b" ≤ call.best_m_name := by
  obtain ⟨call, best, pm, stp, h1, _, _, _, _, h6, h7⟩ :=
    (decode_tie_break tie_basecall 10 sample_read 0).1 (by decide)
      (by rw [sample_read_sublist]; exact List.cons_ne_nil _ _) sample_read_params
  have hcall : call.log_path_prob = 5 := by rw [h6]; rfl
  have ha : (("a", "") : Model_Key) ∈ model_sublist_single sample_read 0 := by
    rw [sample_read_sublist]; simp
  have hb : (("b", "") : Model_Key) ∈ model_sublist_single sample_read 0 := by
    rw [sample_read_sublist]; simp
  exact ⟨call, h1, (h7 _ ha 1 (fun _ => 0) rfl rfl).2 (by rw [hcall]; rfl),
    (h7 _ hb 2 (fun _ => 0) rfl rfl).2 (by rw [hcall]; rfl)⟩

end TieBreak

/-! ### write_fasta -/

/-- A non-empty remainder takes one line more than what is left after a full
line. -/
lemma lines_needed_step (d w : Nat) (hw : 1 ≤ w) (hd : 1 ≤ d) :
    lines_needed d w = lines_needed (d - w) w + 1 := by
  unfold lines_needed
  rcases Nat.lt_or_ge d w with h | h
  · have h1 : d - w = 0 := by omega
    rw [h1]
    have h2 : (0 + w - 1) / w = 0 := Nat.div_eq_of_lt (by omega)
    have h3 : d + w - 1 = (d - 1) + w := by omega
    rw [h2, h3, Nat.add_div_right _ (by omega), Nat.div_eq_of_lt (by omega)]
  · have h1 : d - w + w - 1 = d - 1 := by omega
    have h3 : d + w - 1 = (d - 1) + w := by omega
    rw [h1, h3, Nat.add_div_right _ (by omega)]

/-- Nothing left takes no line. -/
lemma lines_needed_zero (w : Nat) (hw : 1 ≤ w) : lines_needed 0 w = 0 := by
  unfold lines_needed
  exact Nat.div_eq_of_lt (by omega)

/-- More than one line is needed only for more than `w` characters. -/
lemma lines_needed_pos (d w : Nat) (hw : 1 ≤ w) (h : 1 ≤ lines_needed d w) : 1 ≤ d := by
  by_contra hd
  have h0 : d = 0 := by omega
  rw [h0, lines_needed_zero w hw] at h
  omega

/-- The loop of `write_fasta`, started at a position from which the counter
does not wrap and given enough fuel, writes the rest of the sequence in
`ceil(rest / w)` lines of `w` characters, the last one possibly shorter. -/
lemma write_fasta_loop_spec (w : Nat) (seq : String) (hw : 1 ≤ w) :
    ∀ (fuel pos : Nat), pos + lines_needed (seq.length - pos) w * w < 2 ^ 32 →
      lines_needed (seq.length - pos) w ≤ fuel →
      ∃ lines, write_fasta_loop w seq fuel pos = some lines
        ∧ lines.length = lines_needed (seq.length - pos) w
        ∧ (∀ l ∈ lines, l.length ≤ w)
        ∧ (∀ (i : Nat) (l : String), i + 1 < lines.length → lines[i]? = some l → l.length = w)
        ∧ (lines.map String.data).flatten = seq.data.drop pos := by
  intro fuel
  induction fuel with
  | zero =>
    intro pos _ hfuel
    have hk : lines_needed (seq.length - pos) w = 0 := by omega
    have hd : ¬ 1 ≤ seq.length - pos := fun h => by
      rw [lines_needed_step _ w hw h] at hk; omega
    have hpos : ¬ pos < seq.length := by omega
    refine ⟨[], by simp [write_fasta_loop, hpos], by rw [hk]; rfl, by simp, by simp, ?_⟩
    have : seq.data.length ≤ pos := by
      have : seq.length = seq.data.length := rfl
      omega
    simp [List.drop_eq_nil_of_le this]
  | succ fuel ih =>
    intro pos hwrap hfuel
    by_cases hpos : pos < seq.length
    · have hd : 1 ≤ seq.length - pos := by omega
      have hstep := lines_needed_step (seq.length - pos) w hw hd
      have hsub : seq.length - pos - w = seq.length - (pos + w) := by omega
      rw [hsub] at hstep
      rw [hstep] at hwrap hfuel
      have hmul : (lines_needed (seq.length - (pos + w)) w + 1) * w
          = lines_needed (seq.length - (pos + w)) w * w + w := by ring
      rw [hmul] at hwrap
      have hmod : (pos + w) % 2 ^ 32 = pos + w := Nat.mod_eq_of_lt (by omega)
      obtain ⟨lines, hl, hlen, hle, hfull, hcat⟩ := ih (pos + w) (by omega) (by omega)
      refine ⟨substr seq pos w :: lines, ?_, ?_, ?_, ?_, ?_⟩
      · simp only [write_fasta_loop, hpos, if_true, hmod, hl, Option.map_some']
      · rw [hstep, List.length_cons, hlen]
      · intro l hmem
        rcases List.mem_cons.mp hmem with h | h
        · rw [h]
          simp only [substr, String.length, List.length_take]
          exact Nat.min_le_left _ _
        · exact hle l h
      · intro i l hi hget
        cases i with
        | zero =>
          simp only [List.getElem?_cons_zero, Option.some.injEq] at hget
          rw [← hget]
          simp only [substr, String.length, List.length_take, List.length_drop]
          have h1 : 1 ≤ lines_needed (seq.length - (pos + w)) w := by
            rw [← hlen]
            simp only [List.length_cons] at hi
            omega
          have h2 := lines_needed_pos _ w hw h1
          have h3 : seq.length = seq.data.length := rfl
          omega
        | succ i =>
          rw [List.getElem?_cons_succ] at hget
          simp only [List.length_cons] at hi
          exact hfull i l (by omega) hget
      · simp only [List.map_cons, List.flatten_cons, hcat, substr]
        rw [← List.drop_drop]
        exact List.take_append_drop _ _
    · have hk : lines_needed (seq.length - pos) w = 0 := by
        have : seq.length - pos = 0 := by omega
        rw [this]; exact lines_needed_zero w hw
      refine ⟨[], by simp [write_fasta_loop, hpos], by rw [hk]; rfl, by simp, by simp, ?_⟩
      have : seq.data.length ≤ pos := by
        have : seq.length = seq.data.length := rfl
        omega
      simp [List.drop_eq_nil_of_le this]

/-- With a sequence of `2 ^ 31 + 1` characters and a line width of `2 ^ 31`,
the counter of `write_fasta` goes 0, `2 ^ 31`, 0, ... and the loop never
ends. -/
lemma write_fasta_loop_wraps (seq : String) (hlen : seq.length = 2 ^ 31 + 1) :
    ∀ (fuel pos : Nat), pos = 0 ∨ pos = 2 ^ 31 →
      write_fasta_loop (2 ^ 31) seq fuel pos = none := by
  intro fuel
  induction fuel with
  | zero =>
    intro pos hpos
    have : pos < seq.length := by rcases hpos with h | h <;> omega
    simp [write_fasta_loop, this]
  | succ fuel ih =>
    intro pos hpos
    have hlt : pos < seq.length := by rcases hpos with h | h <;> omega
    have hnext : (pos + 2 ^ 31) % 2 ^ 32 = 0 ∨ (pos + 2 ^ 31) % 2 ^ 32 = 2 ^ 31 := by
      rcases hpos with h | h <;> (rw [h]; omega)
    simp only [write_fasta_loop, hlt, if_true, ih _ hnext, Option.map_none']

/-- C13 as stated fails for a sequence so long that the `unsigned` position
counter wraps: with `2 ^ 31 + 1` characters and `fasta_line_width = 2 ^ 31`
(two lines by the claim) the counter returns to 0 after the second line and
`write_fasta` never ends, whatever the number of iterations allowed. -/
theorem write_fasta_counter_wraps :
    (String.mk (List.replicate (2 ^ 31 + 1) 'A')).length = 2 ^ 31 + 1
    ∧ lines_needed (2 ^ 31 + 1) (2 ^ 31) = 2
    ∧ ¬ ∃ fuel lines,
        write_fasta fuel (2 ^ 31) "read" (String.mk (List.replicate (2 ^ 31 + 1) 'A'))
          = some lines := by
  have hlen : (String.mk (List.replicate (2 ^ 31 + 1) 'A')).length = 2 ^ 31 + 1 := by
    rw [String.length, List.length_replicate]
  refine ⟨hlen, by norm_num [lines_needed], ?_⟩
  rintro ⟨fuel, lines, h⟩
  rw [write_fasta, write_fasta_loop_wraps _ hlen fuel 0 (Or.inl rfl)] at h
  cases h

/-- C13, amended: for every name, every sequence `seq` and every
`fasta_line_width = w >= 1` with `ceil(|seq| / w) * w < 2 ^ 32` (the `unsigned`
position counter does not wrap), `write_fasta` emits the header line
`">" + name` followed by `ceil(|seq| / w)` sequence lines, each of length at
most `w` and all but the last of length exactly `w`, whose concatenation in
order equals `seq`; for an empty `seq` only the header line is emitted. -/
theorem write_fasta_lines (fuel w : Nat) (name seq : String) (hw : 1 ≤ w)
    (h_no_wrap : lines_needed seq.length w * w < 2 ^ 32)
    (h_fuel : lines_needed seq.length w ≤ fuel) :
    ∃ lines, write_fasta fuel w name seq = some ((">" ++ name) :: lines)
      ∧ lines.length = lines_needed seq.length w
      ∧ (∀ l ∈ lines, l.length ≤ w)
      ∧ (∀ (i : Nat) (l : String), i + 1 < lines.length → lines[i]? = some l → l.length = w)
      ∧ String.join lines = seq
      ∧ (seq = "" → lines = []) := by
  obtain ⟨lines, hl, hlen, hle, hfull, hcat⟩ :=
    write_fasta_loop_spec w seq hw fuel 0 (by simpa using h_no_wrap) (by simpa using h_fuel)
  refine ⟨lines, by rw [write_fasta, hl]; rfl, by simpa using hlen, hle, hfull, ?_, ?_⟩
  · rw [String.join_eq, hcat, List.drop_zero]
  · intro hempty
    have h0 : lines.length = 0 := by
      rw [hlen, hempty]
      exact lines_needed_zero w hw
    exact List.length_eq_zero.mp h0

/-- C13 (amended) at a sequence of 7 bases written 3 to a line. -/
theorem write_fasta_lines_witness :
    ∃ lines, write_fasta 3 3 "read" "ACGTACG" = some ((">" ++ "read") :: lines)
      ∧ lines.length = lines_needed "ACGTACG".length 3
      ∧ String.join lines = "ACGTACG" := by
  obtain ⟨lines, h1, h2, _, _, h5, _⟩ :=
    write_fasta_lines 3 3 "read" "ACGTACG" (by decide) (by decide) (by decide)
  exact ⟨lines, h1, h2, h5⟩

/-! ### Training segments -/

/-- C14 as stated fails for a strand shorter than `scaling_num_events`: with 50
events, `min_read_len = 10` and `scaling_num_events = 200` the two segments
hold 25 events each, not `200 / 2 = 100`. -/
theorem short_strand_segments :
    10 ≤ (List.replicate 50 ()).length
    ∧ (train_event_seqs 10 200 (List.replicate 50 ())).map List.length = [25, 25]
    ∧ (25 : Nat) ≠ 200 / 2 := by
  decide

/-- C14, amended: for every strand with at least `min_read_len` events,
`train_reads` builds exactly two training segments, the first and the last
`min(scaling_num_events, number of events) / 2` events of the strand, so each
holds `scaling_num_events / 2` events when the strand has at least
`scaling_num_events` events; a strand with fewer than `min_read_len` events
gets no training segment. -/
theorem train_event_seqs_sizes {Event_Type : Type} (min_read_len scaling_num_events : Nat)
    (events : List Event_Type) :
    (min_read_len ≤ events.length →
      ∃ head tail, train_event_seqs min_read_len scaling_num_events events = [head, tail]
        ∧ head = events.take (min scaling_num_events events.length / 2)
        ∧ tail = events.drop (events.length - min scaling_num_events events.length / 2)
        ∧ head.length = min scaling_num_events events.length / 2
        ∧ tail.length = min scaling_num_events events.length / 2
        ∧ (scaling_num_events ≤ events.length →
            head.length = scaling_num_events / 2 ∧ tail.length = scaling_num_events / 2))
    ∧ (events.length < min_read_len →
        train_event_seqs min_read_len scaling_num_events events = []) := by
  constructor
  · intro h
    have hnot : ¬ events.length < min_read_len := not_lt.mpr h
    have hhalf : min scaling_num_events events.length / 2 ≤ events.length :=
      le_trans (Nat.div_le_self _ _) (Nat.min_le_right _ _)
    have h1 : (events.take (min scaling_num_events events.length / 2)).length
        = min scaling_num_events events.length / 2 := by
      rw [List.length_take]; exact Nat.min_eq_left hhalf
    have h2 : (events.drop (events.length - min scaling_num_events events.length / 2)).length
        = min scaling_num_events events.length / 2 := by
      rw [List.length_drop]; omega
    refine ⟨_, _, by simp only [train_event_seqs, hnot, if_false, num_strands], rfl, rfl,
      h1, h2, fun hle => ?_⟩
    rw [h1, h2, Nat.min_eq_left hle]
    exact ⟨rfl, rfl⟩
  · intro h
    simp only [train_event_seqs, h, if_true]

/-- C14 (amended) at a strand of 50 events with `min_read_len = 10` and
`scaling_num_events = 200`. -/
theorem train_event_seqs_sizes_witness :
    ∃ head tail, train_event_seqs 10 200 (List.replicate 50 ()) = [head, tail]
      ∧ head.length = 25 ∧ tail.length = 25 := by
  obtain ⟨head, tail, h1, _, _, h4, h5, _⟩ :=
    (train_event_seqs_sizes 10 200 (List.replicate 50 ())).1 (by decide)
  exact ⟨head, tail, h1, by rw [h4]; decide, by rw [h5]; decide⟩

/-! ### Scaling twice -/

/-- Scaling a state twice gives the same state as scaling it once exactly when
the four primary fields of the scaled state are fixed by the transform. -/
lemma Pore_Model_State.scale_scale_eq_iff {Float_Type : Type} [Field Float_Type]
    (ops : Float_Ops Float_Type) (s : Pore_Model_State Float_Type)
    (p : Pore_Model_Parameters Float_Type) :
    (s.scale ops p).scale ops p = s.scale ops p
      ↔ (s.level_mean * p.scale + p.shift) * p.scale + p.shift
            = s.level_mean * p.scale + p.shift
        ∧ s.level_stdv * p.var * p.var = s.level_stdv * p.var
        ∧ s.sd_mean * p.scale_sd * p.scale_sd = s.sd_mean * p.scale_sd
        ∧ s.sd_lambda * p.var_sd * p.var_sd = s.sd_lambda * p.var_sd := by
  constructor
  · intro h
    exact ⟨congrArg Pore_Model_State.level_mean h, congrArg Pore_Model_State.level_stdv h,
      congrArg Pore_Model_State.sd_mean h, congrArg Pore_Model_State.sd_lambda h⟩
  · rintro ⟨h1, h2, h3, h4⟩
    simp only [Pore_Model_State.scale, Pore_Model_State.update_logs,
      Pore_Model_State.update_sd_stdv, h1, h2, h3, h4]

/-- Scaling a model twice gives the same model as scaling it once exactly when
this holds for each of its states. -/
lemma Pore_Model.scale_twice_eq_iff {Float_Type : Type} [Field Float_Type] {Kmer_Size : Nat}
    (ops : Float_Ops Float_Type) (pm : Pore_Model Float_Type Kmer_Size)
    (p : Pore_Model_Parameters Float_Type) :
    (pm.scale ops p).scale ops p = pm.scale ops p
      ↔ ∀ i : Fin (n_states Kmer_Size),
          ((pm.state i).scale ops p).scale ops p = (pm.state i).scale ops p := by
  constructor
  · intro h i
    have := congrArg (fun m => m.state i) h
    simpa only [Pore_Model.scale_state] using this
  · intro h
    apply Pore_Model.ext_state
    intro i
    rw [Pore_Model.scale_state, Pore_Model.scale_state, h i]

/-- C15 as stated fails: three parameter sets other than the identity whose
`Pore_Model::scale` applied twice equals one application.  The drift is not
used by `scale`, so the identity with drift 1 does it on every model; the
scale 2 does it on the unit model, whose level means are all 0; and scale 0
with shift 5 does it on the model with the level means 0, 1, 2, 3. -/
theorem non_identity_scale_idempotent :
    (((unit_model ℝ).scale real_ops (drift_parameters ℝ)).scale real_ops (drift_parameters ℝ)
        = (unit_model ℝ).scale real_ops (drift_parameters ℝ)
      ∧ drift_parameters ℝ ≠ identity_parameters ℝ)
    ∧ (((unit_model ℝ).scale real_ops (double_scale_parameters ℝ)).scale real_ops
          (double_scale_parameters ℝ)
        = (unit_model ℝ).scale real_ops (double_scale_parameters ℝ)
      ∧ double_scale_parameters ℝ ≠ identity_parameters ℝ)
    ∧ (((ramp_model ℝ).scale real_ops (collapse_parameters ℝ)).scale real_ops
          (collapse_parameters ℝ)
        = (ramp_model ℝ).scale real_ops (collapse_parameters ℝ)
      ∧ collapse_parameters ℝ ≠ identity_parameters ℝ) := by
  refine ⟨⟨?_, ?_⟩, ⟨?_, ?_⟩, ⟨?_, ?_⟩⟩
  · rw [Pore_Model.scale_twice_eq_iff]
    intro i
    rw [Pore_Model_State.scale_scale_eq_iff]
    simp [drift_parameters, identity_parameters]
  · intro h
    have := congrArg Pore_Model_Parameters.drift h
    simp [drift_parameters, identity_parameters] at this
  · rw [Pore_Model.scale_twice_eq_iff]
    intro i
    rw [Pore_Model_State.scale_scale_eq_iff, unit_model_state]
    simp [double_scale_parameters, identity_parameters, unit_state]
  · intro h
    have := congrArg Pore_Model_Parameters.scale h
    simp [double_scale_parameters, identity_parameters] at this
  · rw [Pore_Model.scale_twice_eq_iff]
    intro i
    rw [Pore_Model_State.scale_scale_eq_iff]
    simp [collapse_parameters, identity_parameters]
  · intro h
    have := congrArg Pore_Model_Parameters.shift h
    simp [collapse_parameters, identity_parameters] at this

/-- C15, amended: for a parameter set `p` whose four multipliers are non-zero
and a pore model that has two states with different level means and states
with non-zero `level_stdv`, `sd_mean` and `sd_lambda`, applying
`Pore_Model::scale(p)` twice yields the same model as applying it once if and
only if `p` is the identity in every component but the drift: scale=1,
shift=0, var=1, scale_sd=1, var_sd=1. -/
theorem scale_idempotent_iff_identity {Float_Type : Type} [Field Float_Type] {Kmer_Size : Nat}
    (ops : Float_Ops Float_Type) (pm : Pore_Model Float_Type Kmer_Size)
    (p : Pore_Model_Parameters Float_Type)
    (h_scale : p.scale ≠ 0) (h_var : p.var ≠ 0) (h_scale_sd : p.scale_sd ≠ 0)
    (h_var_sd : p.var_sd ≠ 0)
    (h_levels : ∃ i j, (pm.state i).level_mean ≠ (pm.state j).level_mean)
    (h_level_stdv : ∃ i, (pm.state i).level_stdv ≠ 0)
    (h_sd_mean : ∃ i, (pm.state i).sd_mean ≠ 0)
    (h_sd_lambda : ∃ i, (pm.state i).sd_lambda ≠ 0) :
    (pm.scale ops p).scale ops p = pm.scale ops p
      ↔ p.scale = 1 ∧ p.shift = 0 ∧ p.var = 1 ∧ p.scale_sd = 1 ∧ p.var_sd = 1 := by
  rw [Pore_Model.scale_twice_eq_iff]
  constructor
  · intro h
    have hmul : ∀ x m : Float_Type, m ≠ 0 → x ≠ 0 → x * m * m = x * m → m = 1 := by
      intro x m hm hx hxm
      have h1 : (x * m) * m = (x * m) * 1 := by rw [mul_one]; exact hxm
      exact mul_left_cancel₀ (mul_ne_zero hx hm) h1
    have hlevel : ∀ i, (pm.state i).level_mean * p.scale + p.shift = (pm.state i).level_mean := by
      intro i
      have h1 := ((Pore_Model_State.scale_scale_eq_iff ops _ p).mp (h i)).1
      have h2 : ((pm.state i).level_mean * p.scale + p.shift) * p.scale
          = (pm.state i).level_mean * p.scale := add_right_cancel h1
      exact mul_right_cancel₀ h_scale h2
    obtain ⟨i, j, hij⟩ := h_levels
    have hs : p.scale = 1 := by
      have h1 := hlevel i
      have h2 := hlevel j
      have h3 : ((pm.state i).level_mean - (pm.state j).level_mean) * p.scale
          = ((pm.state i).level_mean - (pm.state j).level_mean) * 1 := by
        rw [mul_one, sub_mul]
        have : (pm.state i).level_mean * p.scale - (pm.state j).level_mean * p.scale
            = ((pm.state i).level_mean * p.scale + p.shift)
              - ((pm.state j).level_mean * p.scale + p.shift) := by ring
        rw [this, h1, h2]
      exact mul_left_cancel₀ (sub_ne_zero.mpr hij) h3
    have ht : p.shift = 0 := by
      have h1 := hlevel i
      rw [hs, mul_one] at h1
      exact add_right_eq_self.mp h1
    obtain ⟨a, ha⟩ := h_level_stdv
    obtain ⟨b, hb⟩ := h_sd_mean
    obtain ⟨c, hc⟩ := h_sd_lambda
    exact ⟨hs, ht,
      hmul _ _ h_var ha ((Pore_Model_State.scale_scale_eq_iff ops _ p).mp (h a)).2.1,
      hmul _ _ h_scale_sd hb ((Pore_Model_State.scale_scale_eq_iff ops _ p).mp (h b)).2.2.1,
      hmul _ _ h_var_sd hc ((Pore_Model_State.scale_scale_eq_iff ops _ p).mp (h c)).2.2.2⟩
  · rintro ⟨h1, h2, h3, h4, h5⟩ i
    rw [Pore_Model_State.scale_scale_eq_iff, h1, h2, h3, h4, h5]
    simp

/-- C15 (amended) at the model with the level means 0, 1, 2, 3 and the
identity parameters over the reals. -/
theorem scale_idempotent_iff_identity_witness :
    ((ramp_model ℝ).scale real_ops (identity_parameters ℝ)).scale real_ops
        (identity_parameters ℝ)
      = (ramp_model ℝ).scale real_ops (identity_parameters ℝ) :=
  (scale_idempotent_iff_identity real_ops (ramp_model ℝ) (identity_parameters ℝ)
    (by simp [identity_parameters]) (by simp [identity_parameters])
    (by simp [identity_parameters]) (by simp [identity_parameters])
    ⟨⟨0, by decide⟩, ⟨1, by decide⟩, by simp [ramp_model, Pore_Model.state, unit_state]⟩
    ⟨⟨0, by decide⟩, by simp [ramp_model, Pore_Model.state, unit_state]⟩
    ⟨⟨0, by decide⟩, by simp [ramp_model, Pore_Model.state, unit_state]⟩
    ⟨⟨0, by decide⟩, by simp [ramp_model, Pore_Model.state, unit_state]⟩).mpr
    ⟨rfl, rfl, rfl, rfl, rfl⟩

/-! ### Divisions of the emission -/

/-- C16 as stated fails: `log_pr_emission` has no guard, so an event with
`stdv = 0` makes the division `lambda * a * a / x` of `log_invgauss_pdf` a
division by zero in the unit model, and a state left as the constructor
`Pore_Model()` made it (`level_stdv = 0`, `sd_mean = 0`) divides by zero on
every event. -/
theorem emission_divides_by_zero :
    (unit_model ℝ).log_pr_emission_checked real_ops ⟨0, by decide⟩ (flat_event ℝ) = none
    ∧ (constant_model (zero_state ℝ)).log_pr_emission_checked real_ops ⟨0, by decide⟩
        (unit_event ℝ) = none := by
  constructor
  · simp [Pore_Model.log_pr_emission_checked, unit_model_state,
      Pore_Model_State.log_pr_emission_checked, log_normal_pdf_checked,
      log_invgauss_pdf_checked, checked_div, unit_state, flat_event]
  · simp [Pore_Model.log_pr_emission_checked, constant_model_state,
      Pore_Model_State.log_pr_emission_checked, log_normal_pdf_checked,
      log_invgauss_pdf_checked, checked_div, zero_state, unit_event]

/-- C16, amended: for every state index `i < n_states` of a pore model whose
state `i` has `level_stdv ≠ 0` and `sd_mean ≠ 0`, and every event `e` with
`stdv ≠ 0`, the evaluation of `log_pr_emission(i, e)` meets no division by zero
and yields the value of the emission formula. -/
theorem emission_defined {Float_Type : Type} [Field Float_Type] [DecidableEq Float_Type]
    {Kmer_Size : Nat} (ops : Float_Ops Float_Type) (pm : Pore_Model Float_Type Kmer_Size)
    (i : Fin (n_states Kmer_Size)) (e : Event Float_Type)
    (h_level_stdv : (pm.state i).level_stdv ≠ 0) (h_sd_mean : (pm.state i).sd_mean ≠ 0)
    (h_stdv : e.stdv ≠ 0) :
    pm.log_pr_emission_checked ops i e = some (pm.log_pr_emission ops i e)
    ∧ (pm.state i).log_pr_emission_checked ops e = some ((pm.state i).log_pr_emission ops e) := by
  have key : (pm.state i).log_pr_emission_checked ops e
      = some ((pm.state i).log_pr_emission ops e) := by
    simp [Pore_Model_State.log_pr_emission_checked, Pore_Model_State.log_pr_emission,
      log_normal_pdf_checked, log_invgauss_pdf_checked, checked_div, log_normal_pdf,
      log_invgauss_pdf, h_level_stdv, h_sd_mean, h_stdv]
  exact ⟨key, key⟩

/-- C16 (amended) at the unit model and the unit event over the reals. -/
theorem emission_defined_witness :
    (unit_model ℝ).log_pr_emission_checked real_ops ⟨0, by decide⟩ (unit_event ℝ)
      = some ((unit_model ℝ).log_pr_emission real_ops ⟨0, by decide⟩ (unit_event ℝ)) :=
  (emission_defined real_ops (unit_model ℝ) ⟨0, by decide⟩ (unit_event ℝ)
    (by simp [unit_model_state, unit_state]) (by simp [unit_model_state, unit_state])
    (by simp [unit_event])).1

/-! ### Option handling of main -/

section MainLemmas

variable {Float_Type : Type}

/-- The scaling check never ends in a failed `ASSERT`, and leaves the training
switches and the `float` options alone. -/
lemma set_scaling_option_spec (o : Opts Float_Type) :
    set_scaling_option o = Except.error (Main_Stop.exit EXIT_FAILURE)
    ∨ ∃ o2, set_scaling_option o = Except.ok o2 ∧ o2.train = o.train
        ∧ o2.no_train = o.no_train ∧ o2.only_train = o.only_train
        ∧ o2.scaling_select_threshold = o.scaling_select_threshold
        ∧ o2.scaling_min_progress = o.scaling_min_progress := by
  unfold set_scaling_option
  split_ifs
  · exact Or.inl rfl
  · exact Or.inr ⟨_, rfl, rfl, rfl, rfl, rfl, rfl⟩
  · exact Or.inr ⟨_, rfl, rfl, rfl, rfl, rfl, rfl⟩
  · exact Or.inr ⟨_, rfl, rfl, rfl, rfl, rfl, rfl⟩

/-- The check of the `float` options ends with `EXIT_FAILURE` or hands the
options on as they are. -/
lemma check_other_options_spec [LinearOrderedAddCommGroup Float_Type] (o : Opts Float_Type) :
    check_other_options o = Except.error (Main_Stop.exit EXIT_FAILURE)
    ∨ check_other_options o = Except.ok o := by
  unfold check_other_options
  split_ifs
  · exact Or.inl rfl
  · exact Or.inl rfl
  · exact Or.inr rfl

/-- With non-negative `float` options the last check passes. -/
lemma check_other_options_ok [LinearOrderedAddCommGroup Float_Type] (o : Opts Float_Type)
    (h1 : 0 ≤ o.scaling_select_threshold)
    (h2 : 0 ≤ o.scaling_min_progress) : check_other_options o = Except.ok o := by
  unfold check_other_options
  rw [if_neg (not_lt.mpr h1), if_neg (not_lt.mpr h2)]

/-- The training check: failure for both switches, else the options with
`train` the negation of `no_train` and the rest unchanged. -/
lemma set_training_option_spec (o : Opts Float_Type) :
    (o.train = true → o.no_train = true →
      set_training_option o = Except.error (Main_Stop.exit EXIT_FAILURE))
    ∧ (¬ (o.train = true ∧ o.no_train = true) →
      set_training_option o = Except.ok { o with train := !o.no_train }) := by
  obtain ⟨t, nt, a, b, c, d, e, f, g, h⟩ := o
  cases t <;> cases nt <;> simp [set_training_option]

/-- `main` stops with `EXIT_FAILURE` or calls `real_main` with options that
keep `no_train`, `only_train` and have `train` the negation of `no_train`. -/
lemma main_options_spec [LinearOrderedAddCommGroup Float_Type] (o : Opts Float_Type) :
    main_options o = Except.error (Main_Stop.exit EXIT_FAILURE)
    ∨ ∃ o2, main_options o = Except.ok o2 ∧ o2.train = (!o.no_train)
        ∧ o2.no_train = o.no_train ∧ o2.only_train = o.only_train := by
  by_cases hb : o.train = true ∧ o.no_train = true
  · left
    unfold main_options
    rw [(set_training_option_spec o).1 hb.1 hb.2]
  · unfold main_options
    rw [(set_training_option_spec o).2 hb]
    rcases set_scaling_option_spec { o with train := !o.no_train } with h | ⟨o2, h, h1, h2, h3, _, _⟩
    · left; simp only [h]
    · simp only [h]
      rcases check_other_options_spec o2 with h4 | h4
      · left; exact h4
      · right; exact ⟨o2, h4, h1, h2, h3⟩

/-- C17: if both `--train` and `--no-train` are given, `main` returns
`EXIT_FAILURE` (not `EXIT_SUCCESS`) and neither phase is run; if neither is
given, training is enabled; and whenever the training check is passed, exactly
one of `train` / `no_train` is set, so `ASSERT(train != no_train)` never
fails. -/
theorem training_option_check [LinearOrderedAddCommGroup Float_Type] (o : Opts Float_Type)
    (init_ok : Bool) :
    (o.train = true → o.no_train = true →
      set_training_option o = Except.error (Main_Stop.exit EXIT_FAILURE)
      ∧ main o init_ok
          = some { exit_code := EXIT_FAILURE, trained := false, basecalled := false }
      ∧ EXIT_FAILURE ≠ EXIT_SUCCESS)
    ∧ (o.train = false → o.no_train = false →
      ∃ o1, set_training_option o = Except.ok o1 ∧ o1.train = true ∧ o1.no_train = false
        ∧ ∀ o2, main_options o = Except.ok o2 → o2.train = true)
    ∧ (∀ o1, set_training_option o = Except.ok o1 → o1.train ≠ o1.no_train)
    ∧ set_training_option o ≠ Except.error Main_Stop.assert_failed := by
  refine ⟨fun h1 h2 => ?_, fun h1 h2 => ?_, fun o1 h => ?_, ?_⟩
  · have h := (set_training_option_spec o).1 h1 h2
    refine ⟨h, ?_, by decide⟩
    simp only [main, main_options, h]
  · have hb : ¬ (o.train = true ∧ o.no_train = true) := by rw [h1]; simp
    have h := (set_training_option_spec o).2 hb
    refine ⟨_, h, by simp [h2], h2, fun o2 ho2 => ?_⟩
    rcases main_options_spec o with h3 | ⟨o3, h3, h4, _, _⟩
    · rw [h3] at ho2; cases ho2
    · rw [h3] at ho2
      cases ho2
      rw [h4, h2]; rfl
  · by_cases hb : o.train = true ∧ o.no_train = true
    · rw [(set_training_option_spec o).1 hb.1 hb.2] at h; cases h
    · rw [(set_training_option_spec o).2 hb] at h
      cases h
      cases hnt : o.no_train <;> simp
  · by_cases hb : o.train = true ∧ o.no_train = true
    · rw [(set_training_option_spec o).1 hb.1 hb.2]; intro h; cases h
    · rw [(set_training_option_spec o).2 hb]; intro h; cases h

/-- C17 at the command line without switches: training is enabled. -/
theorem training_option_check_witness :
    ∃ o1, set_training_option default_opts = Except.ok o1 ∧ o1.train = true
      ∧ o1.no_train = false := by
  obtain ⟨o1, h1, h2, h3, _⟩ := (training_option_check default_opts true).2.1 rfl rfl
  exact ⟨o1, h1, h2, h3⟩

/-- The three ways through the scaling check. -/
lemma set_scaling_option_cases (o : Opts Float_Type) :
    (o.train = true → o.no_train_scaling = false →
      o.single_strand_scaling = true → o.double_strand_scaling = true →
      set_scaling_option o = Except.error (Main_Stop.exit EXIT_FAILURE))
    ∧ (o.train = true → o.no_train_scaling = false →
      o.single_strand_scaling = false → o.double_strand_scaling = false →
      set_scaling_option o = Except.ok { o with double_strand_scaling := true })
    ∧ (o.train = false ∨ o.no_train_scaling = true → set_scaling_option o = Except.ok o) := by
  refine ⟨fun h1 h2 h3 h4 => ?_, fun h1 h2 h3 h4 => ?_, fun h => ?_⟩
  · simp [set_scaling_option, h1, h2, h3, h4]
  · simp [set_scaling_option, h1, h2, h3, h4]
  · rcases h with h | h <;> simp [set_scaling_option, h]

/-- Past the training check, `main_options` is the scaling check followed by
the check of the `float` options. -/
lemma main_options_of_training [LinearOrderedAddCommGroup Float_Type] (o : Opts Float_Type)
    (hb : ¬ (o.train = true ∧ o.no_train = true)) :
    main_options o
      = match set_scaling_option { o with train := !o.no_train } with
        | Except.error stop => Except.error stop
        | Except.ok o2 => check_other_options o2 := by
  unfold main_options
  rw [(set_training_option_spec o).2 hb]

/-- C18 as stated fails when scaling is not trained: with `--no-train-scaling`
both `--single-strand-scaling` and `--double-strand-scaling` are accepted and
`main` goes on to `real_main`; with `--no-train` and neither switch,
`double_strand_scaling` is still false when the reads are summarised. -/
theorem scaling_switches_unchecked_without_training :
    both_scalings_opts.single_strand_scaling = true
    ∧ both_scalings_opts.double_strand_scaling = true
    ∧ main both_scalings_opts true
        = some { exit_code := EXIT_SUCCESS, trained := true, basecalled := true }
    ∧ no_train_opts.single_strand_scaling = false
    ∧ no_train_opts.double_strand_scaling = false
    ∧ ∃ o2, main_options no_train_opts = Except.ok o2
        ∧ init_reads_double_strand_scaling o2 = false :=
  ⟨rfl, rfl, rfl, rfl, rfl, ⟨_, rfl, rfl⟩⟩

/-- C18, amended: when training is on (`--no-train` not given) and
`--no-train-scaling` is not given, both `--single-strand-scaling` and
`--double-strand-scaling` make `main` return `EXIT_FAILURE`, and neither of
them leaves `double_strand_scaling` true when the reads are summarised in
`init_reads`.  With `--no-train` or `--no-train-scaling` the two switches are
not looked at: they reach `init_reads` as given. -/
theorem scaling_option_check [LinearOrderedAddCommGroup Float_Type] (o : Opts Float_Type)
    (init_ok : Bool) :
    (o.no_train = false → o.no_train_scaling = false →
      o.single_strand_scaling = true → o.double_strand_scaling = true →
      main o init_ok = some { exit_code := EXIT_FAILURE, trained := false, basecalled := false })
    ∧ (o.no_train = false → o.no_train_scaling = false →
      o.single_strand_scaling = false → o.double_strand_scaling = false →
      (∀ o2, main_options o = Except.ok o2 → init_reads_double_strand_scaling o2 = true)
      ∧ (0 ≤ o.scaling_select_threshold → 0 ≤ o.scaling_min_progress →
          ∃ o2, main_options o = Except.ok o2 ∧ init_reads_double_strand_scaling o2 = true))
    ∧ (o.no_train = true ∨ o.no_train_scaling = true →
      ∀ o2, main_options o = Except.ok o2 →
        o2.single_strand_scaling = o.single_strand_scaling
        ∧ init_reads_double_strand_scaling o2 = o.double_strand_scaling) := by
  refine ⟨fun h1 h2 h3 h4 => ?_, fun h1 h2 h3 h4 => ?_, fun h o2 ho2 => ?_⟩
  · have hb : ¬ (o.train = true ∧ o.no_train = true) := by rw [h1]; simp
    have hs := (set_scaling_option_cases { o with train := !o.no_train }).1
      (by simp [h1]) h2 h3 h4
    simp only [main, main_options_of_training o hb, hs]
  · have hb : ¬ (o.train = true ∧ o.no_train = true) := by rw [h1]; simp
    have hs := (set_scaling_option_cases { o with train := !o.no_train }).2.1
      (by simp [h1]) h2 h3 h4
    have hm := main_options_of_training o hb
    simp only [hs] at hm
    constructor
    · intro o2 ho2
      rw [hm] at ho2
      rcases check_other_options_spec
        ({ o with train := !o.no_train, double_strand_scaling := true } : Opts Float_Type)
        with h5 | h5
      · rw [h5] at ho2; cases ho2
      · rw [h5] at ho2; cases ho2; rfl
    · intro hthr hmp
      exact ⟨{ o with train := !o.no_train, double_strand_scaling := true },
        by rw [hm]; exact check_other_options_ok _ hthr hmp, rfl⟩
  · by_cases hb : o.train = true ∧ o.no_train = true
    · unfold main_options at ho2
      rw [(set_training_option_spec o).1 hb.1 hb.2] at ho2
      cases ho2
    · have hs := (set_scaling_option_cases { o with train := !o.no_train }).2.2
        (by rcases h with h | h <;> simp [h])
      have hm := main_options_of_training o hb
      simp only [hs] at hm
      rw [hm] at ho2
      rcases check_other_options_spec ({ o with train := !o.no_train } : Opts Float_Type)
        with h5 | h5
      · rw [h5] at ho2; cases ho2
      · rw [h5] at ho2; cases ho2; exact ⟨rfl, rfl⟩

/-- C18 (amended) at the command line without switches: double-strand scaling
is in effect when the reads are summarised. -/
theorem scaling_option_check_witness :
    ∃ o2, main_options default_opts = Except.ok o2
      ∧ init_reads_double_strand_scaling o2 = true :=
  ((scaling_option_check default_opts true).2.1 rfl rfl rfl rfl).2 (by decide) (by decide)

/-- C19 as stated fails: with `--only-train --no-train` nothing rejects the
configuration; `main` calls `real_main`, which runs neither training nor
basecalling and returns `EXIT_SUCCESS`, that is zero. -/
theorem only_train_no_train_accepted :
    only_train_no_train_opts.only_train = true
    ∧ only_train_no_train_opts.no_train = true
    ∧ main only_train_no_train_opts true
        = some { exit_code := EXIT_SUCCESS, trained := false, basecalled := false }
    ∧ EXIT_SUCCESS = 0 :=
  ⟨rfl, rfl, rfl, rfl⟩

/-- C19, amended: when both `--only-train` and `--no-train` are set, no run of
`main` trains or basecalls; the configuration is not rejected for it: unless
`--train` is given too (`EXIT_FAILURE`) or a `float` option is negative,
`main` calls `real_main` and returns `EXIT_SUCCESS` when the initialisation
succeeds, `EXIT_FAILURE` when it does not. -/
theorem only_train_no_train_runs_nothing [LinearOrderedAddCommGroup Float_Type]
    (o : Opts Float_Type) (init_ok : Bool)
    (h_only_train : o.only_train = true) (h_no_train : o.no_train = true) :
    (∀ run, main o init_ok = some run → run.trained = false ∧ run.basecalled = false)
    ∧ (o.train = true →
        main o init_ok = some { exit_code := EXIT_FAILURE, trained := false, basecalled := false })
    ∧ (o.train = false → 0 ≤ o.scaling_select_threshold → 0 ≤ o.scaling_min_progress →
        main o init_ok
          = some { exit_code := if init_ok = true then EXIT_SUCCESS else EXIT_FAILURE,
                   trained := false, basecalled := false }) := by
  refine ⟨fun run hrun => ?_, fun ht => ?_, fun ht hthr hmp => ?_⟩
  · rcases main_options_spec o with h | ⟨o2, h, h1, _, h3⟩
    · simp only [main, h, Option.some.injEq] at hrun
      rw [← hrun]; exact ⟨rfl, rfl⟩
    · simp only [main, h, Option.some.injEq] at hrun
      rw [← hrun]
      cases init_ok <;> simp [real_main, h1, h3, h_no_train, h_only_train]
  · have h := (set_training_option_spec o).1 ht h_no_train
    simp only [main, main_options, h]
  · have hb : ¬ (o.train = true ∧ o.no_train = true) := by rw [ht]; simp
    have hs := (set_scaling_option_cases { o with train := !o.no_train }).2.2
      (Or.inl (by simp [h_no_train]))
    have hm := main_options_of_training o hb
    simp only [hs] at hm
    have hc := check_other_options_ok ({ o with train := !o.no_train } : Opts Float_Type)
      hthr hmp
    rw [hc] at hm
    simp only [main, hm]
    cases init_ok <;> simp [real_main, h_no_train, h_only_train]

/-- C19 (amended) at the command line `--only-train --no-train`. -/
theorem only_train_no_train_runs_nothing_witness :
    main only_train_no_train_opts true
      = some { exit_code := EXIT_SUCCESS, trained := false, basecalled := false } :=
  (only_train_no_train_runs_nothing only_train_no_train_opts true rfl rfl).2.2 rfl
    (by decide) (by decide)

end MainLemmas

/-! ### Model names -/

/-- C20: `parse_model_name` accepts `s` if and only if `s` is a character
STRAND among '0', '1', '2', then ':', then a non-empty FILE (so `|s| >= 3`); on
acceptance it returns the numeric value of STRAND and FILE, the substring of
`s` from index 2; on every other input the program exits with a failure
code. -/
theorem parse_model_name_accepts (s : String) :
    ((∃ st file, parse_model_name s = some (st, file))
      ↔ ∃ strand file, strand ∈ ['0', '1', '2'] ∧ file ≠ [] ∧ s.data = strand :: ':' :: file)
    ∧ (∀ strand file, strand ∈ ['0', '1', '2'] → file ≠ [] → s.data = strand :: ':' :: file →
        parse_model_name s = some (strand.toNat - ('0').toNat, String.mk file)
        ∧ String.mk file = String.mk (s.data.drop 2) ∧ 3 ≤ s.length
        ∧ strand.toNat - ('0').toNat
            = (if strand = '0' then 0 else if strand = '1' then 1 else 2))
    ∧ ((¬ ∃ strand file, strand ∈ ['0', '1', '2'] ∧ file ≠ [] ∧ s.data = strand :: ':' :: file)
        → parse_model_name s = none) := by
  have hfwd : ∀ strand file, strand ∈ ['0', '1', '2'] → file ≠ [] →
      s.data = strand :: ':' :: file →
      parse_model_name s = some (strand.toNat - ('0').toNat, String.mk file)
      ∧ String.mk file = String.mk (s.data.drop 2) ∧ 3 ≤ s.length
      ∧ strand.toNat - ('0').toNat
          = (if strand = '0' then 0 else if strand = '1' then 1 else 2) := by
    intro strand file hs hf hdata
    have hlen : 3 ≤ s.length := by
      have h1 : s.length = s.data.length := rfl
      rw [h1, hdata]
      cases file with
      | nil => exact absurd rfl hf
      | cons c cs => simp
    have hnot : ¬ (s.length < 3 ∨
        ((strand ≠ '0' ∧ strand ≠ '1' ∧ strand ≠ '2') ∨ (':' : Char) ≠ ':')) := by
      simp only [List.mem_cons, List.mem_singleton, List.not_mem_nil, or_false] at hs
      rintro (h | h | h)
      · omega
      · rcases hs with h0 | h0 | h0
        · exact h.1 h0
        · exact h.2.1 h0
        · exact h.2.2 h0
      · exact h rfl
    refine ⟨?_, by rw [hdata]; rfl, hlen, ?_⟩
    · unfold parse_model_name
      simp only [hdata, List.getD_cons_zero, List.getD_cons_succ, List.drop_succ_cons,
        List.drop_zero]
      rw [if_neg hnot]
    · simp only [List.mem_cons, List.mem_singleton, List.not_mem_nil, or_false] at hs
      rcases hs with h0 | h0 | h0 <;> (rw [h0]; decide)
  have hback : (∃ st file, parse_model_name s = some (st, file)) →
      ∃ strand file, strand ∈ ['0', '1', '2'] ∧ file ≠ [] ∧ s.data = strand :: ':' :: file := by
    rintro ⟨st, file, h⟩
    unfold parse_model_name at h
    simp only at h
    split_ifs at h with hc
    rw [not_or, not_or] at hc
    obtain ⟨h1, h2, h3⟩ := hc
    have hl : s.length = s.data.length := rfl
    cases hd : s.data with
    | nil => rw [hl, hd] at h1; simp at h1
    | cons a rest =>
      cases rest with
      | nil => rw [hl, hd] at h1; simp at h1
      | cons b rest2 =>
        cases rest2 with
        | nil => rw [hl, hd] at h1; simp at h1
        | cons c rest3 =>
          rw [hd] at h2 h3
          simp only [List.getD_cons_zero, List.getD_cons_succ, ne_eq, not_not] at h2 h3
          refine ⟨a, c :: rest3, ?_, List.cons_ne_nil _ _, by rw [h3]⟩
          simp only [List.mem_cons, List.mem_singleton, List.not_mem_nil, or_false]
          by_contra hn
          rw [not_or, not_or] at hn
          exact h2 ⟨hn.1, hn.2.1, hn.2.2⟩
  refine ⟨⟨hback, ?_⟩, hfwd, ?_⟩
  · rintro ⟨strand, file, hs, hf, hdata⟩
    exact ⟨_, _, (hfwd strand file hs hf hdata).1⟩
  · intro hno
    cases hres : parse_model_name s with
    | none => rfl
    | some r => exact absurd (hback ⟨r.1, r.2, hres⟩) hno

/-- C20 at the argument "1:model.txt" of `-m`. -/
theorem parse_model_name_accepts_witness :
    parse_model_name "1:model.txt" = some (('1').toNat - ('0').toNat, "model.txt") :=
  ((parse_model_name_accepts "1:model.txt").2.1 '1' "model.txt".data (by decide) (by decide)
    (by decide)).1

/-! ### FASTA records and the 2D view -/

section ReadOutputLemmas

variable {Params St_Params Float_Type : Type}

/-- A strand is ignored by the single-strand branch exactly when it has fewer
than `min_read_len` events. -/
lemma basecall_single_strand_ignored [LinearOrder Float_Type]
    (basecall_strand : Fin 2 → String → Params → St_Params → Float_Type × String)
    (min_read_len : Nat) (read_summary : Fast5_Summary Params St_Params) (st : Fin 2)
    (h : basecall_single_strand basecall_strand min_read_len read_summary st
      = Strand_Outcome.ignored) :
    read_summary.num_events st < min_read_len := by
  unfold basecall_single_strand at h
  by_contra hlt
  rw [if_neg hlt] at h
  split at h
  · cases h
  · split at h <;> cases h

/-- Decoding a strand leaves the event counts of the read as they are. -/
lemma basecall_single_strand_num_events [LinearOrder Float_Type]
    (basecall_strand : Fin 2 → String → Params → St_Params → Float_Type × String)
    (min_read_len : Nat) (read_summary : Fast5_Summary Params St_Params) (st : Fin 2)
    (call : Strand_Call Params St_Params Float_Type)
    (h : basecall_single_strand basecall_strand min_read_len read_summary st
      = Strand_Outcome.decoded call) :
    call.read_summary.num_events = read_summary.num_events := by
  unfold basecall_single_strand at h
  split at h
  · cases h
  · split at h
    · cases h
    · split at h
      · cases h
      · cases h
        rfl

/-- No 2D view without `min_read_len` events on both strands. -/
lemma do_2d_of_short (two_d_hmm : Bool) (min_read_len : Nat) (num_events : Fin 2 → Nat)
    (st : Fin 2) (h : num_events st < min_read_len) :
    do_2d two_d_hmm min_read_len num_events = false := by
  have hmin : ¬ min_read_len ≤ min (num_events 0) (num_events 1) := by
    intro hle
    have h0 := le_trans hle (Nat.min_le_left _ _)
    have h1 := le_trans hle (Nat.min_le_right _ _)
    fin_cases st
    · exact absurd h0 (not_le.mpr h)
    · exact absurd h1 (not_le.mpr h)
  simp [do_2d, can_do_2d, hmin]

/-- C21 as stated fails: for a read with 100 events on both strands, decoded to
"ACGTAC" and "GTACGT", the output without `--2d-hmm` is the two FASTA records,
and the output with `--2d-hmm` is the alignment view alone, without any FASTA
record. -/
theorem two_d_replaces_fasta :
    basecall_read fixed_basecall sample_view 10 10 4 false "read" "file" false two_strand_read
      = some [">read:file:0", "ACGT", "AC", ">read:file:1", "GTAC", "GT"]
    ∧ basecall_read fixed_basecall sample_view 10 10 4 true "read" "file" false two_strand_read
      = some ["Score: 0", "ACGTAC", "GTACGT"]
    ∧ ¬ ∃ lines, basecall_read fixed_basecall sample_view 10 10 4 true "read" "file" false
          two_strand_read = some lines
        ∧ ">read:file:0" ∈ lines := by
  refine ⟨rfl, rfl, ?_⟩
  rintro ⟨lines, h, hmem⟩
  have h2 : basecall_read fixed_basecall sample_view 10 10 4 true "read" "file" false
      two_strand_read = some ["Score: 0", "ACGTAC", "GTACGT"] := rfl
  rw [h2] at h
  cases h
  revert hmem
  decide

/-- C21, amended: the FASTA records of the decoded strands are written exactly
when the 2D view is not produced.  Without `min_read_len` events on both
strands the output with `--2d-hmm` is the output without it.  When the strands
are decoded and `do_2d` holds (`--2d-hmm` and `min_read_len` events on both
strands), the output is the alignment view of the two decoded sequences and
nothing else; when `do_2d` does not hold, it is the FASTA record
`read_id:file:strand` of each decoded strand, strand 0 first. -/
theorem fasta_unless_two_d [LinearOrder Float_Type] [Add Float_Type] [Inhabited St_Params]
    (basecall_strand : Fin 2 → String → Params → St_Params → Float_Type × String)
    (two_d_output : String → String → List String)
    (fuel min_read_len fasta_line_width : Nat) (two_d_hmm : Bool)
    (read_id base_file_name : String) (read_summary : Fast5_Summary Params St_Params) :
    (can_do_2d min_read_len read_summary.num_events = false →
      ∀ scale_strands_together,
        basecall_read basecall_strand two_d_output fuel min_read_len fasta_line_width
            two_d_hmm read_id base_file_name scale_strands_together read_summary
          = basecall_read basecall_strand two_d_output fuel min_read_len fasta_line_width
              false read_id base_file_name scale_strands_together read_summary)
    ∧ (∀ call, basecall_double_strand basecall_strand read_summary
          = Strand_Outcome.decoded call →
        basecall_read basecall_strand two_d_output fuel min_read_len fasta_line_width
            two_d_hmm read_id base_file_name true read_summary
          = if do_2d two_d_hmm min_read_len read_summary.num_events = true then
              some (two_d_output (call.base_seq 0) (call.base_seq 1))
            else
              (write_fasta fuel fasta_line_width (record_name read_id base_file_name 0)
                (call.base_seq 0)).bind fun record0 =>
              (write_fasta fuel fasta_line_width (record_name read_id base_file_name 1)
                (call.base_seq 1)).map fun record1 => record0 ++ record1)
    ∧ (∀ call0 call1,
        basecall_single_strand basecall_strand min_read_len read_summary 0
          = Strand_Outcome.decoded call0 →
        basecall_single_strand basecall_strand min_read_len call0.read_summary 1
          = Strand_Outcome.decoded call1 →
        basecall_read basecall_strand two_d_output fuel min_read_len fasta_line_width
            two_d_hmm read_id base_file_name false read_summary
          = if do_2d two_d_hmm min_read_len read_summary.num_events = true then
              some (two_d_output call0.base_seq call1.base_seq)
            else
              (write_fasta fuel fasta_line_width (record_name read_id base_file_name 0)
                call0.base_seq).bind fun record0 =>
              (write_fasta fuel fasta_line_width (record_name read_id base_file_name 1)
                call1.base_seq).map fun record1 => record0 ++ record1)
    ∧ (∀ call0,
        basecall_single_strand basecall_strand min_read_len read_summary 0
          = Strand_Outcome.decoded call0 →
        basecall_single_strand basecall_strand min_read_len call0.read_summary 1
          = Strand_Outcome.ignored →
        basecall_read basecall_strand two_d_output fuel min_read_len fasta_line_width
            two_d_hmm read_id base_file_name false read_summary
          = write_fasta fuel fasta_line_width (record_name read_id base_file_name 0)
              call0.base_seq)
    ∧ (∀ call1,
        basecall_single_strand basecall_strand min_read_len read_summary 0
          = Strand_Outcome.ignored →
        basecall_single_strand basecall_strand min_read_len read_summary 1
          = Strand_Outcome.decoded call1 →
        basecall_read basecall_strand two_d_output fuel min_read_len fasta_line_width
            two_d_hmm read_id base_file_name false read_summary
          = write_fasta fuel fasta_line_width (record_name read_id base_file_name 1)
              call1.base_seq)
    ∧ (basecall_single_strand basecall_strand min_read_len read_summary 0
          = Strand_Outcome.ignored →
        basecall_single_strand basecall_strand min_read_len read_summary 1
          = Strand_Outcome.ignored →
        basecall_read basecall_strand two_d_output fuel min_read_len fasta_line_width
            two_d_hmm read_id base_file_name false read_summary = some []) := by
  refine ⟨?_, ?_, ?_, ?_, ?_, ?_⟩
  · intro h together
    simp only [basecall_read, do_2d, h, Bool.false_and]
  · intro call h
    cases hd : do_2d two_d_hmm min_read_len read_summary.num_events
    · simp only [basecall_read, hd, h, emit_base_seq]
      cases write_fasta fuel fasta_line_width (record_name read_id base_file_name 0)
          (call.base_seq 0) with
      | none => simp
      | some l0 =>
        cases write_fasta fuel fasta_line_width (record_name read_id base_file_name 1)
            (call.base_seq 1) with
        | none => simp
        | some l1 => simp
    · simp [basecall_read, hd, h, emit_base_seq, Function.update]
  · intro call0 call1 h0 h1
    cases hd : do_2d two_d_hmm min_read_len read_summary.num_events
    · simp only [basecall_read, hd, basecall_single_output, h0, emit_base_seq]
      cases write_fasta fuel fasta_line_width (record_name read_id base_file_name 0)
          call0.base_seq with
      | none => simp
      | some l0 =>
        simp only [Bool.not_false, if_true, Option.map_some', Option.some_bind, h1]
        cases write_fasta fuel fasta_line_width (record_name read_id base_file_name 1)
            call1.base_seq with
        | none => simp
        | some l1 => simp
    · simp [basecall_read, hd, basecall_single_output, h0, h1, emit_base_seq, Function.update]
  · intro call0 h0 h1
    have hshort := basecall_single_strand_ignored _ _ _ _ h1
    rw [basecall_single_strand_num_events _ _ _ _ _ h0] at hshort
    have hd := do_2d_of_short two_d_hmm _ _ _ hshort
    simp only [basecall_read, hd, basecall_single_output, h0, emit_base_seq]
    cases write_fasta fuel fasta_line_width (record_name read_id base_file_name 0)
        call0.base_seq with
    | none => simp
    | some l0 => simp [h1]
  · intro call1 h0 h1
    have hshort := basecall_single_strand_ignored _ _ _ _ h0
    have hd := do_2d_of_short two_d_hmm _ _ _ hshort
    simp only [basecall_read, hd, basecall_single_output, h0, emit_base_seq]
    simp only [Option.some_bind, h1]
    cases write_fasta fuel fasta_line_width (record_name read_id base_file_name 1)
        call1.base_seq with
    | none => simp
    | some l1 => simp
  · intro h0 h1
    have hshort := basecall_single_strand_ignored _ _ _ _ h0
    have hd := do_2d_of_short two_d_hmm _ _ _ hshort
    simp [basecall_read, hd, basecall_single_output, h0, h1]

/-- C21 (amended) at a read with 100 events on both strands: with `--2d-hmm`
the output is the view of the two decoded sequences. -/
theorem fasta_unless_two_d_witness :
    basecall_read fixed_basecall sample_view 10 10 4 true "read" "file" false two_strand_read
      = some (sample_view "ACGTAC" "GTACGT") :=
  (fasta_unless_two_d fixed_basecall sample_view 10 10 4 true "read" "file"
    two_strand_read).2.2.1 _ _ rfl rfl

end ReadOutputLemmas

/-! ### The default transitions -/

/-- C22 as stated fails: with the default options the first argument of the
call is 0.3, the `--pr-skip` value, and the second is 0.1, the `--pr-stay`
value; the call the claim describes has them the other way round. -/
theorem default_transitions_argument_order :
    init_transitions (fun _ => ((0 : ℚ), (0 : ℚ))) recorded_call default_transition_opts
      = (3 / 10, 1 / 10)
    ∧ init_transitions_as_specified recorded_call default_transition_opts = (1 / 10, 3 / 10)
    ∧ init_transitions (fun _ => ((0 : ℚ), (0 : ℚ))) recorded_call default_transition_opts
      ≠ init_transitions_as_specified recorded_call default_transition_opts := by
  refine ⟨rfl, rfl, ?_⟩
  intro h
  have h1 : ((3 : ℚ) / 10, (1 : ℚ) / 10) = ((1 : ℚ) / 10, (3 : ℚ) / 10) := h
  have h2 : (3 : ℚ) / 10 = 1 / 10 := congrArg Prod.fst h1
  norm_num at h2

/-- C22, amended: when no custom transitions file is given, `init_transitions`
builds the default transitions by calling `compute_transitions_fast` with the
`--pr-skip` value as first argument and the `--pr-stay` value as second
argument. -/
theorem init_transitions_default {Float_Type Transitions : Type}
    (load_transitions : String → Transitions)
    (compute_transitions_fast : Float_Type → Float_Type → Transitions)
    (o : Transition_Opts Float_Type) (h : o.trans_fn = "") :
    init_transitions load_transitions compute_transitions_fast o
      = compute_transitions_fast o.pr_skip o.pr_stay := by
  simp [init_transitions, h]

/-- C22 (amended) at the default options: the call is
`compute_transitions_fast(0.3, 0.1)`. -/
theorem init_transitions_default_witness :
    init_transitions (fun _ => ((0 : ℚ), (0 : ℚ))) recorded_call default_transition_opts
      = recorded_call (3 / 10) (1 / 10) :=
  init_transitions_default _ recorded_call default_transition_opts rfl

/-! ### Consistency of the cached fields -/

/-- Storing four numbers with positive `sd_mean` and `sd_stdv`, then
`update_sd_lambda` and `update_logs`, gives a consistent state with positive
`sd_mean` and `sd_lambda`. -/
lemma Pore_Model_State.parse_consistent (s : Pore_Model_State ℝ)
    (level_mean level_stdv sd_mean sd_stdv : ℝ) (h_mean : 0 < sd_mean) (h_stdv : 0 < sd_stdv) :
    (s.parse real_ops level_mean level_stdv sd_mean sd_stdv).consistent
    ∧ 0 < (s.parse real_ops level_mean level_stdv sd_mean sd_stdv).sd_mean
    ∧ 0 < (s.parse real_ops level_mean level_stdv sd_mean sd_stdv).sd_lambda := by
  have h3 : sd_mean ^ (3 : ℝ) = sd_mean ^ 3 := by
    rw [← Real.rpow_natCast]; norm_num
  have h2 : sd_stdv ^ (2 : ℝ) = sd_stdv ^ 2 := by
    rw [← Real.rpow_natCast]; norm_num
  have hpos2 : 0 < sd_stdv ^ 2 := pow_pos h_stdv 2
  have hpos3 : 0 < sd_mean ^ 3 := pow_pos h_mean 3
  simp only [Pore_Model_State.parse, Pore_Model_State.consistent,
    Pore_Model_State.update_logs, Pore_Model_State.update_sd_lambda, real_ops, h3, h2]
  refine ⟨⟨trivial, trivial, ?_⟩, h_mean, div_pos hpos3 hpos2⟩
  field_simp

/-- Assignment from a model entry is the stream parse of its four fields. -/
lemma Pore_Model_State.assign_eq_parse {Float_Type : Type} [Field Float_Type]
    (ops : Float_Ops Float_Type) (s : Pore_Model_State Float_Type) (e : Model_Entry Float_Type) :
    s.assign ops e = s.parse ops e.level_mean e.level_stdv e.sd_mean e.sd_stdv := rfl

/-- The step of the invariant: `scale` with positive `scale_sd` and `var_sd`
keeps a state with positive `sd_mean` and `sd_lambda` consistent. -/
lemma Pore_Model_State.scale_consistent (s : Pore_Model_State ℝ) (p : Pore_Model_Parameters ℝ)
    (h_mean : 0 < s.sd_mean) (h_lambda : 0 < s.sd_lambda)
    (h_scale_sd : 0 < p.scale_sd) (h_var_sd : 0 < p.var_sd) :
    (s.scale real_ops p).consistent
    ∧ 0 < (s.scale real_ops p).sd_mean
    ∧ 0 < (s.scale real_ops p).sd_lambda := by
  have hm : 0 < s.sd_mean * p.scale_sd := mul_pos h_mean h_scale_sd
  have hl : 0 < s.sd_lambda * p.var_sd := mul_pos h_lambda h_var_sd
  have h3 : (s.sd_mean * p.scale_sd) ^ (3 : ℝ) = (s.sd_mean * p.scale_sd) ^ 3 := by
    rw [← Real.rpow_natCast]; norm_num
  have hq : 0 ≤ (s.sd_mean * p.scale_sd) ^ 3 / (s.sd_lambda * p.var_sd) :=
    le_of_lt (div_pos (pow_pos hm 3) hl)
  have hsq : (((s.sd_mean * p.scale_sd) ^ 3 / (s.sd_lambda * p.var_sd)) ^ ((1 : ℝ) / 2)) ^ 2
      = (s.sd_mean * p.scale_sd) ^ 3 / (s.sd_lambda * p.var_sd) := by
    rw [← Real.sqrt_eq_rpow, Real.sq_sqrt hq]
  simp only [Pore_Model_State.scale, Pore_Model_State.consistent,
    Pore_Model_State.update_logs, Pore_Model_State.update_sd_stdv, real_ops, h3, hsq]
  refine ⟨⟨trivial, trivial, ?_⟩, hm, hl⟩
  field_simp

/-- Consistency and the two signs are kept by any sequence of calls of `scale`
with positive `scale_sd` and `var_sd`. -/
lemma Pore_Model_State.foldl_scale_consistent (ps : List (Pore_Model_Parameters ℝ))
    (hps : ∀ p ∈ ps, 0 < p.var ∧ 0 < p.scale_sd ∧ 0 < p.var_sd) :
    ∀ s : Pore_Model_State ℝ, s.consistent → 0 < s.sd_mean → 0 < s.sd_lambda →
      (ps.foldl (Pore_Model_State.scale real_ops) s).consistent := by
  induction ps with
  | nil => intro s hs _ _; exact hs
  | cons p rest ih =>
    intro s _ h_mean h_lambda
    obtain ⟨_, h_scale_sd, h_var_sd⟩ := hps p (List.mem_cons_self _ _)
    obtain ⟨hc, hm, hl⟩ := Pore_Model_State.scale_consistent s p h_mean h_lambda h_scale_sd h_var_sd
    exact ih (fun q hq => hps q (List.mem_cons_of_mem _ hq)) _ hc hm hl

/-- C23: a state loaded with `sd_mean > 0` and `sd_stdv > 0`, by assignment
from a model entry or by the stream parse, is consistent
(`log_level_stdv = ln(level_stdv)`, `log_sd_lambda = ln(sd_lambda)`,
`sd_lambda * sd_stdv^2 = sd_mean^3`), and it is consistent again after every
further call of `scale` with `var > 0`, `scale_sd > 0` and `var_sd > 0`: the
list `ps` holds the parameters of the calls made so far, in order. -/
theorem state_consistency_invariant (s : Pore_Model_State ℝ) (e : Model_Entry ℝ)
    (level_mean level_stdv sd_mean sd_stdv : ℝ) (ps : List (Pore_Model_Parameters ℝ))
    (h_entry_mean : 0 < e.sd_mean) (h_entry_stdv : 0 < e.sd_stdv)
    (h_mean : 0 < sd_mean) (h_stdv : 0 < sd_stdv)
    (hps : ∀ p ∈ ps, 0 < p.var ∧ 0 < p.scale_sd ∧ 0 < p.var_sd) :
    (ps.foldl (Pore_Model_State.scale real_ops) (s.assign real_ops e)).consistent
    ∧ (ps.foldl (Pore_Model_State.scale real_ops)
        (s.parse real_ops level_mean level_stdv sd_mean sd_stdv)).consistent := by
  constructor
  · rw [Pore_Model_State.assign_eq_parse]
    obtain ⟨hc, hm, hl⟩ := Pore_Model_State.parse_consistent s e.level_mean e.level_stdv
      e.sd_mean e.sd_stdv h_entry_mean h_entry_stdv
    exact Pore_Model_State.foldl_scale_consistent ps hps _ hc hm hl
  · obtain ⟨hc, hm, hl⟩ := Pore_Model_State.parse_consistent s level_mean level_stdv
      sd_mean sd_stdv h_mean h_stdv
    exact Pore_Model_State.foldl_scale_consistent ps hps _ hc hm hl

/-- C23 at a state loaded with sd 2 ± 1 (from an entry, and from the stream
with sd 3 ± 2) and scaled twice with every multiplier 2. -/
theorem state_consistency_invariant_witness :
    ([doubling_parameters ℝ, doubling_parameters ℝ].foldl (Pore_Model_State.scale real_ops)
        ((unit_state ℝ).assign real_ops (plain_entry ℝ))).consistent
    ∧ ([doubling_parameters ℝ, doubling_parameters ℝ].foldl (Pore_Model_State.scale real_ops)
        ((unit_state ℝ).parse real_ops 0 1 3 2)).consistent :=
  state_consistency_invariant (unit_state ℝ) (plain_entry ℝ) 0 1 3 2
    [doubling_parameters ℝ, doubling_parameters ℝ]
    (by simp [plain_entry]) (by simp [plain_entry]) (by norm_num) (by norm_num)
    (by
      intro p hp
      have h : p = doubling_parameters ℝ := by simpa using hp
      rw [h]
      simp [doubling_parameters])

/-! ### Index ranges of the training segments -/

/-- C24: for a strand with `n` events and any `scaling_num_events`, let
`h = min(scaling_num_events, n) / 2`.  The two training segments built by
`train_reads` (built when the strand has at least `min_read_len` events) are
the prefix `[0, h)` and the suffix `[n - h, n)` of the event list: the `i`-th
event of the first is event `i`, the `i`-th event of the second is event
`n - h + i`, both hold `h` events, both ranges lie within `[0, n]`, and they
are disjoint, the prefix ending no later than the suffix starts. -/
theorem train_segments_ranges {Event_Type : Type} (min_read_len scaling_num_events : Nat)
    (events : List Event_Type) :
    (min_read_len ≤ events.length →
      train_event_seqs min_read_len scaling_num_events events
        = [events.take (min scaling_num_events events.length / 2),
           events.drop (events.length - min scaling_num_events events.length / 2)])
    ∧ (events.take (min scaling_num_events events.length / 2)).length
        = min scaling_num_events events.length / 2
    ∧ (events.drop (events.length - min scaling_num_events events.length / 2)).length
        = min scaling_num_events events.length / 2
    ∧ (∀ i, i < min scaling_num_events events.length / 2 →
        (events.take (min scaling_num_events events.length / 2))[i]? = events[i]?
        ∧ i < events.length)
    ∧ (∀ i, i < min scaling_num_events events.length / 2 →
        (events.drop (events.length - min scaling_num_events events.length / 2))[i]?
          = events[events.length - min scaling_num_events events.length / 2 + i]?
        ∧ events.length - min scaling_num_events events.length / 2 + i < events.length)
    ∧ min scaling_num_events events.length / 2 ≤ events.length
    ∧ events.length - min scaling_num_events events.length / 2
        + min scaling_num_events events.length / 2 = events.length
    ∧ min scaling_num_events events.length / 2
        ≤ events.length - min scaling_num_events events.length / 2 := by
  have hmin : min scaling_num_events events.length ≤ events.length := Nat.min_le_right _ _
  have hhalf : min scaling_num_events events.length / 2 ≤ events.length :=
    le_trans (Nat.div_le_self _ _) hmin
  have hdisj : min scaling_num_events events.length / 2
      ≤ events.length - min scaling_num_events events.length / 2 := by omega
  refine ⟨?_, ?_, ?_, ?_, ?_, hhalf, by omega, hdisj⟩
  · intro h
    have hnot : ¬ events.length < min_read_len := not_lt.mpr h
    simp only [train_event_seqs, hnot, if_false, num_strands]
  · rw [List.length_take]; exact Nat.min_eq_left hhalf
  · rw [List.length_drop]; omega
  · intro i hi
    exact ⟨by rw [List.getElem?_take, if_pos hi], by omega⟩
  · intro i hi
    exact ⟨List.getElem?_drop _ _ _, by omega⟩

/-- C24 at a strand of 7 events with `min_read_len = 3` and
`scaling_num_events = 4`: the segments are events 0, 1 and events 5, 6. -/
theorem train_segments_ranges_witness :
    train_event_seqs 3 4 [10, 11, 12, 13, 14, 15, 16] = [[10, 11], [15, 16]] :=
  (train_segments_ranges 3 4 [10, 11, 12, 13, 14, 15, 16]).1 (by decide)

/-! ### The pair chosen when the strands are scaled together -/

section BestPair

variable {Params St_Params Float_Type : Type}

/-- When the strands are scaled together and the read is decoded, its output is
the view of the two sequences of `results.back()` if `do_2d`, else their two
FASTA records. -/
lemma basecall_read_together [LinearOrder Float_Type] [Add Float_Type] [Inhabited St_Params]
    (basecall_strand : Fin 2 → String → Params → St_Params → Float_Type × String)
    (two_d_output : String → String → List String)
    (fuel min_read_len fasta_line_width : Nat) (two_d_hmm : Bool)
    (read_id base_file_name : String) (read_summary : Fast5_Summary Params St_Params)
    (call : Read_Call Params St_Params Float_Type)
    (h : basecall_double_strand basecall_strand read_summary = Strand_Outcome.decoded call) :
    basecall_read basecall_strand two_d_output fuel min_read_len fasta_line_width
        two_d_hmm read_id base_file_name true read_summary
      = if do_2d two_d_hmm min_read_len read_summary.num_events = true then
          some (two_d_output (call.base_seq 0) (call.base_seq 1))
        else
          (write_fasta fuel fasta_line_width (record_name read_id base_file_name 0)
            (call.base_seq 0)).bind fun record0 =>
          (write_fasta fuel fasta_line_width (record_name read_id base_file_name 1)
            (call.base_seq 1)).map fun record1 => record0 ++ record1 := by
  cases hd : do_2d two_d_hmm min_read_len read_summary.num_events
  · simp only [basecall_read, hd, h, emit_base_seq]
    cases write_fasta fuel fasta_line_width (record_name read_id base_file_name 0)
        (call.base_seq 0) with
    | none => simp
    | some l0 =>
      cases write_fasta fuel fasta_line_width (record_name read_id base_file_name 1)
          (call.base_seq 1) with
      | none => simp
      | some l1 => simp
  · simp [basecall_read, hd, h, emit_base_seq, Function.update]

/-- The candidate pairs of `pair_read`. -/
lemma pair_read_sublist : model_sublist_double pair_read = [("a", "c"), ("b", "c")] := by
  decide

/-- Every candidate pair of `pair_read` has its parameters stored. -/
lemma pair_read_params :
    ∀ m_name ∈ model_sublist_double pair_read, ∃ pm_params st_params,
      map_at pair_read.pm_params_m m_name = some pm_params
      ∧ map_at pair_read.st_params_m m_name = some st_params := by
  intro m hm
  rw [pair_read_sublist] at hm
  rcases List.mem_cons.mp hm with h | h
  · exact ⟨1, fun _ => 0, by rw [h]; rfl, by rw [h]; rfl⟩
  · rw [List.mem_singleton.mp h]
    exact ⟨2, fun _ => 0, rfl, rfl⟩

/-- C25: in double-strand-scaling decoding with a non-empty list of candidate
pairs whose parameters are stored, the read is decoded, the chosen pair is a
candidate pair whose sum of the two strands' path probabilities is at least the
sum of every candidate pair tried, and the sequences emitted for strand 0 and
strand 1 (as FASTA records, or in the 2D view) are both the ones decoded with
that same pair and its parameters. -/
theorem double_strand_picks_best_pair [LinearOrder Float_Type] [Add Float_Type]
    [Inhabited St_Params]
    (basecall_strand : Fin 2 → String → Params → St_Params → Float_Type × String)
    (two_d_output : String → String → List String)
    (fuel min_read_len fasta_line_width : Nat) (two_d_hmm : Bool)
    (read_id base_file_name : String) (read_summary : Fast5_Summary Params St_Params)
    (h_nonempty : model_sublist_double read_summary ≠ [])
    (h_params : ∀ m_name ∈ model_sublist_double read_summary, ∃ pm_params st_params,
      map_at read_summary.pm_params_m m_name = some pm_params
      ∧ map_at read_summary.st_params_m m_name = some st_params) :
    ∃ call best pm_params st_params,
      basecall_double_strand basecall_strand read_summary = Strand_Outcome.decoded call
      ∧ best ∈ model_sublist_double read_summary
      ∧ map_at read_summary.pm_params_m best = some pm_params
      ∧ map_at read_summary.st_params_m best = some st_params
      ∧ call.best_m_name = best
      ∧ (∀ st, call.best_log_path_prob st
          = (basecall_strand st (best.get st) pm_params (st_params st)).1)
      ∧ (∀ st, call.base_seq st
          = (basecall_strand st (best.get st) pm_params (st_params st)).2)
      ∧ (∀ m_name ∈ model_sublist_double read_summary, ∀ pm_params2 st_params2,
          map_at read_summary.pm_params_m m_name = some pm_params2 →
          map_at read_summary.st_params_m m_name = some st_params2 →
          (basecall_strand 0 (m_name.get 0) pm_params2 (st_params2 0)).1
              + (basecall_strand 1 (m_name.get 1) pm_params2 (st_params2 1)).1
            ≤ call.best_log_path_prob 0 + call.best_log_path_prob 1)
      ∧ basecall_read basecall_strand two_d_output fuel min_read_len fasta_line_width
            two_d_hmm read_id base_file_name true read_summary
          = if do_2d two_d_hmm min_read_len read_summary.num_events = true then
              some (two_d_output
                (basecall_strand 0 (best.get 0) pm_params (st_params 0)).2
                (basecall_strand 1 (best.get 1) pm_params (st_params 1)).2)
            else
              (write_fasta fuel fasta_line_width (record_name read_id base_file_name 0)
                (basecall_strand 0 (best.get 0) pm_params (st_params 0)).2).bind fun record0 =>
              (write_fasta fuel fasta_line_width (record_name read_id base_file_name 1)
                (basecall_strand 1 (best.get 1) pm_params (st_params 1)).2).map
                  fun record1 => record0 ++ record1 := by
  obtain ⟨call, best, pm, stp, h1, h2, h3, h4, h5, h6, h7, _, h9⟩ :=
    basecall_double_strand_spec basecall_strand read_summary h_nonempty h_params
  refine ⟨call, best, pm, stp, h1, h2, h3, h4, h5, h6, h7, ?_, ?_⟩
  · intro m hm pm2 stp2 hpm2 hstp2
    have hnot := h9 m hm pm2 stp2 hpm2 hstp2
    unfold tuple7_lt at hnot
    have f1 := lex_lt_first_le _ _ _ hnot
    rw [h6 0, h6 1]
    exact f1
  · rw [basecall_read_together basecall_strand two_d_output fuel min_read_len fasta_line_width
      two_d_hmm read_id base_file_name read_summary call h1, h7 0, h7 1]

/-- C25 at a read with the candidate pairs ("a", "c") of sum 2 and ("b", "c") of
sum 4: the pair ("b", "c") is chosen and both sequences come from it. -/
theorem double_strand_picks_best_pair_witness :
    ∃ call, basecall_double_strand sample_basecall pair_read = Strand_Outcome.decoded call
      ∧ (2 : ℤ) ≤ call.best_log_path_prob 0 + call.best_log_path_prob 1
      ∧ (4 : ℤ) ≤ call.best_log_path_prob 0 + call.best_log_path_prob 1 := by
  obtain ⟨call, best, pm, stp, h1, _, _, _, _, _, _, h8, _⟩ :=
    double_strand_picks_best_pair sample_basecall sample_view 10 10 80 false "read" "file"
      pair_read (by rw [pair_read_sublist]; exact List.cons_ne_nil _ _) pair_read_params
  have ha : (("a", "c") : Model_Key) ∈ model_sublist_double pair_read := by
    rw [pair_read_sublist]; simp
  have hb : (("b", "c") : Model_Key) ∈ model_sublist_double pair_read := by
    rw [pair_read_sublist]; simp
  exact ⟨call, h1, h8 _ ha 1 (fun _ => 0) rfl rfl, h8 _ hb 2 (fun _ => 0) rfl rfl⟩

end BestPair

/-! ### Termination of write_fasta -/

/-- With fewer iterations than `ceil(rest / w)` the loop of `write_fasta` is
not at its end. -/
lemma write_fasta_loop_short (w : Nat) (seq : String) (hw : 1 ≤ w) :
    ∀ (fuel pos : Nat), pos + lines_needed (seq.length - pos) w * w < 2 ^ 32 →
      fuel < lines_needed (seq.length - pos) w →
      write_fasta_loop w seq fuel pos = none := by
  intro fuel
  induction fuel with
  | zero =>
    intro pos _ hfuel
    have hd := lines_needed_pos _ w hw hfuel
    have hpos : pos < seq.length := by omega
    simp [write_fasta_loop, hpos]
  | succ fuel ih =>
    intro pos hwrap hfuel
    have hone : 1 ≤ lines_needed (seq.length - pos) w := by omega
    have hd := lines_needed_pos _ w hw hone
    have hpos : pos < seq.length := by omega
    have hstep := lines_needed_step (seq.length - pos) w hw hd
    have hsub : seq.length - pos - w = seq.length - (pos + w) := by omega
    rw [hsub] at hstep
    rw [hstep] at hwrap hfuel
    have hmul : (lines_needed (seq.length - (pos + w)) w + 1) * w
        = lines_needed (seq.length - (pos + w)) w * w + w := by ring
    rw [hmul] at hwrap
    have hmod : (pos + w) % 2 ^ 32 = pos + w := Nat.mod_eq_of_lt (by omega)
    have hnone := ih (pos + w) (by omega) (by omega)
    simp only [write_fasta_loop, hpos, if_true, hmod, hnone, Option.map_none']

/-- With a line width of 0 the counter of `write_fasta` stays at 0, and the
loop never ends on a sequence that is not empty. -/
lemma write_fasta_loop_zero_width (seq : String) (hlen : 0 < seq.length) :
    ∀ fuel : Nat, write_fasta_loop 0 seq fuel 0 = none := by
  intro fuel
  induction fuel with
  | zero => simp [write_fasta_loop, hlen]
  | succ fuel ih =>
    have hmod : (0 + 0) % 2 ^ 32 = 0 := by norm_num
    simp only [write_fasta_loop, hlen, if_true, hmod, ih, Option.map_none']

/-- With a line width of `2 ^ 31` and more than `2 ^ 31` characters the counter
of `write_fasta` goes 0, `2 ^ 31`, 0, ... and the loop never ends. -/
lemma write_fasta_loop_cycles (seq : String) (hlen : 2 ^ 31 < seq.length) :
    ∀ (fuel pos : Nat), pos = 0 ∨ pos = 2 ^ 31 →
      write_fasta_loop (2 ^ 31) seq fuel pos = none := by
  intro fuel
  induction fuel with
  | zero =>
    intro pos hpos
    have : pos < seq.length := by rcases hpos with h | h <;> omega
    simp [write_fasta_loop, this]
  | succ fuel ih =>
    intro pos hpos
    have hlt : pos < seq.length := by rcases hpos with h | h <;> omega
    have hnext : (pos + 2 ^ 31) % 2 ^ 32 = 0 ∨ (pos + 2 ^ 31) % 2 ^ 32 = 2 ^ 31 := by
      rcases hpos with h | h <;> (rw [h]; omega)
    simp only [write_fasta_loop, hlt, if_true, ih _ hnext, Option.map_none']

/-- C26 as stated fails twice.  With `--fasta-line-width 0`, a value the
`unsigned` option accepts, `write_fasta` never ends on the one-base sequence
"A", whatever the number of iterations allowed.  With a width of `2 ^ 31` and a
sequence of `2 ^ 32 - 1` bases (fewer than `2 ^ 32`, two lines by the claim) the
`unsigned` counter returns to 0 after the second line and `write_fasta` never
ends either. -/
theorem write_fasta_may_not_terminate :
    (¬ ∃ fuel lines, write_fasta fuel 0 "read" "A" = some lines)
    ∧ (String.mk (List.replicate (2 ^ 32 - 1) 'A')).length < 2 ^ 32
    ∧ lines_needed (2 ^ 32 - 1) (2 ^ 31) = 2
    ∧ ¬ ∃ fuel lines,
        write_fasta fuel (2 ^ 31) "read" (String.mk (List.replicate (2 ^ 32 - 1) 'A'))
          = some lines := by
  have hlen : (String.mk (List.replicate (2 ^ 32 - 1) 'A')).length = 2 ^ 32 - 1 := by
    rw [String.length, List.length_replicate]
  refine ⟨?_, by rw [hlen]; norm_num, by norm_num [lines_needed], ?_⟩
  · rintro ⟨fuel, lines, h⟩
    rw [write_fasta, write_fasta_loop_zero_width "A" (by decide) fuel] at h
    cases h
  · rintro ⟨fuel, lines, h⟩
    rw [write_fasta, write_fasta_loop_cycles _ (by rw [hlen]; norm_num) fuel 0 (Or.inl rfl)] at h
    cases h

/-- C26, amended: for every name and every sequence `seq`, whenever
`fasta_line_width = w >= 1` and `ceil(|seq| / w) * w < 2 ^ 32` (the `unsigned`
position counter does not wrap), `write_fasta` terminates after exactly
`ceil(|seq| / w)` loop iterations: that many iterations bring the loop to its
end, with one line written per iteration, and no smaller number does. -/
theorem write_fasta_terminates (w : Nat) (name seq : String) (hw : 1 ≤ w)
    (h_no_wrap : lines_needed seq.length w * w < 2 ^ 32) :
    (∀ fuel, lines_needed seq.length w ≤ fuel →
      ∃ lines, write_fasta fuel w name seq = some ((">" ++ name) :: lines)
        ∧ lines.length = lines_needed seq.length w)
    ∧ (∀ fuel, fuel < lines_needed seq.length w → write_fasta fuel w name seq = none) := by
  constructor
  · intro fuel h_fuel
    obtain ⟨lines, hl, hlen, _⟩ :=
      write_fasta_loop_spec w seq hw fuel 0 (by simpa using h_no_wrap) (by simpa using h_fuel)
    exact ⟨lines, by rw [write_fasta, hl]; rfl, by simpa using hlen⟩
  · intro fuel h_fuel
    rw [write_fasta,
      write_fasta_loop_short w seq hw fuel 0 (by simpa using h_no_wrap) (by simpa using h_fuel)]
    rfl

/-- C26 (amended) at a sequence of 7 bases written 3 to a line: three
iterations end the loop, two do not. -/
theorem write_fasta_terminates_witness :
    (∃ lines, write_fasta 3 3 "read" "ACGTACG" = some ((">" ++ "read") :: lines)
      ∧ lines.length = lines_needed "ACGTACG".length 3)
    ∧ write_fasta 2 3 "read" "ACGTACG" = none :=
  ⟨(write_fasta_terminates 3 "read" "ACGTACG" (by decide) (by decide)).1 3 (by decide),
    (write_fasta_terminates 3 "read" "ACGTACG" (by decide) (by decide)).2 2 (by decide)⟩

/-! ### The models of each strand after init_models -/

section InitModels

variable {Model : Type}

/-- Reading the dictionary after an assignment. -/
lemma dict_at_set {Value : Type} (m : List (String × Value)) (key : String) (value : Value)
    (k : String) :
    dict_at (dict_set m key value) k = if key = k then some value else dict_at m k := by
  induction m with
  | nil => simp [dict_set, dict_at]
  | cons kv rest ih =>
    obtain ⟨k0, v0⟩ := kv
    unfold dict_set
    by_cases h1 : k0 = key
    · rw [if_pos h1]
      by_cases h2 : key = k
      · simp [dict_at, h2]
      · have h3 : ¬ k0 = k := by rw [h1]; exact h2
        simp [dict_at, h2, h3]
    · rw [if_neg h1]
      by_cases hlt : key < k0
      · rw [if_pos hlt]
        by_cases h2 : key = k
        · simp [dict_at, h2]
        · simp [dict_at, h2]
      · rw [if_neg hlt]
        by_cases h3 : k0 = k
        · have h2 : ¬ key = k := fun h => h1 (by rw [h3, h])
          simp only [dict_at, if_pos h3, if_neg h2]
        · simp only [dict_at, if_neg h3]
          exact ih

/-- A value read from the dictionary is one of its entries. -/
lemma dict_at_mem {Value : Type} (m : List (String × Value)) (k : String) (v : Value)
    (h : dict_at m k = some v) : (k, v) ∈ m := by
  induction m with
  | nil => simp [dict_at] at h
  | cons kv rest ih =>
    obtain ⟨k0, v0⟩ := kv
    unfold dict_at at h
    by_cases h1 : k0 = k
    · rw [if_pos h1] at h
      cases h
      rw [h1]
      exact List.mem_cons_self _ _
    · rw [if_neg h1] at h
      exact List.mem_cons_of_mem _ (ih h)

/-- After the files of a strand are loaded, each of them is stored with the tag
of the strand, and the other entries of the dictionary are as before. -/
lemma load_models_at (read_model : String → Option Model) (st : Nat) (names : List String) :
    ∀ (models result : Pore_Model_Dict Model),
      load_models read_model st models names = some result →
      ∀ k, (k ∈ names → ∃ pm, dict_at result k = some (st, pm))
        ∧ (k ∉ names → dict_at result k = dict_at models k) := by
  induction names with
  | nil =>
    intro models result h k
    simp only [load_models, Option.some.injEq] at h
    rw [← h]
    exact ⟨fun hk => absurd hk (List.not_mem_nil _), fun _ => rfl⟩
  | cons e rest ih =>
    intro models result h k
    unfold load_models at h
    cases hr : read_model e with
    | none => rw [hr] at h; cases h
    | some pm =>
      rw [hr] at h
      have hrest := ih _ _ h k
      by_cases hk : k ∈ rest
      · exact ⟨fun _ => hrest.1 hk, fun hn => absurd (List.mem_cons_of_mem _ hk) hn⟩
      · have hsame := hrest.2 hk
        rw [dict_at_set] at hsame
        constructor
        · intro hmem
          rcases List.mem_cons.mp hmem with he | he
          · rw [hsame, if_pos he.symm]
            exact ⟨pm, rfl⟩
          · exact absurd he hk
        · intro hn
          have hne : ¬ e = k := fun he => hn (by rw [← he]; exact List.mem_cons_self _ _)
          rw [hsame, if_neg hne]

/-- What `init_models` guarantees when it returns after custom models were
given: a model tagged 1 or 2 is in the dictionary, and so is a model tagged 0
or 2 provided that a model is given for both strands (tag 2) or some file given
for strand 0 is not given for strand 1 as well. -/
lemma init_models_covers (read_model : String → Option Model)
    (builtin : List (String × Nat × Model)) (model_fn : List String) (model_fofn : String)
    (fofn_lines : List String) (model_list : Nat → List String)
    (result : Pore_Model_Dict Model)
    (h_list : init_model_list model_fn model_fofn fofn_lines = some model_list)
    (h_custom : ¬ (model_list 0 = [] ∧ model_list 1 = [] ∧ model_list 2 = []))
    (h : init_models read_model builtin model_fn model_fofn fofn_lines [] = some result) :
    (∃ p ∈ result, p.2.1 = 1 ∨ p.2.1 = 2)
    ∧ ((model_list 2 ≠ [] ∨ ∃ e ∈ model_list 0, e ∉ model_list 1) →
        ∃ p ∈ result, p.2.1 = 0 ∨ p.2.1 = 2) := by
  unfold init_models at h
  rw [h_list] at h
  simp only at h
  split at h
  · cases h
  · rename_i hcheck
    have hcustom2 : (!((model_list 0).isEmpty && (model_list 1).isEmpty
        && (model_list 2).isEmpty)) = true := by
      by_contra hc
      apply h_custom
      simp only [Bool.not_eq_true, Bool.not_eq_false', Bool.and_eq_true, List.isEmpty_iff] at hc
      exact ⟨hc.1.1, hc.1.2, hc.2⟩
    rw [if_pos hcustom2] at h
    cases h0 : load_models read_model 0 [] (model_list 0) with
    | none => rw [h0] at h; cases h
    | some models0 =>
      rw [h0] at h
      simp only [Option.some_bind] at h
      cases h1 : load_models read_model 1 models0 (model_list 1) with
      | none => rw [h1] at h; cases h
      | some models1 =>
        rw [h1] at h
        simp only [Option.some_bind] at h
        by_cases h2 : model_list 2 = []
        · -- no model for both strands: each strand has its own
          rw [h2] at h
          simp only [load_models, Option.some.injEq] at h
          subst h
          have hboth : (model_list 0 = [] ↔ model_list 1 = []) := by
            have hc := hcheck
            simp only [h2, List.isEmpty_nil, Bool.true_and, bne_iff_ne, ne_eq,
              List.isEmpty_iff, Bool.not_eq_true] at hc
            by_cases ha : model_list 0 = [] <;> by_cases hb : model_list 1 = [] <;>
              simp_all
          have hne1 : model_list 1 ≠ [] := fun hb => h_custom ⟨hboth.mpr hb, hb, h2⟩
          obtain ⟨e1, he1⟩ := List.exists_mem_of_ne_nil _ hne1
          obtain ⟨pm1, hat1⟩ := (load_models_at read_model 1 _ _ _ h1 e1).1 he1
          refine ⟨⟨(e1, (1, pm1)), dict_at_mem _ _ _ hat1, Or.inl rfl⟩, ?_⟩
          rintro (hc | ⟨e0, he0, hnot⟩)
          · exact absurd h2 hc
          · obtain ⟨pm0, hat0⟩ := (load_models_at read_model 0 _ _ _ h0 e0).1 he0
            have hkeep := (load_models_at read_model 1 _ _ _ h1 e0).2 hnot
            rw [hat0] at hkeep
            exact ⟨(e0, (0, pm0)), dict_at_mem _ _ _ hkeep, Or.inl rfl⟩
        · obtain ⟨e2, he2⟩ := List.exists_mem_of_ne_nil _ h2
          obtain ⟨pm2, hat2⟩ := (load_models_at read_model 2 _ _ _ h e2).1 he2
          exact ⟨⟨(e2, (2, pm2)), dict_at_mem _ _ _ hat2, Or.inr rfl⟩,
            fun _ => ⟨(e2, (2, pm2)), dict_at_mem _ _ _ hat2, Or.inr rfl⟩⟩

/-- C27 fails on the code at `-m 0:f -m 1:f`: `init_models` returns, the one
entry of the dictionary is the model "f" with the strand tag 1 (the second
assignment to `models["f"]` replaces the first), no model is tagged 0 or 2, and
the candidate list of strand 0 of a read with 100 events on that strand and no
preferred model is empty. -/
theorem same_file_for_both_strands :
    (init_model_list ["0:f", "1:f"] "" []).map
        (fun model_list => (model_list 0, model_list 1, model_list 2))
      = some (["f"], ["f"], [])
    ∧ init_models (fun _ => some ()) [] ["0:f", "1:f"] "" [] [] = some [("f", (1, ()))]
    ∧ (∀ p ∈ [("f", ((1 : Nat), ()))], ¬ (p.2.1 = 0 ∨ p.2.1 = 2))
    ∧ ¬ sample_read.num_events 0 < 10
    ∧ (sample_read.preferred_model 0).get 0 = ""
    ∧ train_model_list [("f", ((1 : Nat), ()))] 10 sample_read 0 = [] := by
  decide

end InitModels

end Nanocall
